import Mathlib

/-!
# HandBrake audio/video synchronisation stage (libhb/sync.c)

A shallow embedding of the two workers of libhb/sync.c, syncVideoWork and
syncAudioWork, with the helpers OutputAudioFrame, InsertSilence and UpdateState.

Conventions of the embedding

* C integers (int64_t time stamps, int counters) are mathematical integers.
  Signed overflow is undefined behaviour in C, so the embedding describes the
  executions in which no stamp arithmetic overflows.  The two places where the
  source narrows an int64_t value to int (frame_count in InsertSilence and
  count_out in OutputAudioFrame) go through int32_of.
* Integer division is C division (truncation towards zero), Int.tdiv.
* A FIFO is a list, oldest buffer first; hb_fifo_push appends at the end,
  hb_fifo_see and hb_fifo_see2 look at the first and the second element,
  hb_fifo_get removes the first.
* A worker call is a function from the state before the call and the input
  buffer to the state after the call, the status, the buffers the call pushed
  itself and the buffer it handed back in buf_out.
* The mutex, the reference count, logging and the wall-clock statistics of
  UpdateState are not part of the embedding.
* The workers run on threads of their own and share hb_sync_common_t; every
  access to the two slips is under the mutex.  Where the workers are taken
  together (stageStep, stageRun) a call of a work function is one step and the
  calls come in any order.
-/

namespace Sync

/-! ## Buffers -/

/-- The buffer hanging off the sub field of a video buffer: the fields of
hb_buffer_t without a further sub link. -/
structure hb_sub_buffer_t where
  size : Int
  data : List Nat
  start : Int
  stop : Int
  sequence : Int
  x : Int
  y : Int
  width : Int
  height : Int
  deriving DecidableEq, Repr

/-- The fields of hb_buffer_t that sync.c reads or writes.  The payload bytes
are the list data; size is the C field of the same name (0 marks the
end-of-stream buffer). -/
structure hb_buffer_t where
  size : Int
  data : List Nat
  start : Int
  stop : Int
  sequence : Int
  new_chap : Int
  frametype : Int
  x : Int
  y : Int
  width : Int
  height : Int
  sub : Option hb_sub_buffer_t
  deriving DecidableEq, Repr

/-- Modelled from the spec: hb_buffer_init lives in fifo.c, which is not among
the sources.  The spec fixes that a buffer of size 0 is the end-of-stream
sentinel; the fresh buffer has the requested size, and every other field and
every payload byte is taken to be zero (the buffer header is zero-allocated). -/
def hb_buffer_init (size : Int) : hb_buffer_t :=
  { size := size, data := List.replicate size.toNat 0, start := 0, stop := 0,
    sequence := 0, new_chap := 0, frametype := 0, x := 0, y := 0, width := 0,
    height := 0, sub := none }

/-- The same fresh buffer, as the target of the sub link. -/
def hb_sub_buffer_init (size : Int) : hb_sub_buffer_t :=
  { size := size, data := List.replicate size.toNat 0, start := 0, stop := 0,
    sequence := 0, x := 0, y := 0, width := 0, height := 0 }

/-- Value of HB_FRAME_AUDIO (hb.h is not among the sources; the value is only
stored, never tested). -/
def HB_FRAME_AUDIO : Int := 0x04

/-- The sentinel value of pts_offset before the first frame. -/
def INT64_MIN : Int := -9223372036854775807 - 1

/-- Samples in one AC-3 frame. -/
def AC3_SAMPLES_PER_FRAME : Int := 1536

/-- Conversion of a 64-bit value to int (two's complement wrap). -/
def int32_of (v : Int) : Int := (v + 2147483648) % 4294967296 - 2147483648

/-- Return codes of a work function. -/
inductive hb_work_status where
  | HB_WORK_OK
  | HB_WORK_DONE
  deriving DecidableEq, Repr

/-! ## Shared clock state and job -/

/-- The struct hb_sync_common_t, without the mutex and the reference count. -/
structure hb_sync_common_t where
  count_frames : Int
  audio_passthru_slip : Int
  video_pts_slip : Int
  deriving DecidableEq, Repr

/-- The job parameters the workers read.  eof_stop is the value of the double
expression cur->start + 90000. / ((double)vrate / (double)vrate_base) after
its conversion to int64_t, as a function of cur->start: floating point is kept
abstract. -/
structure hb_job_t where
  frame_to_stop : Int
  eof_stop : Int → Int

/-! ## Subtitle tracks -/

/-- Values of subtitle->source that the video worker distinguishes. -/
inductive hb_subtitle_source where
  | VOBSUB
  | SRTSUB
  | CC608SUB
  | CC708SUB
  | OTHERSUB
  deriving DecidableEq, Repr

/-- Values of subtitle->config.dest. -/
inductive hb_subtitle_dest where
  | RENDERSUB
  | PASSTHRUSUB
  deriving DecidableEq, Repr

/-- A subtitle track: its configuration and its three FIFOs. -/
structure hb_subtitle_t where
  source : hb_subtitle_source
  dest : hb_subtitle_dest
  fifo_raw : List hb_buffer_t
  fifo_sync : List hb_buffer_t
  fifo_out : List hb_buffer_t
  deriving DecidableEq, Repr

/-! ## Video worker -/

/-- The struct hb_sync_video_t without the wall-clock statistics. -/
structure hb_sync_video_t where
  pts_offset : Int
  pts_skip : Int
  next_start : Int
  next_pts : Int
  first_drop : Int
  drop_count : Int
  drops : Int
  dups : Int
  video_sequence : Int
  count_frames_max : Int
  chap_mark : Int
  cur : Option hb_buffer_t
  deriving DecidableEq, Repr

/-- Everything a call of syncVideoWork can read or write. -/
structure VideoState where
  common : hb_sync_common_t
  sync : hb_sync_video_t
  list_subtitle : List hb_subtitle_t
  deriving DecidableEq, Repr

/-- Outcome of one call of syncVideoWork: the state after the call, the return
code, the buffers pushed on job->fifo_sync inside the call and *buf_out. -/
structure VideoResult where
  state : VideoState
  status : hb_work_status
  fifo_sync : List hb_buffer_t
  buf_out : Option hb_buffer_t
  deriving DecidableEq, Repr

/-- State of the video worker after hb_sync_init: calloc zeroes every field,
pts_offset is set to INT64_MIN, count_frames_max to the expected frame count. -/
def initVideoSync (count_frames_max : Int) : hb_sync_video_t :=
  { pts_offset := INT64_MIN, pts_skip := 0, next_start := 0, next_pts := 0,
    first_drop := 0, drop_count := 0, drops := 0, dups := 0, video_sequence := 0,
    count_frames_max := count_frames_max, chap_mark := 0, cur := none }

/-- The shared state after hb_sync_init. -/
def initCommon : hb_sync_common_t :=
  { count_frames := 0, audio_passthru_slip := 0, video_pts_slip := 0 }

/-- The state of the video worker before its first call. -/
def initVideoState (count_frames_max : Int) (subs : List hb_subtitle_t) : VideoState :=
  { common := initCommon, sync := initVideoSync count_frames_max, list_subtitle := subs }

/-- UpdateState: the only effect on the synchronisation state is
count_frames++ (the rest is progress reporting from the wall clock). -/
def UpdateState (common : hb_sync_common_t) : hb_sync_common_t :=
  { common with count_frames := common.count_frames + 1 }

/-- Subtitle EOFs pushed when the very first video packet is the end of stream
(lines 244-251). -/
def pushFirstEof (s : hb_subtitle_t) : hb_subtitle_t :=
  if s.dest = hb_subtitle_dest.PASSTHRUSUB then
    { s with fifo_out := s.fifo_out ++ [hb_buffer_init 0] }
  else s

/-- Subtitle EOFs pushed when the end of stream follows a held frame
(lines 295-305). -/
def pushFinalEof (s : hb_subtitle_t) : hb_subtitle_t :=
  if s.dest = hb_subtitle_dest.PASSTHRUSUB then
    if s.source = hb_subtitle_source.VOBSUB then
      { s with fifo_sync := s.fifo_sync ++ [hb_buffer_init 0] }
    else
      { s with fifo_out := s.fifo_out ++ [hb_buffer_init 0] }
  else s

/-- The while loop of lines 400-437 (closed captions and SRT) on the raw queue
and the out queue of a track: returns the two queues after the loop. -/
def drainText (cur : hb_buffer_t) :
    List hb_buffer_t → List hb_buffer_t → List hb_buffer_t × List hb_buffer_t
  | [], out => ([], out)
  | sub :: raw, out =>
    if sub.size ≤ 0 then (raw, out ++ [sub])
    else if sub.start < cur.start then drainText cur raw (out ++ [sub])
    else (sub :: raw, out)

/-- Lines 455-459 and 517-522: clip the stop of sub at the start of the entry
behind it (hb_fifo_see2), if there is one and they overlap. -/
def clipToNext (sub : hb_buffer_t) (rest : List hb_buffer_t) : hb_buffer_t :=
  match rest with
  | [] => sub
  | sub2 :: _ => if sub.stop > sub2.start then { sub with stop := sub2.start } else sub

/-- The while loop of lines 443-584 (VOBSUB) on the raw queue.  Returns the raw
queue after the loop (the head may have a rewritten stop, stale heads are
gone) and the value of the variable sub after the loop: none for NULL, and a
buffer that is then the head of the returned queue. -/
def vobsubScan (cur : hb_buffer_t) :
    List hb_buffer_t → List hb_buffer_t × Option hb_buffer_t
  | [] => ([], none)
  | sub0 :: rest =>
    if sub0.size = 0 then (sub0 :: rest, some sub0)
    else
      let sub := clipToNext sub0 rest
      if sub.sequence > cur.sequence then (sub :: rest, none)
      else if sub.stop > cur.start then
        if sub.stop > sub.start then
          if cur.start > sub.start ∧ cur.start < sub.stop then
            if sub.stop - sub.start < 2 * 90000 then
              let sub1 := clipToNext { sub with stop := sub.start + 2 * 90000 } rest
              (sub1 :: rest, some sub1)
            else (sub :: rest, some sub)
          else (sub :: rest, none)
        else
          if sub.start > cur.start then
            if cur.start < sub.stop then (sub :: rest, some sub)
            else (sub :: rest, none)
          else (sub :: rest, some sub)
      else vobsubScan cur rest

/-- Lines 599-604: the buffer tacked onto the video frame for rendering. -/
def renderCopy (sub : hb_buffer_t) : hb_sub_buffer_t :=
  { hb_sub_buffer_init sub.size with
    x := sub.x, y := sub.y, width := sub.width, height := sub.height,
    data := sub.data }

/-- Lines 588-626: what happens to the subtitle left by the VOBSUB loop.  raw is
the raw queue after the loop; hb_fifo_get removes its head. -/
def vobsubDeliver (cur : hb_buffer_t) (s : hb_subtitle_t) (raw : List hb_buffer_t)
    (sub : Option hb_buffer_t) : hb_buffer_t × hb_subtitle_t :=
  match sub with
  | none => (cur, { s with fifo_raw := raw })
  | some sub =>
    if sub.size > 0 then
      if s.dest = hb_subtitle_dest.RENDERSUB then
        if cur.sub = none then
          ({ cur with sub := some (renderCopy sub) }, { s with fifo_raw := raw })
        else (cur, { s with fifo_raw := raw })
      else
        (cur, { s with fifo_raw := raw.tail, fifo_sync := s.fifo_sync ++ raw.head?.toList })
    else
      if s.dest = hb_subtitle_dest.RENDERSUB then
        (cur, { s with fifo_raw := raw.tail })
      else
        (cur, { s with fifo_raw := raw.tail, fifo_sync := s.fifo_sync ++ raw.head?.toList })

/-- One iteration of the for loop of lines 385-628: the alignment of one
subtitle track against the held frame cur. -/
def syncSubtitle (cur : hb_buffer_t) (s : hb_subtitle_t) : hb_buffer_t × hb_subtitle_t :=
  if s.source = hb_subtitle_source.CC608SUB ∨ s.source = hb_subtitle_source.CC708SUB ∨
      s.source = hb_subtitle_source.SRTSUB then
    let r := drainText cur s.fifo_raw s.fifo_out
    (cur, { s with fifo_raw := r.1, fifo_out := r.2 })
  else if s.source = hb_subtitle_source.VOBSUB then
    let r := vobsubScan cur s.fifo_raw
    vobsubDeliver cur s r.1 r.2
  else (cur, s)

/-- The for loop of lines 385-628 over job->list_subtitle. -/
def syncSubtitles (cur : hb_buffer_t) : List hb_subtitle_t → hb_buffer_t × List hb_subtitle_t
  | [] => (cur, [])
  | s :: ss =>
    let r1 := syncSubtitle cur s
    let r2 := syncSubtitles r1.1 ss
    (r2.1, r1.2 :: r2.2)

/-- Lines 308-325: the first-frame rewrite of the held frame. -/
def firstFrame (sync : hb_sync_video_t) (cur : hb_buffer_t) : hb_sync_video_t × hb_buffer_t :=
  if sync.pts_offset = INT64_MIN then
    ({ sync with pts_offset := 0 }, if cur.start ≠ 0 then { cur with start := 0 } else cur)
  else (sync, cur)

/-- Lines 643-670: emit the held frame cur and hold next instead. -/
def emitVideo (st : VideoState) (sync : hb_sync_video_t) (cur next : hb_buffer_t)
    (subs : List hb_subtitle_t) : VideoResult :=
  let out := cur
  let cur := { next with sub := none }
  let sync := { sync with cur := some cur, next_pts := cur.start }
  let duration := cur.start - sync.pts_skip - out.start
  let sync := { sync with pts_skip := 0 }
  let out := { out with start := sync.next_start }
  let sync := { sync with next_start := sync.next_start + duration }
  let out := { out with stop := sync.next_start }
  let out := if sync.chap_mark ≠ 0 then { out with new_chap := sync.chap_mark } else out
  let sync := if sync.chap_mark ≠ 0 then { sync with chap_mark := 0 } else sync
  { state := { common := UpdateState st.common, sync := sync, list_subtitle := subs },
    status := hb_work_status.HB_WORK_OK, fifo_sync := [], buf_out := some out }

/-- Lines 341-358: drop next and keep holding cur. -/
def dropVideo (st : VideoState) (sync : hb_sync_video_t) (cur next : hb_buffer_t) :
    VideoResult :=
  let sync := if sync.first_drop = 0 then { sync with first_drop := next.start } else sync
  let sync := { sync with drop_count := sync.drop_count + 1 }
  let skip := next.start - cur.start > 0
  let sync := if skip then { sync with pts_skip := sync.pts_skip + (next.start - cur.start) }
              else sync
  let common := if skip then
      { st.common with video_pts_slip := st.common.video_pts_slip - (next.start - cur.start) }
    else st.common
  let sync := if next.new_chap ≠ 0 then { sync with chap_mark := next.new_chap } else sync
  { state := { st with common := common, sync := { sync with cur := some cur } },
    status := hb_work_status.HB_WORK_OK, fifo_sync := [], buf_out := none }

/-- Lines 361-369: leaving a run of drops clears the drop bookkeeping. -/
def endDropRun (sync : hb_sync_video_t) : hb_sync_video_t :=
  if sync.first_drop ≠ 0 then { sync with first_drop := 0, drop_count := 0 } else sync

/-- The work function of the video worker (lines 218-671). -/
def syncVideoWork (job : hb_job_t) (st : VideoState) (buf_in : hb_buffer_t) : VideoResult :=
  match st.sync.cur with
  | none =>
    let sync := { st.sync with cur := some buf_in }
    if buf_in.size = 0 then
      { state := { st with sync := sync, list_subtitle := st.list_subtitle.map pushFirstEof },
        status := hb_work_status.HB_WORK_DONE, fifo_sync := [],
        buf_out := some (hb_buffer_init 0) }
    else
      { state := { st with sync := sync }, status := hb_work_status.HB_WORK_OK,
        fifo_sync := [], buf_out := none }
  | some cur =>
    let next := buf_in
    if job.frame_to_stop ≠ 0 ∧ st.common.count_frames > job.frame_to_stop then
      { state := { st with sync := { st.sync with cur := none } },
        status := hb_work_status.HB_WORK_DONE, fifo_sync := [],
        buf_out := some (hb_buffer_init 0) }
    else if next.size = 0 then
      let cur := { cur with start := st.sync.next_start }
      let cur := { cur with stop := job.eof_stop cur.start }
      { state := { st with sync := { st.sync with cur := none },
                           list_subtitle := st.list_subtitle.map pushFinalEof },
        status := hb_work_status.HB_WORK_DONE, fifo_sync := [cur],
        buf_out := some (hb_buffer_init 0) }
    else
      let r := firstFrame st.sync cur
      let sync := r.1
      let cur := r.2
      if next.start - st.common.video_pts_slip - cur.start ≤ 0 then
        dropVideo st sync cur next
      else
        let sync := { endDropRun sync with video_sequence := cur.sequence }
        let r := syncSubtitles cur st.list_subtitle
        emitVideo st sync r.1 next r.2

/-! ## Runs of the video worker -/

/-- What the rest of the pipeline did between two calls of syncVideoWork, and
the next input: slip is the amount the audio workers added to both slip
counters, raw the subtitle buffers that arrived on the raw queue of each
track (in track order), buf the buffer taken from the input FIFO. -/
structure VideoFeed where
  slip : Int
  raw : List (List hb_buffer_t)
  buf : hb_buffer_t
  deriving DecidableEq, Repr

/-- Append the arrived subtitle buffers to the raw queues, track by track. -/
def arriveSubs : List hb_subtitle_t → List (List hb_buffer_t) → List hb_subtitle_t
  | [], _ => []
  | s :: ss, [] => s :: ss
  | s :: ss, r :: rs => { s with fifo_raw := s.fifo_raw ++ r } :: arriveSubs ss rs

/-- The state the next call of syncVideoWork starts from. -/
def arrive (st : VideoState) (f : VideoFeed) : VideoState :=
  { st with
    common := { st.common with
      audio_passthru_slip := st.common.audio_passthru_slip + f.slip,
      video_pts_slip := st.common.video_pts_slip + f.slip },
    list_subtitle := arriveSubs st.list_subtitle f.raw }

/-- Outcome of a run: final state, last status, and everything that reached
job->fifo_sync in order (buffers pushed inside a call come before the buf_out
of that call, which the work loop pushes after the call returns). -/
structure VideoRun where
  state : VideoState
  status : hb_work_status
  out : List hb_buffer_t
  deriving DecidableEq, Repr

/-- The work loop around syncVideoWork: feed the inputs one by one until the
worker returns HB_WORK_DONE. -/
def runVideo (job : hb_job_t) : VideoState → List VideoFeed → VideoRun
  | st, [] => { state := st, status := hb_work_status.HB_WORK_OK, out := [] }
  | st, f :: fs =>
    let r := syncVideoWork job (arrive st f) f.buf
    let o := r.fifo_sync ++ r.buf_out.toList
    match r.status with
    | hb_work_status.HB_WORK_DONE =>
      { state := r.state, status := hb_work_status.HB_WORK_DONE, out := o }
    | hb_work_status.HB_WORK_OK =>
      let rest := runVideo job r.state fs
      { rest with out := o ++ rest.out }

/-- The video frames among the buffers that reached job->fifo_sync: everything
but the end-of-stream buffers of size 0. -/
def videoFrames (out : List hb_buffer_t) : List hb_buffer_t :=
  out.filter (fun b => decide (b.size ≠ 0))

/-- What identifies a frame across the worker: payload and demuxer sequence
number (the worker rewrites start, stop, new_chap and sub only). -/
def frameId (b : hb_buffer_t) : Int × List Nat × Int :=
  (b.size, b.data, b.sequence)

/-! ## Audio worker -/

/-- Values of audio->config.out.codec that the audio worker distinguishes. -/
inductive hb_acodec where
  | HB_ACODEC_AC3
  | HB_ACODEC_DCA
  | HB_ACODEC_OTHER
  deriving DecidableEq, Repr

/-- The configuration of an audio track.  channels is
HB_AMIXDOWN_GET_DISCRETE_CHANNEL_COUNT(config.out.mixdown).  src_process is
the sample-rate converter of libsamplerate, an external library: from the
converter state, the input samples, input_frames and output_frames it yields
the new converter state, output_frames_gen and the output samples. -/
structure hb_audio_t where
  id : Int
  in_samplerate : Int
  in_bitrate : Int
  out_samplerate : Int
  out_codec : hb_acodec
  channels : Int
  src_process : Nat → List Nat → Int → Int → Nat × Int × List Nat

/-- The struct hb_sync_audio_t; state stands for the converter state behind
SRC_STATE, ac3_buf is none for a NULL pointer. -/
structure hb_sync_audio_t where
  next_start : Int
  next_pts : Int
  first_drop : Int
  drop_count : Int
  state : Nat
  ac3_size : Int
  ac3_buf : Option (List Nat)
  deriving DecidableEq, Repr

/-- Outcome of one call of syncAudioWork: shared and private state after the
call, return code, the silence frames pushed inside the call and *buf_out.
The pushed frames and buf_out go to the same FIFO: InsertSilence pushes on
fifo_out for AC-3 and on fifo_sync otherwise, which is w->fifo_out in both
cases (it is never called for DCA). -/
structure AudioResult where
  common : hb_sync_common_t
  sync : hb_sync_audio_t
  status : hb_work_status
  pushed : List hb_buffer_t
  buf_out : Option hb_buffer_t
  deriving DecidableEq, Repr

/-- State of an audio worker after InitAudio (calloc), with the silent AC-3
frame as encoded there. -/
def initAudioSync (ac3_size : Int) (ac3_buf : Option (List Nat)) : hb_sync_audio_t :=
  { next_start := 0, next_pts := 0, first_drop := 0, drop_count := 0, state := 0,
    ac3_size := ac3_size, ac3_buf := ac3_buf }

/-- OutputAudioFrame (lines 930-992): returns the buffer sent downstream and
the audio state after the call. -/
def OutputAudioFrame (audio : hb_audio_t) (buf : hb_buffer_t) (sync : hb_sync_audio_t) :
    hb_buffer_t × hb_sync_audio_t :=
  let start := sync.next_start
  let duration := buf.stop - buf.start
  let sync := { sync with next_pts := sync.next_pts + duration }
  if audio.in_samplerate = audio.out_samplerate ∨
      audio.out_codec = hb_acodec.HB_ACODEC_AC3 ∨
      audio.out_codec = hb_acodec.HB_ACODEC_DCA then
    ({ buf with frametype := HB_FRAME_AUDIO, start := start, stop := start + duration },
     { sync with next_start := start + duration })
  else
    let channel_count := audio.channels * 4
    let count_in := Int.tdiv buf.size channel_count
    let count_out := int32_of (Int.tdiv (duration * audio.out_samplerate) 90000 + 1)
    let r := audio.src_process sync.state buf.data count_in count_out
    let output_frames_gen := r.2.1
    let duration := Int.tdiv (output_frames_gen * 90000) audio.out_samplerate
    ({ hb_buffer_init (count_out * channel_count) with
        data := r.2.2, size := output_frames_gen * channel_count,
        frametype := HB_FRAME_AUDIO, start := start, stop := start + duration },
     { sync with state := r.1, next_start := start + duration })

/-- One silence frame as built in the loop body of InsertSilence
(lines 1011-1028), before it goes through OutputAudioFrame. -/
def silenceFrame (audio : hb_audio_t) (sync : hb_sync_audio_t) (frame_dur : Int) : hb_buffer_t :=
  if audio.out_codec = hb_acodec.HB_ACODEC_AC3 then
    let buf := hb_buffer_init sync.ac3_size
    { buf with
      start := sync.next_pts, stop := sync.next_pts + frame_dur,
      data := match sync.ac3_buf with
        | some b => b.take buf.size.toNat
        | none => buf.data }
  else
    let buf := hb_buffer_init (AC3_SAMPLES_PER_FRAME * 4 * audio.channels)
    { buf with start := sync.next_pts, stop := sync.next_pts + frame_dur }

/-- The while loop of InsertSilence run n times: the audio state after it and
the frames pushed, in order. -/
def silenceLoop (audio : hb_audio_t) (frame_dur : Int) :
    Nat → hb_sync_audio_t → hb_sync_audio_t × List hb_buffer_t
  | 0, sync => (sync, [])
  | n + 1, sync =>
    let r := OutputAudioFrame audio (silenceFrame audio sync frame_dur) sync
    let rest := silenceLoop audio frame_dur n r.2
    (rest.1, r.1 :: rest.2)

/-- The number of frames InsertSilence pushes for a duration (lines 1005-1007). -/
def silenceFrameCount (audio : hb_audio_t) (duration : Int) : Int :=
  let frame_dur := Int.tdiv (90000 * AC3_SAMPLES_PER_FRAME) audio.in_samplerate
  int32_of (Int.tdiv (duration + (frame_dur >>> 1)) frame_dur)

/-- InsertSilence (lines 994-1032): while ( --frame_count >= 0 ) runs
frame_count times when frame_count is positive and not at all otherwise. -/
def InsertSilence (audio : hb_audio_t) (sync : hb_sync_audio_t) (duration : Int) :
    hb_sync_audio_t × List hb_buffer_t :=
  let frame_dur := Int.tdiv (90000 * AC3_SAMPLES_PER_FRAME) audio.in_samplerate
  silenceLoop audio frame_dur (silenceFrameCount audio duration).toNat sync

/-- Lines 782-792: leaving a run of drops clears the drop bookkeeping and
moves the input clock to the start of the buffer. -/
def endAudioDropRun (sync : hb_sync_audio_t) (start : Int) : hb_sync_audio_t :=
  if sync.first_drop ≠ 0 then
    { sync with first_drop := 0, drop_count := 0, next_pts := start }
  else sync

/-- Lines 793-841: the gap test and the ways a buffer leaves the worker. -/
def audioForward (audio : hb_audio_t) (common : hb_sync_common_t) (sync : hb_sync_audio_t)
    (buf : hb_buffer_t) (start : Int) : AudioResult :=
  if start - sync.next_pts ≥ 90 * 70 then
    if start - sync.next_pts > 90000 * 60 then
      { common := common, sync := sync, status := hb_work_status.HB_WORK_OK,
        pushed := [], buf_out := none }
    else if audio.out_codec = hb_acodec.HB_ACODEC_DCA then
      { common := { common with
          audio_passthru_slip := common.audio_passthru_slip + (start - sync.next_pts),
          video_pts_slip := common.video_pts_slip + (start - sync.next_pts) },
        sync := sync, status := hb_work_status.HB_WORK_OK, pushed := [],
        buf_out := some buf }
    else
      let r := InsertSilence audio sync (start - sync.next_pts)
      { common := common, sync := r.1, status := hb_work_status.HB_WORK_OK,
        pushed := r.2, buf_out := some buf }
  else
    let r := OutputAudioFrame audio buf sync
    { common := common, sync := r.2, status := hb_work_status.HB_WORK_OK,
      pushed := [], buf_out := some r.1 }

/-- The work function of an audio worker (lines 734-842). -/
def syncAudioWork (job : hb_job_t) (audio : hb_audio_t) (common : hb_sync_common_t)
    (sync : hb_sync_audio_t) (buf : hb_buffer_t) : AudioResult :=
  let start := buf.start - common.audio_passthru_slip
  if buf.size ≤ 0 then
    { common := common, sync := sync, status := hb_work_status.HB_WORK_DONE,
      pushed := [], buf_out := some (hb_buffer_init 0) }
  else if job.frame_to_stop ≠ 0 ∧ common.count_frames ≥ job.frame_to_stop then
    { common := common, sync := sync, status := hb_work_status.HB_WORK_DONE,
      pushed := [], buf_out := some (hb_buffer_init 0) }
  else if start - sync.next_pts < 0 then
    if sync.first_drop ≠ 0 ∨ sync.next_start - start > 90 * 15 then
      let sync := if sync.first_drop = 0 then { sync with first_drop := sync.next_pts } else sync
      { common := common, sync := { sync with drop_count := sync.drop_count + 1 },
        status := hb_work_status.HB_WORK_OK, pushed := [], buf_out := none }
    else
      audioForward audio common (endAudioDropRun { sync with next_pts := start } start) buf start
  else
    audioForward audio common (endAudioDropRun sync start) buf start

/-- Outcome of a run of one audio worker. -/
structure AudioRun where
  common : hb_sync_common_t
  sync : hb_sync_audio_t
  status : hb_work_status
  out : List hb_buffer_t
  deriving DecidableEq, Repr

/-- The work loop around syncAudioWork for one track: feed the inputs one by
one until the worker returns HB_WORK_DONE; out is everything that reached the
output FIFO of the track, in order. -/
def runAudio (job : hb_job_t) (audio : hb_audio_t) :
    hb_sync_common_t → hb_sync_audio_t → List hb_buffer_t → AudioRun
  | common, sync, [] =>
    { common := common, sync := sync, status := hb_work_status.HB_WORK_OK, out := [] }
  | common, sync, b :: bs =>
    let r := syncAudioWork job audio common sync b
    let o := r.pushed ++ r.buf_out.toList
    match r.status with
    | hb_work_status.HB_WORK_DONE =>
      { common := r.common, sync := r.sync, status := hb_work_status.HB_WORK_DONE, out := o }
    | hb_work_status.HB_WORK_OK =>
      let rest := runAudio job audio r.common r.sync bs
      { rest with out := o ++ rest.out }

/-! ## Predicates and concrete inputs used in the statements -/

/-- The test of line 259. -/
def frameCap (job : hb_job_t) (st : VideoState) : Prop :=
  job.frame_to_stop ≠ 0 ∧ st.common.count_frames > job.frame_to_stop

/-- The held frame after the first-frame rewrite of lines 308-325. -/
def heldFrame (st : VideoState) (cur : hb_buffer_t) : hb_buffer_t :=
  (firstFrame st.sync cur).2

/-- The value tested at line 339. -/
def videoDelta (st : VideoState) (cur next : hb_buffer_t) : Int :=
  next.start - st.common.video_pts_slip - (heldFrame st cur).start

/-- The held frame, if any, is not an end-of-stream buffer. -/
def HeldOk (st : VideoState) : Prop :=
  ∀ c, st.sync.cur = some c → c.size ≠ 0

/-- A list of frames in which the first starts at t and each next one starts
where the one before it stops. -/
def ContigFrom : Int → List hb_buffer_t → Prop
  | _, [] => True
  | t, f :: fs => f.start = t ∧ ContigFrom f.stop fs

/-- A list of frames in which the first starts at t and each next one starts
strictly later than the one before it. -/
def IncFrom : Int → List hb_buffer_t → Prop
  | _, [] => True
  | t, f :: fs => f.start = t ∧ ∃ u, t < u ∧ IncFrom u fs

/-- No slip is pending: neither shared nor private. -/
def NoSlip (st : VideoState) : Prop :=
  st.common.video_pts_slip = 0 ∧ st.sync.pts_skip = 0

/-- The chapter mark pending after a run of drops: the mark of the last
dropped frame that carried one, else the mark m that was pending before. -/
def pendingChap : Int → List Int → Int
  | m, [] => m
  | m, c :: cs => pendingChap (if c ≠ 0 then c else m) cs

/-- Nothing was emitted yet: the output clock is at 0 and, once the first-frame
rewrite has happened, the held frame starts at 0. -/
def BeforeFirst (st : VideoState) : Prop :=
  st.sync.next_start = 0 ∧
  (st.sync.pts_offset = INT64_MIN ∨ ∃ c, st.sync.cur = some c ∧ c.start = 0)

/-- The buffer a is the buffer b with, at most, another stop. -/
def SameButStop (a b : hb_buffer_t) : Prop :=
  a = { b with stop := a.stop }

/-- The DCA gap case of syncAudioWork: a non-terminal input, no drop run in
progress, DCA output, and a gap of at least 70 ms and at most one minute
between the slip-corrected start of the buffer and next_pts. -/
def dcaGap (job : hb_job_t) (audio : hb_audio_t) (common : hb_sync_common_t)
    (sync : hb_sync_audio_t) (buf : hb_buffer_t) : Prop :=
  0 < buf.size ∧
  ¬ (job.frame_to_stop ≠ 0 ∧ common.count_frames ≥ job.frame_to_stop) ∧
  audio.out_codec = hb_acodec.HB_ACODEC_DCA ∧
  sync.first_drop = 0 ∧
  90 * 70 ≤ buf.start - common.audio_passthru_slip - sync.next_pts ∧
  buf.start - common.audio_passthru_slip - sync.next_pts ≤ 90000 * 60

instance (job : hb_job_t) (audio : hb_audio_t) (common : hb_sync_common_t)
    (sync : hb_sync_audio_t) (buf : hb_buffer_t) : Decidable (dcaGap job audio common sync buf) := by
  unfold dcaGap
  infer_instance

/-- A job without frame cap whose last frame gets 3003 ticks (29.97 fps). -/
def exJob : hb_job_t := { frame_to_stop := 0, eof_stop := fun s => s + 3003 }

/-- A one-byte video frame with the given start, chapter mark and sequence number. -/
def exFrame (start chap seq : Int) : hb_buffer_t :=
  { hb_buffer_init 1 with start := start, new_chap := chap, sequence := seq }

/-- An input that arrives after the audio workers added slip to both slip
counters; no subtitle traffic. -/
def exFeed (slip : Int) (b : hb_buffer_t) : VideoFeed := { slip := slip, raw := [], buf := b }

/-- A stereo track at 48 kHz in and out with the given output codec; the
converter is never reached at equal rates. -/
def exAudio (codec : hb_acodec) : hb_audio_t :=
  { id := 1, in_samplerate := 48000, in_bitrate := 192000, out_samplerate := 48000,
    out_codec := codec, channels := 2, src_process := fun s _ _ n => (s, n, []) }

/-- An eight-byte audio buffer with the given stamps. -/
def exAudioBuf (start stop : Int) : hb_buffer_t :=
  { hb_buffer_init 8 with start := start, stop := stop }

/-- Inputs for C2: frames at 0 and 3000, then an audio worker skips 9000 ticks
(DCA gap), then frames at 12000, 6000 and 9000. -/
def c2Feeds : List VideoFeed :=
  [exFeed 0 (exFrame 0 0 1), exFeed 0 (exFrame 3000 0 2), exFeed 9000 (exFrame 12000 0 3),
   exFeed 0 (exFrame 6000 0 4), exFeed 0 (exFrame 9000 0 5)]

/-- Inputs of scenario B: frames at 0, 90000 and 60000. -/
def c8Feeds : List VideoFeed :=
  [exFeed 0 (exFrame 0 0 1), exFeed 0 (exFrame 90000 0 2), exFeed 0 (exFrame 60000 0 3)]

/-- The state after the first two frames of scenario B: the frame at 90000 is held. -/
def c8State : VideoState :=
  (runVideo exJob (initVideoState 0 []) [exFeed 0 (exFrame 0 0 1), exFeed 0 (exFrame 90000 0 2)]).state

/-- Inputs of scenario C: audio up to 2880, then a buffer that resumes 6400
ticks late, at 9280. -/
def c3Bufs : List hb_buffer_t := [exAudioBuf 0 2880, exAudioBuf 9280 12160]

/-- A DCA track whose first buffer starts 6300 ticks late, then the buffer
that follows it. -/
def c3DcaBufs : List hb_buffer_t := [exAudioBuf 6300 9180, exAudioBuf 9180 12060]

/-- A subtitle buffer of 4 bytes with the given stamps and sequence number. -/
def exSub (start stop seq : Int) : hb_buffer_t :=
  { hb_buffer_init 4 with start := start, stop := stop, sequence := seq }

/-- A rendered VOBSUB track whose raw queue holds one subtitle with sequence
number 5. -/
def c10Track : hb_subtitle_t :=
  { source := hb_subtitle_source.VOBSUB, dest := hb_subtitle_dest.RENDERSUB,
    fifo_raw := [exSub 100 200 5], fifo_sync := [], fifo_out := [] }

/-- The worker holds a frame with sequence number 3 that starts at 150, inside
the display time of the subtitle of c10Track. -/
def c10State : VideoState :=
  { common := initCommon,
    sync := { initVideoSync 0 with pts_offset := 0, cur := some (exFrame 150 0 3) },
    list_subtitle := [c10Track] }

/-- A subtitle buffer as exSub, placed at column x. -/
def exSubAt (start stop seq x : Int) : hb_buffer_t :=
  { exSub start stop seq with x := x }

/-- Two rendered VOBSUB tracks, each with a subtitle that is due at time 150. -/
def c11Tracks : List hb_subtitle_t :=
  [{ source := hb_subtitle_source.VOBSUB, dest := hb_subtitle_dest.RENDERSUB,
     fifo_raw := [exSubAt 100 200 1 10], fifo_sync := [], fifo_out := [] },
   { source := hb_subtitle_source.VOBSUB, dest := hb_subtitle_dest.RENDERSUB,
     fifo_raw := [exSubAt 100 200 2 20], fifo_sync := [], fifo_out := [] }]

/-- The worker holds a frame that starts at 150 and has both tracks of c11Tracks. -/
def c11State : VideoState :=
  { common := initCommon,
    sync := { initVideoSync 0 with pts_offset := 0, cur := some (exFrame 150 0 3) },
    list_subtitle := c11Tracks }

/-- The frame the worker hands back from c11State when the next frame starts
at 3153. -/
def c11Frame : hb_buffer_t :=
  { exFrame 150 0 3 with
    start := 0, stop := 3003, sub := some (renderCopy (exSubAt 100 200 1 10)) }

/-- The two terminal tests of syncAudioWork (lines 751 and 757): the input is
an end-of-stream buffer, or the frame cap is reached. -/
def audioTerminal (job : hb_job_t) (common : hb_sync_common_t) (buf : hb_buffer_t) : Prop :=
  buf.size ≤ 0 ∨ (job.frame_to_stop ≠ 0 ∧ common.count_frames ≥ job.frame_to_stop)

/-- The state of an audio worker that has emitted audio up to 90000 ticks. -/
def exAudioSync : hb_sync_audio_t :=
  { initAudioSync 0 none with next_start := 90000, next_pts := 90000 }

/-- The state after the frames at 0 and 3000: the frame at 3000 is held and
both slip counters are 0. -/
def c19State : VideoState :=
  (runVideo exJob (initVideoState 0 []) [exFeed 0 (exFrame 0 0 1), exFeed 0 (exFrame 3000 0 2)]).state

/-- A rendered VOBSUB track with the subtitle of scenario E: 100000 to 150000. -/
def c14Track : hb_subtitle_t :=
  { source := hb_subtitle_source.VOBSUB, dest := hb_subtitle_dest.RENDERSUB,
    fifo_raw := [exSub 100000 150000 1], fifo_sync := [], fifo_out := [] }

/-- The worker holds a frame that starts at 120000, inside the subtitle of
c14Track. -/
def c14State : VideoState :=
  { common := initCommon,
    sync :=
      { initVideoSync 0 with
        pts_offset := 0, next_start := 120000, cur := some (exFrame 120000 0 1) },
    list_subtitle := [c14Track] }

/-- The output_frames_gen that src_process reports when OutputAudioFrame
converts buf in state sync (lines 956-983). -/
def framesGen (audio : hb_audio_t) (sync : hb_sync_audio_t) (buf : hb_buffer_t) : Int :=
  (audio.src_process sync.state buf.data (Int.tdiv buf.size (audio.channels * 4))
    (int32_of (Int.tdiv ((buf.stop - buf.start) * audio.out_samplerate) 90000 + 1))).2.1

/-- Successive calls of OutputAudioFrame on one track: the audio state after
the last call and the buffers handed back, in order. -/
def outputAudioFrames (audio : hb_audio_t) :
    hb_sync_audio_t → List hb_buffer_t → hb_sync_audio_t × List hb_buffer_t
  | sync, [] => (sync, [])
  | sync, b :: bs =>
    let r := OutputAudioFrame audio b sync
    let rest := outputAudioFrames audio r.2 bs
    (rest.1, r.1 :: rest.2)

/-- The output_frames_gen of each of these calls, in order. -/
def framesGenList (audio : hb_audio_t) : hb_sync_audio_t → List hb_buffer_t → List Int
  | _, [] => []
  | sync, b :: bs =>
    framesGen audio sync b :: framesGenList audio (OutputAudioFrame audio b sync).2 bs

/-- A stereo track converted from 48 kHz to 44.1 kHz whose converter yields
1411 frames for every input buffer. -/
def exResample : hb_audio_t :=
  { id := 1, in_samplerate := 48000, in_bitrate := 192000, out_samplerate := 44100,
    out_codec := hb_acodec.HB_ACODEC_OTHER, channels := 2,
    src_process := fun s _ _ _ => (s + 1, 1411, []) }

/-- Ten seconds of 48 kHz audio in buffers of 1536 samples (2880 ticks): 312
buffers. -/
def c15Bufs : List hb_buffer_t := List.replicate 312 (exAudioBuf 0 2880)

/-- A held frame past the first one, for the emit and drop examples: the
first-frame rewrite is over (pts_offset 0), 3003 ticks of skip are pending
after a drop, and a chapter mark is pending. -/
def c21State : VideoState :=
  { common := { count_frames := 4, audio_passthru_slip := 9000, video_pts_slip := 5000 },
    sync :=
      { initVideoSync 0 with
        pts_offset := 0, pts_skip := 3003, next_start := 12012, next_pts := 21021,
        chap_mark := 2, cur := some (exFrame 21021 0 7) },
    list_subtitle := [] }

/-- An audio worker in a run of drops: two buffers were dropped since the
input clock stood at 90000. -/
def c30Sync : hb_sync_audio_t :=
  { exAudioSync with first_drop := 90000, drop_count := 2 }

/-- The test of lines 400-437 that lets the closed-caption and SRT loop go on:
the entry is not an end-of-stream buffer and starts before the held frame. -/
def textDue (cur b : hb_buffer_t) : Bool :=
  decide (0 < b.size ∧ b.start < cur.start)

/-- The output clock stands on the start of the held frame (read after the
first-frame rewrite); with no frame held yet the worker is in its initial
state. -/
def OnInputClock (st : VideoState) : Prop :=
  (∀ c, st.sync.cur = some c → (heldFrame st c).start = st.sync.next_start) ∧
  (st.sync.cur = none → st.sync.pts_offset = INT64_MIN ∧ st.sync.next_start = 0)

/-- A job that stops after frame 1. -/
def c27Job : hb_job_t := { frame_to_stop := 1, eof_stop := fun s => s + 3003 }

/-- Six frames 3000 ticks apart, no slip. -/
def c27Feeds : List VideoFeed :=
  [exFeed 0 (exFrame 0 0 1), exFeed 0 (exFrame 3000 0 2), exFeed 0 (exFrame 6000 0 3),
   exFeed 0 (exFrame 9000 0 4), exFeed 0 (exFrame 12000 0 5), exFeed 0 (exFrame 15000 0 6)]

/-- Frames at 1000, 4000, 2000 and 5000, no slip: the third goes backwards. -/
def c28Feeds : List VideoFeed :=
  [exFeed 0 (exFrame 1000 0 1), exFeed 0 (exFrame 4000 0 2), exFeed 0 (exFrame 2000 0 3),
   exFeed 0 (exFrame 5000 0 4)]

/-! ## The stage as a whole: the video worker and the audio workers on the shared state -/

/-- One call of a work function of the stage: the video worker with the
subtitle buffers that arrived since its last call and its input buffer, or the
audio worker of the track with the given index and its input buffer. -/
inductive SyncEvent where
  | video (raw : List (List hb_buffer_t)) (buf : hb_buffer_t)
  | audio (track : Nat) (buf : hb_buffer_t)
  deriving DecidableEq, Repr

/-- The stage as a whole: the video worker with the shared hb_sync_common_t
(pv->common of every worker points to the same object) and the private state
of each audio worker, in the order of job->list_audio. -/
structure SyncStage where
  video : VideoState
  audio : List hb_sync_audio_t
  deriving DecidableEq, Repr

/-- The stage after hb_sync_init: both slips 0, the given audio states. -/
def initStage (count_frames_max : Int) (subs : List hb_subtitle_t)
    (audio : List hb_sync_audio_t) : SyncStage :=
  { video := initVideoState count_frames_max subs, audio := audio }

/-- One call of a work function on the stage.  The calls of the workers run on
threads of their own; the accesses to the slips are under pv->common->mutex,
and a call is taken as one step.  A call for a track that does not exist
changes nothing. -/
def stageStep (job : hb_job_t) (tracks : List hb_audio_t) (s : SyncStage) :
    SyncEvent → SyncStage
  | SyncEvent.video raw buf =>
    { s with
      video := (syncVideoWork job
        { s.video with list_subtitle := arriveSubs s.video.list_subtitle raw } buf).state }
  | SyncEvent.audio i buf =>
    match tracks[i]?, s.audio[i]? with
    | some a, some sy =>
      { video := { s.video with common := (syncAudioWork job a s.video.common sy buf).common },
        audio := s.audio.set i (syncAudioWork job a s.video.common sy buf).sync }
    | _, _ => s

/-- The stage after a sequence of calls. -/
def stageRun (job : hb_job_t) (tracks : List hb_audio_t) (s : SyncStage)
    (events : List SyncEvent) : SyncStage :=
  events.foldl (stageStep job tracks) s

/-- The order the slips are kept in. -/
def SlipOrder (c : hb_sync_common_t) : Prop :=
  0 ≤ c.video_pts_slip ∧ c.video_pts_slip ≤ c.audio_passthru_slip

/-- Three video frames, a DCA track that meets a gap of 9000 ticks, and a
video frame from before the gap that is dropped. -/
def c29Events : List SyncEvent :=
  [SyncEvent.video [] (exFrame 0 0 1), SyncEvent.video [] (exFrame 3000 0 2),
   SyncEvent.audio 0 (exAudioBuf 9000 11880), SyncEvent.video [] (exFrame 6000 0 3),
   SyncEvent.video [] (exFrame 15000 0 4)]

/-- Frames at 0, 3000, 6000, 2000 and 9000 with no slip: the fourth goes
backwards and is dropped. -/
def c2SteadyFeeds : List VideoFeed :=
  [exFeed 0 (exFrame 0 0 1), exFeed 0 (exFrame 3000 0 2), exFeed 0 (exFrame 6000 0 3),
   exFeed 0 (exFrame 2000 0 4), exFeed 0 (exFrame 9000 0 5)]

/-- An SRT track whose raw queue holds subtitles that start at 10, 50 and 150
and then the end-of-stream buffer. -/
def c26Track : hb_subtitle_t :=
  { source := hb_subtitle_source.SRTSUB, dest := hb_subtitle_dest.PASSTHRUSUB,
    fifo_raw := [exSub 10 20 1, exSub 50 60 2, exSub 150 160 3, hb_buffer_init 0],
    fifo_sync := [], fifo_out := [] }

/-! ## Basic facts about one call of the video worker -/

theorem firstFrame_snd (s : hb_sync_video_t) (c : hb_buffer_t) :
    (firstFrame s c).2 = { c with start := if s.pts_offset = INT64_MIN then 0 else c.start } := by
  unfold firstFrame
  by_cases h : s.pts_offset = INT64_MIN
  · by_cases h0 : c.start = 0
    · simp [h, h0]
      cases c; simp_all
    · simp [h, h0]
  · simp [h]

theorem firstFrame_fst (s : hb_sync_video_t) (c : hb_buffer_t) :
    (firstFrame s c).1 =
      { s with pts_offset := if s.pts_offset = INT64_MIN then 0 else s.pts_offset } := by
  unfold firstFrame
  by_cases h : s.pts_offset = INT64_MIN
  · simp [h]
  · simp [h]

theorem vobsubDeliver_fst (cur : hb_buffer_t) (s : hb_subtitle_t) (raw : List hb_buffer_t)
    (sub : Option hb_buffer_t) :
    ∃ p, (vobsubDeliver cur s raw sub).1 = { cur with sub := p } := by
  unfold vobsubDeliver
  cases sub with
  | none => exact ⟨cur.sub, rfl⟩
  | some b =>
    simp only
    split_ifs <;> first | exact ⟨cur.sub, rfl⟩ | exact ⟨_, rfl⟩

theorem syncSubtitle_fst (cur : hb_buffer_t) (s : hb_subtitle_t) :
    ∃ p, (syncSubtitle cur s).1 = { cur with sub := p } := by
  unfold syncSubtitle
  split_ifs
  · exact ⟨cur.sub, rfl⟩
  · exact vobsubDeliver_fst _ _ _ _
  · exact ⟨cur.sub, rfl⟩

theorem syncSubtitles_fst (l : List hb_subtitle_t) (cur : hb_buffer_t) :
    ∃ p, (syncSubtitles cur l).1 = { cur with sub := p } := by
  induction l generalizing cur with
  | nil => exact ⟨cur.sub, rfl⟩
  | cons s ss ih =>
    obtain ⟨p, hp⟩ := syncSubtitle_fst cur s
    obtain ⟨q, hq⟩ := ih (syncSubtitle cur s).1
    refine ⟨q, ?_⟩
    simp only [syncSubtitles]
    rw [hq, hp]

theorem syncVideoWork_cold (job : hb_job_t) (st : VideoState) (b : hb_buffer_t)
    (hc : st.sync.cur = none) (hb : b.size ≠ 0) :
    syncVideoWork job st b =
      { state := { st with sync := { st.sync with cur := some b } },
        status := hb_work_status.HB_WORK_OK, fifo_sync := [], buf_out := none } := by
  simp [syncVideoWork, hc, hb]

theorem syncVideoWork_cold_eof (job : hb_job_t) (st : VideoState) (b : hb_buffer_t)
    (hc : st.sync.cur = none) (hb : b.size = 0) :
    syncVideoWork job st b =
      { state := { st with sync := { st.sync with cur := some b },
                           list_subtitle := st.list_subtitle.map pushFirstEof },
        status := hb_work_status.HB_WORK_DONE, fifo_sync := [],
        buf_out := some (hb_buffer_init 0) } := by
  simp [syncVideoWork, hc, hb]

theorem syncVideoWork_cap (job : hb_job_t) (st : VideoState) (cur next : hb_buffer_t)
    (hc : st.sync.cur = some cur) (hcap : frameCap job st) :
    syncVideoWork job st next =
      { state := { st with sync := { st.sync with cur := none } },
        status := hb_work_status.HB_WORK_DONE, fifo_sync := [],
        buf_out := some (hb_buffer_init 0) } := by
  unfold frameCap at hcap
  simp [syncVideoWork, hc, hcap]

theorem syncVideoWork_eof (job : hb_job_t) (st : VideoState) (cur next : hb_buffer_t)
    (hc : st.sync.cur = some cur) (hcap : ¬ frameCap job st) (hn : next.size = 0) :
    syncVideoWork job st next =
      { state := { st with sync := { st.sync with cur := none },
                           list_subtitle := st.list_subtitle.map pushFinalEof },
        status := hb_work_status.HB_WORK_DONE,
        fifo_sync := [{ cur with start := st.sync.next_start,
                                 stop := job.eof_stop st.sync.next_start }],
        buf_out := some (hb_buffer_init 0) } := by
  unfold frameCap at hcap
  simp only [syncVideoWork, hc, hn]
  rw [if_neg hcap]
  simp

theorem syncVideoWork_drop (job : hb_job_t) (st : VideoState) (cur next : hb_buffer_t)
    (hc : st.sync.cur = some cur) (hcap : ¬ frameCap job st) (hn : next.size ≠ 0)
    (hd : videoDelta st cur next ≤ 0) :
    syncVideoWork job st next = dropVideo st (firstFrame st.sync cur).1 (heldFrame st cur) next := by
  unfold frameCap at hcap
  unfold videoDelta heldFrame at hd
  simp only [syncVideoWork, hc]
  rw [if_neg hcap, if_neg hn, if_pos hd]
  rfl

theorem syncVideoWork_emit (job : hb_job_t) (st : VideoState) (cur next : hb_buffer_t)
    (hc : st.sync.cur = some cur) (hcap : ¬ frameCap job st) (hn : next.size ≠ 0)
    (hd : 0 < videoDelta st cur next) :
    syncVideoWork job st next =
      emitVideo st { endDropRun (firstFrame st.sync cur).1 with
                     video_sequence := (heldFrame st cur).sequence }
        (syncSubtitles (heldFrame st cur) st.list_subtitle).1 next
        (syncSubtitles (heldFrame st cur) st.list_subtitle).2 := by
  unfold frameCap at hcap
  unfold videoDelta heldFrame at hd
  simp only [syncVideoWork, hc]
  rw [if_neg hcap, if_neg hn, if_neg (not_le.mpr hd)]
  rfl

/-- The frame that emitVideo hands back. -/
theorem emitVideo_buf_out (st : VideoState) (sync : hb_sync_video_t) (cur next : hb_buffer_t)
    (subs : List hb_subtitle_t) :
    (emitVideo st sync cur next subs).buf_out =
      some { cur with
        start := sync.next_start,
        stop := sync.next_start + (next.start - sync.pts_skip - cur.start),
        new_chap := if sync.chap_mark ≠ 0 then sync.chap_mark else cur.new_chap } := by
  unfold emitVideo
  by_cases h : sync.chap_mark = 0
  · simp [h]
  · simp [h]

/-- The worker state that emitVideo leaves. -/
theorem emitVideo_sync (st : VideoState) (sync : hb_sync_video_t) (cur next : hb_buffer_t)
    (subs : List hb_subtitle_t) :
    (emitVideo st sync cur next subs).state.sync =
      { sync with
        cur := some { next with sub := none },
        next_pts := next.start,
        pts_skip := 0,
        next_start := sync.next_start + (next.start - sync.pts_skip - cur.start),
        chap_mark := 0 } := by
  unfold emitVideo
  by_cases h : sync.chap_mark = 0
  · simp [h]
  · simp [h]

theorem dropVideo_sync (st : VideoState) (sync : hb_sync_video_t) (cur next : hb_buffer_t) :
    (dropVideo st sync cur next).state.sync =
      { sync with
        first_drop := if sync.first_drop = 0 then next.start else sync.first_drop,
        drop_count := sync.drop_count + 1,
        pts_skip := if next.start - cur.start > 0 then sync.pts_skip + (next.start - cur.start)
                    else sync.pts_skip,
        chap_mark := if next.new_chap ≠ 0 then next.new_chap else sync.chap_mark,
        cur := some cur } := by
  unfold dropVideo
  by_cases h1 : sync.first_drop = 0 <;> by_cases h2 : next.start - cur.start > 0 <;>
    by_cases h3 : next.new_chap = 0 <;> simp [h1, h2, h3]

theorem dropVideo_common (st : VideoState) (sync : hb_sync_video_t) (cur next : hb_buffer_t) :
    (dropVideo st sync cur next).state.common =
      { st.common with
        video_pts_slip := if next.start - cur.start > 0 then
            st.common.video_pts_slip - (next.start - cur.start)
          else st.common.video_pts_slip } := by
  unfold dropVideo
  by_cases h2 : next.start - cur.start > 0 <;> simp [h2]

theorem dropVideo_out (st : VideoState) (sync : hb_sync_video_t) (cur next : hb_buffer_t) :
    (dropVideo st sync cur next).status = hb_work_status.HB_WORK_OK ∧
    (dropVideo st sync cur next).fifo_sync = [] ∧
    (dropVideo st sync cur next).buf_out = none ∧
    (dropVideo st sync cur next).state.list_subtitle = st.list_subtitle := by
  simp [dropVideo]

theorem emitVideo_out (st : VideoState) (sync : hb_sync_video_t) (cur next : hb_buffer_t)
    (subs : List hb_subtitle_t) :
    (emitVideo st sync cur next subs).status = hb_work_status.HB_WORK_OK ∧
    (emitVideo st sync cur next subs).fifo_sync = [] ∧
    (emitVideo st sync cur next subs).state.common = UpdateState st.common ∧
    (emitVideo st sync cur next subs).state.list_subtitle = subs := by
  simp [emitVideo]

theorem step_cases (job : hb_job_t) (st : VideoState) (b : hb_buffer_t) :
    (st.sync.cur = none ∧ b.size = 0) ∨
    (st.sync.cur = none ∧ b.size ≠ 0) ∨
    (∃ cur, st.sync.cur = some cur ∧ frameCap job st) ∨
    (∃ cur, st.sync.cur = some cur ∧ ¬ frameCap job st ∧ b.size = 0) ∨
    (∃ cur, st.sync.cur = some cur ∧ ¬ frameCap job st ∧ b.size ≠ 0 ∧
      videoDelta st cur b ≤ 0) ∨
    (∃ cur, st.sync.cur = some cur ∧ ¬ frameCap job st ∧ b.size ≠ 0 ∧
      0 < videoDelta st cur b) := by
  cases hc : st.sync.cur with
  | none => by_cases hb : b.size = 0 <;> simp [hb]
  | some cur =>
    by_cases hcap : frameCap job st
    · simp [hcap]
    · by_cases hb : b.size = 0
      · simp [hcap, hb]
      · rcases le_or_lt (videoDelta st cur b) 0 with h | h
        · simp [hcap, hb, h]
        · simp [hcap, hb, h]

theorem chain_of_contigFrom (l : List hb_buffer_t) (t : Int) (h : ContigFrom t l) :
    List.Chain' (fun a b : hb_buffer_t => a.stop = b.start) l := by
  induction l generalizing t with
  | nil => exact List.chain'_nil
  | cons f fs ih =>
    cases fs with
    | nil => exact List.chain'_singleton f
    | cons g gs =>
      obtain ⟨_, h2⟩ := h
      exact List.Chain'.cons h2.1.symm (ih f.stop h2)

@[simp] theorem arrive_sync (st : VideoState) (f : VideoFeed) : (arrive st f).sync = st.sync := rfl

@[simp] theorem videoFrames_nil : videoFrames [] = [] := rfl

@[simp] theorem videoFrames_eof : videoFrames [hb_buffer_init 0] = [] := by
  simp [videoFrames, hb_buffer_init]

theorem videoFrames_append (a b : List hb_buffer_t) :
    videoFrames (a ++ b) = videoFrames a ++ videoFrames b := by
  simp [videoFrames]

theorem videoFrames_cons_frame (f : hb_buffer_t) (l : List hb_buffer_t) (h : f.size ≠ 0) :
    videoFrames (f :: l) = f :: videoFrames l := by
  simp [videoFrames, h]

theorem heldFrame_eq (st : VideoState) (c : hb_buffer_t) :
    heldFrame st c = { c with start := if st.sync.pts_offset = INT64_MIN then 0 else c.start } :=
  firstFrame_snd st.sync c

/-- Everything an emit step does, in one place. -/
theorem syncVideoWork_emit_summary (job : hb_job_t) (st : VideoState) (cur next : hb_buffer_t)
    (hc : st.sync.cur = some cur) (hcap : ¬ frameCap job st) (hn : next.size ≠ 0)
    (hd : 0 < videoDelta st cur next) :
    ∃ p,
      (syncVideoWork job st next).buf_out =
        some { cur with
          sub := p,
          start := st.sync.next_start,
          stop := st.sync.next_start +
            (next.start - st.sync.pts_skip - (heldFrame st cur).start),
          new_chap := if st.sync.chap_mark ≠ 0 then st.sync.chap_mark else cur.new_chap } ∧
      (syncVideoWork job st next).status = hb_work_status.HB_WORK_OK ∧
      (syncVideoWork job st next).fifo_sync = [] ∧
      (syncVideoWork job st next).state.sync =
        { st.sync with
          pts_offset := if st.sync.pts_offset = INT64_MIN then 0 else st.sync.pts_offset,
          first_drop := 0,
          drop_count := if st.sync.first_drop ≠ 0 then 0 else st.sync.drop_count,
          video_sequence := cur.sequence,
          cur := some { next with sub := none },
          next_pts := next.start,
          pts_skip := 0,
          next_start := st.sync.next_start +
            (next.start - st.sync.pts_skip - (heldFrame st cur).start),
          chap_mark := 0 } ∧
      (syncVideoWork job st next).state.common = UpdateState st.common ∧
      (syncVideoWork job st next).state.list_subtitle =
        (syncSubtitles (heldFrame st cur) st.list_subtitle).2 := by
  obtain ⟨p, hp⟩ := syncSubtitles_fst st.list_subtitle (heldFrame st cur)
  refine ⟨p, ?_⟩
  rw [syncVideoWork_emit job st cur next hc hcap hn hd, emitVideo_buf_out, emitVideo_sync]
  refine ⟨?_, (emitVideo_out _ _ _ _ _).1, (emitVideo_out _ _ _ _ _).2.1, ?_,
    (emitVideo_out _ _ _ _ _).2.2.1, (emitVideo_out _ _ _ _ _).2.2.2⟩
  · rw [hp]
    simp [heldFrame_eq, firstFrame_fst, endDropRun]
    by_cases h1 : st.sync.first_drop = 0 <;> simp [h1]
  · rw [hp]
    simp [heldFrame_eq, firstFrame_fst, endDropRun]
    by_cases h1 : st.sync.first_drop = 0 <;> simp [h1]

/-- Everything a drop step does, in one place. -/
theorem syncVideoWork_drop_summary (job : hb_job_t) (st : VideoState) (cur next : hb_buffer_t)
    (hc : st.sync.cur = some cur) (hcap : ¬ frameCap job st) (hn : next.size ≠ 0)
    (hd : videoDelta st cur next ≤ 0) :
    (syncVideoWork job st next).buf_out = none ∧
    (syncVideoWork job st next).status = hb_work_status.HB_WORK_OK ∧
    (syncVideoWork job st next).fifo_sync = [] ∧
    (syncVideoWork job st next).state.sync =
      { st.sync with
        pts_offset := if st.sync.pts_offset = INT64_MIN then 0 else st.sync.pts_offset,
        first_drop := if st.sync.first_drop = 0 then next.start else st.sync.first_drop,
        drop_count := st.sync.drop_count + 1,
        pts_skip := if next.start - (heldFrame st cur).start > 0 then
            st.sync.pts_skip + (next.start - (heldFrame st cur).start)
          else st.sync.pts_skip,
        chap_mark := if next.new_chap ≠ 0 then next.new_chap else st.sync.chap_mark,
        cur := some (heldFrame st cur) } ∧
    (syncVideoWork job st next).state.common =
      { st.common with
        video_pts_slip := if next.start - (heldFrame st cur).start > 0 then
            st.common.video_pts_slip - (next.start - (heldFrame st cur).start)
          else st.common.video_pts_slip } ∧
    (syncVideoWork job st next).state.list_subtitle = st.list_subtitle := by
  rw [syncVideoWork_drop job st cur next hc hcap hn hd, dropVideo_sync, dropVideo_common]
  refine ⟨(dropVideo_out _ _ _ _).2.2.1, (dropVideo_out _ _ _ _).1, (dropVideo_out _ _ _ _).2.1,
    ?_, rfl, (dropVideo_out _ _ _ _).2.2.2⟩
  simp [firstFrame_fst]

theorem runVideo_cons_ok (job : hb_job_t) (st : VideoState) (f : VideoFeed) (fs : List VideoFeed)
    (h : (syncVideoWork job (arrive st f) f.buf).status = hb_work_status.HB_WORK_OK) :
    runVideo job st (f :: fs) =
      { runVideo job (syncVideoWork job (arrive st f) f.buf).state fs with
        out := ((syncVideoWork job (arrive st f) f.buf).fifo_sync ++
                (syncVideoWork job (arrive st f) f.buf).buf_out.toList) ++
               (runVideo job (syncVideoWork job (arrive st f) f.buf).state fs).out } := by
  simp only [runVideo, h]

theorem runVideo_cons_done (job : hb_job_t) (st : VideoState) (f : VideoFeed)
    (fs : List VideoFeed)
    (h : (syncVideoWork job (arrive st f) f.buf).status = hb_work_status.HB_WORK_DONE) :
    runVideo job st (f :: fs) =
      { state := (syncVideoWork job (arrive st f) f.buf).state,
        status := hb_work_status.HB_WORK_DONE,
        out := (syncVideoWork job (arrive st f) f.buf).fifo_sync ++
               (syncVideoWork job (arrive st f) f.buf).buf_out.toList } := by
  simp only [runVideo, h]

theorem run_contig (job : hb_job_t) (feeds : List VideoFeed) :
    ∀ (st : VideoState) (t : Int), HeldOk st → st.sync.next_start = t →
      ContigFrom t (videoFrames (runVideo job st feeds).out) := by
  induction feeds with
  | nil => intro st t _ _; simp [runVideo, ContigFrom]
  | cons f fs ih =>
    intro st t hst ht
    rcases step_cases job (arrive st f) f.buf with
      ⟨hc, hb⟩ | ⟨hc, hb⟩ | ⟨cur, hc, hcap⟩ | ⟨cur, hc, hcap, hb⟩ | ⟨cur, hc, hcap, hb, hd⟩ |
      ⟨cur, hc, hcap, hb, hd⟩
    · simp [runVideo, syncVideoWork_cold_eof job _ _ hc hb, ContigFrom]
    · simp only [runVideo, syncVideoWork_cold job _ _ hc hb]
      simp only [Option.toList, List.append_nil, List.nil_append]
      refine ih _ _ ?_ ht
      intro c hcc
      simp at hcc
      rw [← hcc]; exact hb
    · simp [runVideo, syncVideoWork_cap job _ _ _ hc hcap, ContigFrom]
    · have hsz : cur.size ≠ 0 := hst cur hc
      simp [runVideo, syncVideoWork_eof job _ _ _ hc hcap hb, videoFrames, hsz, hb_buffer_init,
        ContigFrom, ht]
    · obtain ⟨hbo, hs, hf, hsync, _, _⟩ := syncVideoWork_drop_summary job _ _ _ hc hcap hb hd
      rw [runVideo_cons_ok job st f fs hs]
      simp only [hbo, hf, Option.toList, List.append_nil, List.nil_append]
      refine ih _ _ ?_ ?_
      · intro c hcc
        rw [hsync] at hcc
        simp at hcc
        rw [← hcc, heldFrame_eq]
        exact hst cur hc
      · rw [hsync]
        simpa using ht
    · obtain ⟨p, hbo, hs, hf, hsync, _, _⟩ := syncVideoWork_emit_summary job _ _ _ hc hcap hb hd
      rw [runVideo_cons_ok job st f fs hs]
      simp only [hbo, hf, Option.toList, List.nil_append, List.singleton_append]
      rw [videoFrames_cons_frame _ _ (by simpa using hst cur hc)]
      refine ⟨by simpa using ht, ih _ _ ?_ ?_⟩
      · intro c hcc
        rw [hsync] at hcc
        simp at hcc
        rw [← hcc]; exact hb
      · rw [hsync]

theorem incFrom_lb (l : List hb_buffer_t) (t : Int) (h : IncFrom t l) :
    ∀ g ∈ l, t ≤ g.start := by
  induction l generalizing t with
  | nil => intro g hg; cases hg
  | cons f fs ih =>
    intro g hg
    obtain ⟨h1, u, hu, h2⟩ := h
    rcases List.mem_cons.mp hg with rfl | hg
    · exact le_of_eq h1.symm
    · exact le_trans (le_of_lt hu) (ih u h2 g hg)

theorem pairwise_of_incFrom (l : List hb_buffer_t) (t : Int) (h : IncFrom t l) :
    List.Pairwise (fun a b : hb_buffer_t => a.start < b.start) l := by
  induction l generalizing t with
  | nil => exact List.Pairwise.nil
  | cons f fs ih =>
    obtain ⟨h1, u, hu, h2⟩ := h
    refine List.Pairwise.cons ?_ (ih u h2)
    intro g hg
    have := incFrom_lb fs u h2 g hg
    omega

theorem videoDelta_eq (st : VideoState) (cur next : hb_buffer_t) :
    videoDelta st cur next = next.start - st.common.video_pts_slip - (heldFrame st cur).start := rfl

theorem run_increasing (job : hb_job_t) (feeds : List VideoFeed) :
    ∀ (st : VideoState) (t : Int), HeldOk st → NoSlip st → st.sync.next_start = t →
      (∀ f ∈ feeds, f.slip = 0) →
      IncFrom t (videoFrames (runVideo job st feeds).out) := by
  induction feeds with
  | nil => intro st t _ _ _ _; simp [runVideo, IncFrom]
  | cons f fs ih =>
    intro st t hst hz ht hfs
    have hf0 : f.slip = 0 := hfs f (List.mem_cons_self _ _)
    have hfs' : ∀ g ∈ fs, g.slip = 0 := fun g hg => hfs g (List.mem_cons_of_mem _ hg)
    have hza : (arrive st f).common.video_pts_slip = 0 := by
      simp [arrive, hf0, hz.1]
    rcases step_cases job (arrive st f) f.buf with
      ⟨hc, hb⟩ | ⟨hc, hb⟩ | ⟨cur, hc, hcap⟩ | ⟨cur, hc, hcap, hb⟩ | ⟨cur, hc, hcap, hb, hd⟩ |
      ⟨cur, hc, hcap, hb, hd⟩
    · simp [runVideo, syncVideoWork_cold_eof job _ _ hc hb, IncFrom]
    · simp only [runVideo, syncVideoWork_cold job _ _ hc hb]
      simp only [Option.toList, List.append_nil, List.nil_append]
      refine ih _ _ ?_ ?_ ht hfs'
      · intro c hcc
        simp at hcc
        rw [← hcc]; exact hb
      · exact ⟨hza, hz.2⟩
    · simp [runVideo, syncVideoWork_cap job _ _ _ hc hcap, IncFrom]
    · have hsz : cur.size ≠ 0 := hst cur hc
      simp only [runVideo, syncVideoWork_eof job _ _ _ hc hcap hb]
      simp only [videoFrames, hb_buffer_init, Option.toList]
      simp [hsz, IncFrom, ht]
      exact ⟨t + 1, by omega⟩
    · obtain ⟨hbo, hs, hf, hsync, hcom, _⟩ := syncVideoWork_drop_summary job _ _ _ hc hcap hb hd
      rw [runVideo_cons_ok job st f fs hs]
      simp only [hbo, hf, Option.toList, List.append_nil, List.nil_append]
      rw [videoDelta_eq, hza] at hd
      have hns : ¬ (f.buf.start - (heldFrame (arrive st f) cur).start > 0) := by omega
      refine ih _ _ ?_ ?_ ?_ hfs'
      · intro c hcc
        rw [hsync] at hcc
        simp at hcc
        rw [← hcc, heldFrame_eq]
        exact hst cur hc
      · constructor
        · rw [hcom]; simp only [if_neg hns]; exact hza
        · rw [hsync]; simp only [if_neg hns]; exact hz.2
      · rw [hsync]
        simpa using ht
    · obtain ⟨p, hbo, hs, hf, hsync, hcom, _⟩ := syncVideoWork_emit_summary job _ _ _ hc hcap hb hd
      rw [runVideo_cons_ok job st f fs hs]
      simp only [hbo, hf, Option.toList, List.nil_append, List.singleton_append]
      rw [videoFrames_cons_frame _ _ (by simpa using hst cur hc)]
      rw [videoDelta_eq, hza] at hd
      have hps : (arrive st f).sync.pts_skip = 0 := hz.2
      refine ⟨by simpa using ht, _, ?_, ih _ _ ?_ ?_ rfl hfs'⟩
      · rw [hsync]
        simp only [hps]
        have : (arrive st f).sync.next_start = t := ht
        omega
      · intro c hcc
        rw [hsync] at hcc
        simp at hcc
        rw [← hcc]; exact hb
      · constructor
        · rw [hcom]; simpa [UpdateState] using hza
        · rw [hsync]

/-- A call that returns HB_WORK_OK and hands back a buffer is an emit step. -/
theorem emit_of_ok_out (job : hb_job_t) (st : VideoState) (b f : hb_buffer_t)
    (hs : (syncVideoWork job st b).status = hb_work_status.HB_WORK_OK)
    (ho : (syncVideoWork job st b).buf_out = some f) :
    ∃ cur, st.sync.cur = some cur ∧ ¬ frameCap job st ∧ b.size ≠ 0 ∧ 0 < videoDelta st cur b := by
  rcases step_cases job st b with
    ⟨hc, hb⟩ | ⟨hc, hb⟩ | ⟨cur, hc, hcap⟩ | ⟨cur, hc, hcap, hb⟩ | ⟨cur, hc, hcap, hb, hd⟩ |
    ⟨cur, hc, hcap, hb, hd⟩
  · rw [syncVideoWork_cold_eof job _ _ hc hb] at hs; cases hs
  · rw [syncVideoWork_cold job _ _ hc hb] at ho; cases ho
  · rw [syncVideoWork_cap job _ _ _ hc hcap] at hs; cases hs
  · rw [syncVideoWork_eof job _ _ _ hc hcap hb] at hs; cases hs
  · rw [(syncVideoWork_drop_summary job _ _ _ hc hcap hb hd).1] at ho; cases ho
  · exact ⟨cur, hc, hcap, hb, hd⟩

/-- A property of the worker state that every continuing call preserves holds
at the end of every run that did not finish. -/
theorem run_state_invariant (job : hb_job_t) (P : VideoState → Prop) (Q : VideoFeed → Prop)
    (hstep : ∀ st f, P st → Q f →
      (syncVideoWork job (arrive st f) f.buf).status = hb_work_status.HB_WORK_OK →
      P (syncVideoWork job (arrive st f) f.buf).state)
    (feeds : List VideoFeed) :
    ∀ st, P st → (∀ f ∈ feeds, Q f) →
      (runVideo job st feeds).status = hb_work_status.HB_WORK_OK →
      P (runVideo job st feeds).state := by
  induction feeds with
  | nil => intro st h _ _; simpa [runVideo] using h
  | cons f fs ih =>
    intro st h hq hok
    cases hs : (syncVideoWork job (arrive st f) f.buf).status with
    | HB_WORK_DONE =>
      rw [runVideo_cons_done job st f fs hs] at hok
      cases hok
    | HB_WORK_OK =>
      rw [runVideo_cons_ok job st f fs hs] at hok ⊢
      exact ih _ (hstep st f h (hq f (List.mem_cons_self _ _)) hs)
        (fun g hg => hq g (List.mem_cons_of_mem _ hg)) hok

/-- The same for runs that emitted nothing: only the calls without output
need to preserve the property. -/
theorem run_quiet_invariant (job : hb_job_t) (P : VideoState → Prop)
    (hstep : ∀ st f, P st →
      (syncVideoWork job (arrive st f) f.buf).status = hb_work_status.HB_WORK_OK →
      (syncVideoWork job (arrive st f) f.buf).fifo_sync = [] →
      (syncVideoWork job (arrive st f) f.buf).buf_out = none →
      P (syncVideoWork job (arrive st f) f.buf).state)
    (feeds : List VideoFeed) :
    ∀ st, P st → (runVideo job st feeds).out = [] →
      (runVideo job st feeds).status = hb_work_status.HB_WORK_OK ∧
      P (runVideo job st feeds).state := by
  induction feeds with
  | nil => intro st h _; simpa [runVideo] using h
  | cons f fs ih =>
    intro st h hout
    cases hs : (syncVideoWork job (arrive st f) f.buf).status with
    | HB_WORK_DONE =>
      exfalso
      rw [runVideo_cons_done job st f fs hs] at hout
      simp only [List.append_eq_nil] at hout
      rcases step_cases job (arrive st f) f.buf with
        ⟨hc, hb⟩ | ⟨hc, hb⟩ | ⟨cur, hc, hcap⟩ | ⟨cur, hc, hcap, hb⟩ | ⟨cur, hc, hcap, hb, hd⟩ |
        ⟨cur, hc, hcap, hb, hd⟩
      · rw [syncVideoWork_cold_eof job _ _ hc hb] at hout; simp at hout
      · rw [syncVideoWork_cold job _ _ hc hb] at hs; cases hs
      · rw [syncVideoWork_cap job _ _ _ hc hcap] at hout; simp at hout
      · rw [syncVideoWork_eof job _ _ _ hc hcap hb] at hout; simp at hout
      · rw [(syncVideoWork_drop_summary job _ _ _ hc hcap hb hd).2.1] at hs; cases hs
      · obtain ⟨p, _, h2, _⟩ := syncVideoWork_emit_summary job _ _ _ hc hcap hb hd
        rw [h2] at hs; cases hs
    | HB_WORK_OK =>
      rw [runVideo_cons_ok job st f fs hs] at hout ⊢
      simp only [List.append_eq_nil] at hout
      obtain ⟨⟨h1, h2⟩, h3⟩ := hout
      have h2' : (syncVideoWork job (arrive st f) f.buf).buf_out = none := by
        cases hbo : (syncVideoWork job (arrive st f) f.buf).buf_out with
        | none => rfl
        | some b => rw [hbo] at h2; simp at h2
      exact ih _ (hstep st f h hs h1 h2') h3

/-- A call without output that returns HB_WORK_OK is a cold start or a drop. -/
theorem quiet_cases (job : hb_job_t) (st : VideoState) (b : hb_buffer_t)
    (hs : (syncVideoWork job st b).status = hb_work_status.HB_WORK_OK)
    (ho : (syncVideoWork job st b).buf_out = none) :
    (st.sync.cur = none ∧ b.size ≠ 0) ∨
    (∃ cur, st.sync.cur = some cur ∧ ¬ frameCap job st ∧ b.size ≠ 0 ∧
      videoDelta st cur b ≤ 0) := by
  rcases step_cases job st b with
    ⟨hc, hb⟩ | ⟨hc, hb⟩ | ⟨cur, hc, hcap⟩ | ⟨cur, hc, hcap, hb⟩ | ⟨cur, hc, hcap, hb, hd⟩ |
    ⟨cur, hc, hcap, hb, hd⟩
  · rw [syncVideoWork_cold_eof job _ _ hc hb] at hs; cases hs
  · exact Or.inl ⟨hc, hb⟩
  · rw [syncVideoWork_cap job _ _ _ hc hcap] at hs; cases hs
  · rw [syncVideoWork_eof job _ _ _ hc hcap hb] at hs; cases hs
  · exact Or.inr ⟨cur, hc, hcap, hb, hd⟩
  · obtain ⟨p, h1, _⟩ := syncVideoWork_emit_summary job _ _ _ hc hcap hb hd
    rw [h1] at ho; cases ho

theorem heldOk_step (job : hb_job_t) (st : VideoState) (f : VideoFeed) (hst : HeldOk st)
    (hs : (syncVideoWork job (arrive st f) f.buf).status = hb_work_status.HB_WORK_OK) :
    HeldOk (syncVideoWork job (arrive st f) f.buf).state := by
  rcases step_cases job (arrive st f) f.buf with
    ⟨hc, hb⟩ | ⟨hc, hb⟩ | ⟨cur, hc, hcap⟩ | ⟨cur, hc, hcap, hb⟩ | ⟨cur, hc, hcap, hb, hd⟩ |
    ⟨cur, hc, hcap, hb, hd⟩
  · rw [syncVideoWork_cold_eof job _ _ hc hb] at hs; cases hs
  · rw [syncVideoWork_cold job _ _ hc hb]
    intro c hcc
    simp at hcc
    rw [← hcc]; exact hb
  · rw [syncVideoWork_cap job _ _ _ hc hcap] at hs; cases hs
  · rw [syncVideoWork_eof job _ _ _ hc hcap hb] at hs; cases hs
  · obtain ⟨_, _, _, hsync, _, _⟩ := syncVideoWork_drop_summary job _ _ _ hc hcap hb hd
    intro c hcc
    rw [hsync] at hcc
    simp at hcc
    rw [← hcc, heldFrame_eq]
    exact hst cur hc
  · obtain ⟨p, _, _, _, hsync, _, _⟩ := syncVideoWork_emit_summary job _ _ _ hc hcap hb hd
    intro c hcc
    rw [hsync] at hcc
    simp at hcc
    rw [← hcc]; exact hb

theorem noSlip_step (job : hb_job_t) (st : VideoState) (f : VideoFeed) (hz : NoSlip st)
    (hf0 : f.slip = 0)
    (hs : (syncVideoWork job (arrive st f) f.buf).status = hb_work_status.HB_WORK_OK) :
    NoSlip (syncVideoWork job (arrive st f) f.buf).state := by
  have hza : (arrive st f).common.video_pts_slip = 0 := by
    simp [arrive, hf0, hz.1]
  rcases step_cases job (arrive st f) f.buf with
    ⟨hc, hb⟩ | ⟨hc, hb⟩ | ⟨cur, hc, hcap⟩ | ⟨cur, hc, hcap, hb⟩ | ⟨cur, hc, hcap, hb, hd⟩ |
    ⟨cur, hc, hcap, hb, hd⟩
  · rw [syncVideoWork_cold_eof job _ _ hc hb] at hs; cases hs
  · rw [syncVideoWork_cold job _ _ hc hb]
    exact ⟨hza, hz.2⟩
  · rw [syncVideoWork_cap job _ _ _ hc hcap] at hs; cases hs
  · rw [syncVideoWork_eof job _ _ _ hc hcap hb] at hs; cases hs
  · obtain ⟨_, _, _, hsync, hcom, _⟩ := syncVideoWork_drop_summary job _ _ _ hc hcap hb hd
    rw [videoDelta_eq, hza] at hd
    have hns : ¬ (f.buf.start - (heldFrame (arrive st f) cur).start > 0) := by omega
    constructor
    · rw [hcom]; simp only [if_neg hns]; exact hza
    · rw [hsync]; simp only [if_neg hns]; exact hz.2
  · obtain ⟨p, _, _, _, hsync, hcom, _⟩ := syncVideoWork_emit_summary job _ _ _ hc hcap hb hd
    constructor
    · rw [hcom]; simpa [UpdateState] using hza
    · rw [hsync]

theorem heldOk_init (m : Int) (subs : List hb_subtitle_t) : HeldOk (initVideoState m subs) := by
  intro c hc
  simp [initVideoState, initVideoSync] at hc

theorem noSlip_init (m : Int) (subs : List hb_subtitle_t) : NoSlip (initVideoState m subs) := by
  simp [NoSlip, initVideoState, initVideoSync, initCommon]

/-- The frames a run emits are, in order, among the held frame and the inputs. -/
theorem run_sublist (job : hb_job_t) (feeds : List VideoFeed) :
    ∀ (st : VideoState), HeldOk st →
      List.Sublist ((videoFrames (runVideo job st feeds).out).map frameId)
        ((st.sync.cur.toList ++ feeds.map (fun f => f.buf)).map frameId) := by
  induction feeds with
  | nil => intro st _; simp [runVideo]
  | cons f fs ih =>
    intro st hst
    rcases step_cases job (arrive st f) f.buf with
      ⟨hc, hb⟩ | ⟨hc, hb⟩ | ⟨cur, hc, hcap⟩ | ⟨cur, hc, hcap, hb⟩ | ⟨cur, hc, hcap, hb, hd⟩ |
      ⟨cur, hc, hcap, hb, hd⟩
    · simp [runVideo, syncVideoWork_cold_eof job _ _ hc hb]
    · have hs : (syncVideoWork job (arrive st f) f.buf).status = hb_work_status.HB_WORK_OK := by
        rw [syncVideoWork_cold job _ _ hc hb]
      have h := ih _ (heldOk_step job st f hst hs)
      rw [runVideo_cons_ok job st f fs hs]
      rw [syncVideoWork_cold job _ _ hc hb] at h ⊢
      have hc' : st.sync.cur = none := hc
      simpa [hc'] using h
    · simp [runVideo, syncVideoWork_cap job _ _ _ hc hcap]
    · have hsz : cur.size ≠ 0 := hst cur hc
      have hc' : st.sync.cur = some cur := hc
      simp [runVideo, syncVideoWork_eof job _ _ _ hc hcap hb, videoFrames, hsz, hb_buffer_init,
        hc', frameId]
    · obtain ⟨hbo, hs, hf, hsync, _, _⟩ := syncVideoWork_drop_summary job _ _ _ hc hcap hb hd
      have h := ih _ (heldOk_step job st f hst hs)
      rw [runVideo_cons_ok job st f fs hs]
      have hc' : st.sync.cur = some cur := hc
      rw [hsync] at h
      simp only [hbo, hf, Option.toList, List.append_nil, List.nil_append, hc',
        List.singleton_append, List.map_cons] at h ⊢
      have hid : frameId (heldFrame (arrive st f) cur) = frameId cur := by
        simp [heldFrame_eq, frameId]
      rw [hid] at h
      exact h.trans (List.Sublist.cons₂ _ (List.sublist_cons_self _ _))
    · obtain ⟨p, hbo, hs, hf, hsync, _, _⟩ := syncVideoWork_emit_summary job _ _ _ hc hcap hb hd
      have h := ih _ (heldOk_step job st f hst hs)
      rw [runVideo_cons_ok job st f fs hs]
      have hc' : st.sync.cur = some cur := hc
      rw [hsync] at h
      simp only [hbo, hf, Option.toList, List.nil_append, hc',
        List.singleton_append, List.map_cons] at h ⊢
      rw [videoFrames_cons_frame _ _ (by simpa using hst cur hc)]
      simp only [List.map_cons]
      have hid : frameId { f.buf with sub := none } = frameId f.buf := by simp [frameId]
      rw [hid] at h
      exact List.Sublist.cons₂ _ h

/-- If a run put nothing on the output FIFO, its first call returned
HB_WORK_OK without output, and neither did the rest of the run. -/
theorem quiet_head (job : hb_job_t) (st : VideoState) (f : VideoFeed) (fs : List VideoFeed)
    (hout : (runVideo job st (f :: fs)).out = []) :
    (syncVideoWork job (arrive st f) f.buf).status = hb_work_status.HB_WORK_OK ∧
    (syncVideoWork job (arrive st f) f.buf).buf_out = none ∧
    (runVideo job (syncVideoWork job (arrive st f) f.buf).state fs).out = [] ∧
    (runVideo job st (f :: fs)).state =
      (runVideo job (syncVideoWork job (arrive st f) f.buf).state fs).state := by
  cases hs : (syncVideoWork job (arrive st f) f.buf).status with
  | HB_WORK_DONE =>
    exfalso
    rw [runVideo_cons_done job st f fs hs] at hout
    simp only [List.append_eq_nil] at hout
    rcases step_cases job (arrive st f) f.buf with
      ⟨hc, hb⟩ | ⟨hc, hb⟩ | ⟨cur, hc, hcap⟩ | ⟨cur, hc, hcap, hb⟩ | ⟨cur, hc, hcap, hb, hd⟩ |
      ⟨cur, hc, hcap, hb, hd⟩
    · rw [syncVideoWork_cold_eof job _ _ hc hb] at hout; simp at hout
    · rw [syncVideoWork_cold job _ _ hc hb] at hs; cases hs
    · rw [syncVideoWork_cap job _ _ _ hc hcap] at hout; simp at hout
    · rw [syncVideoWork_eof job _ _ _ hc hcap hb] at hout; simp at hout
    · rw [(syncVideoWork_drop_summary job _ _ _ hc hcap hb hd).2.1] at hs; cases hs
    · obtain ⟨p, _, h2, _⟩ := syncVideoWork_emit_summary job _ _ _ hc hcap hb hd
      rw [h2] at hs; cases hs
  | HB_WORK_OK =>
    rw [runVideo_cons_ok job st f fs hs] at hout ⊢
    simp only [List.append_eq_nil] at hout
    obtain ⟨⟨_, h2⟩, h3⟩ := hout
    refine ⟨rfl, ?_, h3, rfl⟩
    cases hbo : (syncVideoWork job (arrive st f) f.buf).buf_out with
    | none => rfl
    | some b => rw [hbo] at h2; simp at h2

theorem pendingChap_zeros (m : Int) (cs : List Int) (h : ∀ c ∈ cs, c = 0) :
    pendingChap m cs = m := by
  induction cs generalizing m with
  | nil => rfl
  | cons c cs ih =>
    have hc : c = 0 := h c (List.mem_cons_self _ _)
    simp only [pendingChap, hc]
    exact ih m (fun d hd => h d (List.mem_cons_of_mem _ hd))

/-- A run without output from a state that holds a frame is a run of drops:
the frame stays held with its own chapter mark, and the pending mark is that
of the last dropped frame carrying one. -/
theorem run_drops_chap (job : hb_job_t) (ds : List VideoFeed) :
    ∀ (st : VideoState) (cur : hb_buffer_t), st.sync.cur = some cur →
      (runVideo job st ds).out = [] →
      ∃ held, (runVideo job st ds).state.sync.cur = some held ∧
        held.new_chap = cur.new_chap ∧
        (runVideo job st ds).state.sync.chap_mark =
          pendingChap st.sync.chap_mark (ds.map (fun d => d.buf.new_chap)) := by
  induction ds with
  | nil => intro st cur hc _; exact ⟨cur, by simpa [runVideo] using hc, rfl, by simp [runVideo, pendingChap]⟩
  | cons d ds ih =>
    intro st cur hc hout
    obtain ⟨hs, hbo, hrest, hstate⟩ := quiet_head job st d ds hout
    rcases quiet_cases job (arrive st d) d.buf hs hbo with ⟨hn, _⟩ | ⟨c, hc', hcap, hb, hd⟩
    · rw [arrive_sync, hc] at hn; cases hn
    · have hcc : c = cur := by
        rw [arrive_sync, hc] at hc'
        exact (Option.some.inj hc').symm
      subst hcc
      obtain ⟨_, _, _, hsync, _, _⟩ := syncVideoWork_drop_summary job _ _ _ hc' hcap hb hd
      obtain ⟨held, h1, h2, h3⟩ := ih _ (heldFrame (arrive st d) c) (by rw [hsync]) hrest
      refine ⟨held, by rw [hstate]; exact h1, ?_, ?_⟩
      · rw [h2, heldFrame_eq]
      · rw [hstate, h3, hsync]
        simp [pendingChap]

theorem beforeFirst_init (m : Int) (subs : List hb_subtitle_t) :
    BeforeFirst (initVideoState m subs) := by
  simp [BeforeFirst, initVideoState, initVideoSync]

theorem beforeFirst_quiet (job : hb_job_t) (st : VideoState) (f : VideoFeed)
    (h : BeforeFirst st ∧ HeldOk st)
    (hs : (syncVideoWork job (arrive st f) f.buf).status = hb_work_status.HB_WORK_OK)
    (_hf : (syncVideoWork job (arrive st f) f.buf).fifo_sync = [])
    (hbo : (syncVideoWork job (arrive st f) f.buf).buf_out = none) :
    BeforeFirst (syncVideoWork job (arrive st f) f.buf).state ∧
    HeldOk (syncVideoWork job (arrive st f) f.buf).state := by
  refine ⟨?_, heldOk_step job st f h.2 hs⟩
  obtain ⟨⟨hns, hfirst⟩, _⟩ := h
  rcases quiet_cases job (arrive st f) f.buf hs hbo with ⟨hc, hb⟩ | ⟨c, hc, hcap, hb, hd⟩
  · rw [syncVideoWork_cold job _ _ hc hb]
    refine ⟨hns, ?_⟩
    rcases hfirst with h1 | ⟨c, h1, _⟩
    · exact Or.inl h1
    · rw [arrive_sync, h1] at hc; cases hc
  · obtain ⟨_, _, _, hsync, _, _⟩ := syncVideoWork_drop_summary job _ _ _ hc hcap hb hd
    unfold BeforeFirst
    rw [hsync]
    refine ⟨hns, Or.inr ⟨_, rfl, ?_⟩⟩
    rw [heldFrame_eq]
    rcases hfirst with h1 | ⟨c', h1, h2⟩
    · simp [h1]
    · rw [arrive_sync, h1] at hc
      cases hc
      by_cases hm : st.sync.pts_offset = INT64_MIN <;> simp [hm, h2]

theorem sameButStop_refl (b : hb_buffer_t) : SameButStop b b := rfl

theorem sameButStop_set (b : hb_buffer_t) (e : Int) : SameButStop { b with stop := e } b := rfl

theorem sameButStop_trans {a b c : hb_buffer_t} (h1 : SameButStop a b) (h2 : SameButStop b c) :
    SameButStop a c := by
  unfold SameButStop at *
  rw [h1, h2]

theorem sameButStop_clip (sub : hb_buffer_t) (rest : List hb_buffer_t) :
    SameButStop (clipToNext sub rest) sub := by
  unfold clipToNext
  cases rest with
  | nil => rfl
  | cons s2 _ =>
    simp only
    split_ifs
    · exact sameButStop_set _ _
    · rfl

theorem sameButStop_sequence {a b : hb_buffer_t} (h : SameButStop a b) :
    a.sequence = b.sequence ∧ a.size = b.size ∧ renderCopy a = renderCopy b := by
  unfold SameButStop at h
  rw [h]
  exact ⟨rfl, rfl, rfl⟩

/-- What the VOBSUB loop leaves in sub is the head of the queue it leaves, it
is the end-of-stream buffer or has a sequence number the video has reached,
and it is an entry of the original queue up to its stop. -/
theorem vobsubScan_some (cur : hb_buffer_t) (raw : List hb_buffer_t) :
    ∀ r, vobsubScan cur raw = r → ∀ s, r.2 = some s →
      r.1.head? = some s ∧ (s.size = 0 ∨ s.sequence ≤ cur.sequence) ∧
      ∃ h ∈ raw, SameButStop s h := by
  induction raw with
  | nil => intro r hr s hs; subst hr; simp [vobsubScan] at hs
  | cons b rest ih =>
    intro r hr s hs
    have key : ∀ x, SameButStop x b → x.sequence ≤ cur.sequence →
        (x :: rest, some x) = r →
        r.1.head? = some s ∧ (s.size = 0 ∨ s.sequence ≤ cur.sequence) ∧
          ∃ h ∈ b :: rest, SameButStop s h := by
      intro x hx hle hxr
      subst hxr
      cases hs
      exact ⟨rfl, Or.inr hle, b, List.mem_cons_self _ _, hx⟩
    have hc1 := sameButStop_clip b rest
    have hc2 : ∀ e, SameButStop (clipToNext { clipToNext b rest with stop := e } rest) b :=
      fun e => sameButStop_trans (sameButStop_clip _ _)
        (sameButStop_trans (sameButStop_set _ _) hc1)
    unfold vobsubScan at hr
    by_cases h0 : b.size = 0
    · simp only [h0, if_true] at hr
      subst hr
      cases hs
      exact ⟨rfl, Or.inl h0, b, List.mem_cons_self _ _, rfl⟩
    · simp only [h0, if_false] at hr
      by_cases hseq : (clipToNext b rest).sequence > cur.sequence
      · simp only [hseq, if_true] at hr
        subst hr
        cases hs
      · simp only [hseq, if_false] at hr
        have hle : (clipToNext b rest).sequence ≤ cur.sequence := not_lt.mp hseq
        have hle2 : ∀ e, (clipToNext { clipToNext b rest with stop := e } rest).sequence
            ≤ cur.sequence := by
          intro e
          rw [(sameButStop_sequence (hc2 e)).1, ← (sameButStop_sequence hc1).1]
          exact hle
        by_cases hstop : (clipToNext b rest).stop > cur.start
        · simp only [hstop, if_true] at hr
          split_ifs at hr <;> first
            | exact key _ (hc2 _) (hle2 _) hr
            | exact key _ hc1 hle hr
            | (subst hr; cases hs)
        · simp only [hstop, if_false] at hr
          obtain ⟨h1, h2, h, hh, h3⟩ := ih r hr s hs
          exact ⟨h1, h2, h, List.mem_cons_of_mem _ hh, h3⟩

/-- A head that is ahead of the video stays where it is. -/
theorem vobsubScan_wait (cur b : hb_buffer_t) (rest : List hb_buffer_t) (h0 : b.size ≠ 0)
    (hseq : cur.sequence < b.sequence) :
    vobsubScan cur (b :: rest) = (clipToNext b rest :: rest, none) := by
  have hs : (clipToNext b rest).sequence > cur.sequence := by
    rw [(sameButStop_sequence (sameButStop_clip b rest)).1]; exact hseq
  simp [vobsubScan, h0, hs]

theorem syncSubtitle_vobsub (cur : hb_buffer_t) (t : hb_subtitle_t)
    (hsrc : t.source = hb_subtitle_source.VOBSUB) :
    syncSubtitle cur t =
      vobsubDeliver cur t (vobsubScan cur t.fifo_raw).1 (vobsubScan cur t.fifo_raw).2 := by
  simp [syncSubtitle, hsrc]

theorem syncSubtitle_other (cur : hb_buffer_t) (t : hb_subtitle_t)
    (hsrc : t.source ≠ hb_subtitle_source.VOBSUB) :
    (syncSubtitle cur t).1 = cur := by
  unfold syncSubtitle
  split_ifs <;> rfl

theorem vobsubDeliver_sub (cur : hb_buffer_t) (t : hb_subtitle_t) (raw : List hb_buffer_t)
    (sub : Option hb_buffer_t) :
    (vobsubDeliver cur t raw sub).1.sub = cur.sub ∨
    ∃ s, sub = some s ∧ 0 < s.size ∧ (vobsubDeliver cur t raw sub).1.sub = some (renderCopy s) := by
  cases sub with
  | none => exact Or.inl rfl
  | some s =>
    by_cases h1 : s.size > 0
    · by_cases h2 : t.dest = hb_subtitle_dest.RENDERSUB
      · by_cases h3 : cur.sub = none
        · refine Or.inr ⟨s, rfl, h1, ?_⟩
          simp [vobsubDeliver, h1, h2, h3]
        · refine Or.inl ?_
          simp [vobsubDeliver, h1, h2, h3]
      · refine Or.inl ?_
        simp [vobsubDeliver, h1, h2]
    · by_cases h2 : t.dest = hb_subtitle_dest.RENDERSUB
      · refine Or.inl ?_
        simp [vobsubDeliver, h1, h2]
      · refine Or.inl ?_
        simp [vobsubDeliver, h1, h2]

theorem vobsubDeliver_sync (cur : hb_buffer_t) (t : hb_subtitle_t) (raw : List hb_buffer_t)
    (sub : Option hb_buffer_t) :
    (vobsubDeliver cur t raw sub).2.fifo_sync = t.fifo_sync ∨
    (sub ≠ none ∧ (vobsubDeliver cur t raw sub).2.fifo_sync = t.fifo_sync ++ raw.head?.toList) := by
  cases sub with
  | none => exact Or.inl rfl
  | some s =>
    by_cases h1 : s.size > 0
    · by_cases h2 : t.dest = hb_subtitle_dest.RENDERSUB
      · by_cases h3 : cur.sub = none
        · refine Or.inl ?_
          simp [vobsubDeliver, h1, h2, h3]
        · refine Or.inl ?_
          simp [vobsubDeliver, h1, h2, h3]
      · refine Or.inr ⟨by simp, ?_⟩
        simp [vobsubDeliver, h1, h2]
    · by_cases h2 : t.dest = hb_subtitle_dest.RENDERSUB
      · refine Or.inl ?_
        simp [vobsubDeliver, h1, h2]
      · refine Or.inr ⟨by simp, ?_⟩
        simp [vobsubDeliver, h1, h2]

/-- What a VOBSUB track forwards to its sync FIFO in one alignment: at most
the buffer left by the loop. -/
theorem syncSubtitle_vobsub_sync (cur : hb_buffer_t) (t : hb_subtitle_t)
    (hsrc : t.source = hb_subtitle_source.VOBSUB) :
    ∃ fwd, (syncSubtitle cur t).2.fifo_sync = t.fifo_sync ++ fwd ∧
      ∀ b ∈ fwd, b.size ≠ 0 → b.sequence ≤ cur.sequence := by
  have hspec := vobsubScan_some cur t.fifo_raw _ rfl
  rw [syncSubtitle_vobsub cur t hsrc]
  rcases vobsubDeliver_sync cur t (vobsubScan cur t.fifo_raw).1 (vobsubScan cur t.fifo_raw).2
    with h | ⟨hne, h⟩
  · exact ⟨[], by simpa using h, by simp⟩
  · refine ⟨_, h, ?_⟩
    cases hsub : (vobsubScan cur t.fifo_raw).2 with
    | none => exact absurd hsub hne
    | some s =>
      obtain ⟨hhead, hseq, _⟩ := hspec s hsub
      intro b hb hbs
      rw [hhead] at hb
      simp at hb
      subst hb
      rcases hseq with h | h
      · exact absurd h hbs
      · exact h

/-- What one track attaches to the held frame: nothing, or the copy of an
entry of a VOBSUB raw queue whose sequence number the video has reached. -/
theorem syncSubtitle_sub (cur : hb_buffer_t) (t : hb_subtitle_t) :
    (syncSubtitle cur t).1.sub = cur.sub ∨
    (t.source = hb_subtitle_source.VOBSUB ∧ ∃ h ∈ t.fifo_raw, 0 < h.size ∧
      h.sequence ≤ cur.sequence ∧ (syncSubtitle cur t).1.sub = some (renderCopy h)) := by
  by_cases hsrc : t.source = hb_subtitle_source.VOBSUB
  · have hspec := vobsubScan_some cur t.fifo_raw _ rfl
    rw [syncSubtitle_vobsub cur t hsrc]
    rcases vobsubDeliver_sub cur t (vobsubScan cur t.fifo_raw).1 (vobsubScan cur t.fifo_raw).2
      with h | ⟨s, hs, hpos, hcopy⟩
    · exact Or.inl h
    · obtain ⟨_, hseq, h, hh, hsame⟩ := hspec s hs
      obtain ⟨e1, e2, e3⟩ := sameButStop_sequence hsame
      refine Or.inr ⟨hsrc, h, hh, by rw [← e2]; exact hpos, ?_, by rw [hcopy, e3]⟩
      rw [← e1]
      rcases hseq with h0 | h0
      · omega
      · exact h0
  · exact Or.inl (by rw [syncSubtitle_other cur t hsrc])

/-- A VOBSUB head that is ahead of the video stays at the head of the raw
queue; the track forwards nothing and attaches nothing. -/
theorem syncSubtitle_wait (cur b : hb_buffer_t) (t : hb_subtitle_t) (rest : List hb_buffer_t)
    (hsrc : t.source = hb_subtitle_source.VOBSUB) (hraw : t.fifo_raw = b :: rest)
    (h0 : b.size ≠ 0) (hseq : cur.sequence < b.sequence) :
    syncSubtitle cur t = (cur, { t with fifo_raw := clipToNext b rest :: rest }) := by
  rw [syncSubtitle_vobsub cur t hsrc, hraw, vobsubScan_wait cur b rest h0 hseq]
  rfl

theorem syncSubtitle_fst_fields (cur : hb_buffer_t) (t : hb_subtitle_t) :
    (syncSubtitle cur t).1.sequence = cur.sequence ∧ (syncSubtitle cur t).1.start = cur.start := by
  obtain ⟨p, hp⟩ := syncSubtitle_fst cur t
  rw [hp]
  exact ⟨rfl, rfl⟩

/-- Track i of the list is aligned against the held frame, with whatever the
tracks before it attached. -/
theorem syncSubtitles_get (l : List hb_subtitle_t) :
    ∀ (cur : hb_buffer_t) (i : Nat) (t : hb_subtitle_t), l[i]? = some t →
      ∃ c, c.sequence = cur.sequence ∧ c.start = cur.start ∧
        (syncSubtitles cur l).2[i]? = some (syncSubtitle c t).2 := by
  induction l with
  | nil => intro cur i t h; simp at h
  | cons s ss ih =>
    intro cur i t h
    cases i with
    | zero =>
      simp at h
      subst h
      exact ⟨cur, rfl, rfl, by simp [syncSubtitles]⟩
    | succ j =>
      simp at h
      obtain ⟨c, h1, h2, h3⟩ := ih (syncSubtitle cur s).1 j t h
      obtain ⟨e1, e2⟩ := syncSubtitle_fst_fields cur s
      exact ⟨c, h1.trans e1, h2.trans e2, by simpa [syncSubtitles] using h3⟩

/-- What the alignment of all tracks attaches to the held frame. -/
theorem syncSubtitles_sub (l : List hb_subtitle_t) :
    ∀ cur : hb_buffer_t,
      (syncSubtitles cur l).1.sub = cur.sub ∨
      ∃ u ∈ l, u.source = hb_subtitle_source.VOBSUB ∧ ∃ h ∈ u.fifo_raw, 0 < h.size ∧
        h.sequence ≤ cur.sequence ∧ (syncSubtitles cur l).1.sub = some (renderCopy h) := by
  induction l with
  | nil => intro cur; exact Or.inl rfl
  | cons s ss ih =>
    intro cur
    obtain ⟨e1, _⟩ := syncSubtitle_fst_fields cur s
    simp only [syncSubtitles]
    rcases ih (syncSubtitle cur s).1 with g1 | ⟨u, hu, hv, h, hh, h1, h2, h3⟩
    · rcases syncSubtitle_sub cur s with g | ⟨gv, h, hh, h1, h2, h3⟩
      · exact Or.inl (g1.trans g)
      · exact Or.inr ⟨s, List.mem_cons_self _ _, gv, h, hh, h1, h2, g1.trans h3⟩
    · exact Or.inr ⟨u, List.mem_cons_of_mem _ hu, hv, h, hh, h1, by rw [← e1]; exact h2, h3⟩

/-- The slip counters after the gap test, according to its three conditions. -/
theorem audioForward_common (audio : hb_audio_t) (common : hb_sync_common_t)
    (sync : hb_sync_audio_t) (buf : hb_buffer_t) (start : Int) :
    (audioForward audio common sync buf start).common =
      if audio.out_codec = hb_acodec.HB_ACODEC_DCA ∧ 90 * 70 ≤ start - sync.next_pts ∧
          start - sync.next_pts ≤ 90000 * 60 then
        { common with
          audio_passthru_slip := common.audio_passthru_slip + (start - sync.next_pts),
          video_pts_slip := common.video_pts_slip + (start - sync.next_pts) }
      else common := by
  unfold audioForward
  by_cases h6 : start - sync.next_pts ≥ 90 * 70
  · rw [if_pos h6]
    by_cases h7 : start - sync.next_pts > 90000 * 60
    · rw [if_pos h7, if_neg (fun h => absurd h.2.2 (not_le.mpr h7))]
    · rw [if_neg h7]
      by_cases h8 : audio.out_codec = hb_acodec.HB_ACODEC_DCA
      · rw [if_pos h8, if_pos ⟨h8, h6, not_lt.mp h7⟩]
      · rw [if_neg h8, if_neg (fun h => h8 h.1)]
  · rw [if_neg h6, if_neg (fun h => h6 h.2.1)]

theorem syncAudioWork_common (job : hb_job_t) (audio : hb_audio_t) (common : hb_sync_common_t)
    (sync : hb_sync_audio_t) (buf : hb_buffer_t) :
    (syncAudioWork job audio common sync buf).common =
      if dcaGap job audio common sync buf then
        { common with
          audio_passthru_slip := common.audio_passthru_slip +
            (buf.start - common.audio_passthru_slip - sync.next_pts),
          video_pts_slip := common.video_pts_slip +
            (buf.start - common.audio_passthru_slip - sync.next_pts) }
      else common := by
  unfold syncAudioWork
  by_cases h1 : buf.size ≤ 0
  · rw [if_pos h1, if_neg]
    intro h; unfold dcaGap at h; omega
  · rw [if_neg h1]
    by_cases h2 : job.frame_to_stop ≠ 0 ∧ common.count_frames ≥ job.frame_to_stop
    · rw [if_pos h2, if_neg]
      intro h; exact h.2.1 h2
    · rw [if_neg h2]
      by_cases h3 : buf.start - common.audio_passthru_slip - sync.next_pts < 0
      · simp only [h3, if_true]
        have hng : ¬ dcaGap job audio common sync buf := by
          intro h; unfold dcaGap at h; omega
        rw [if_neg hng]
        by_cases h4 : sync.first_drop ≠ 0 ∨
            sync.next_start - (buf.start - common.audio_passthru_slip) > 90 * 15
        · rw [if_pos h4]
        · rw [if_neg h4, audioForward_common, if_neg]
          intro h
          have : (endAudioDropRun { sync with next_pts := buf.start - common.audio_passthru_slip }
              (buf.start - common.audio_passthru_slip)).next_pts =
              buf.start - common.audio_passthru_slip := by
            unfold endAudioDropRun; split_ifs <;> rfl
          rw [this] at h
          omega
      · simp only [h3, if_false]
        rw [audioForward_common]
        by_cases h5 : sync.first_drop = 0
        · have he : endAudioDropRun sync (buf.start - common.audio_passthru_slip) = sync := by
            simp [endAudioDropRun, h5]
          rw [he]
          by_cases hg : dcaGap job audio common sync buf
          · rw [if_pos hg, if_pos ⟨hg.2.2.1, hg.2.2.2.2.1, hg.2.2.2.2.2⟩]
          · rw [if_neg hg, if_neg]
            intro h
            exact hg ⟨by omega, h2, h.1, h5, h.2.1, h.2.2⟩
        · have he : (endAudioDropRun sync (buf.start - common.audio_passthru_slip)).next_pts =
              buf.start - common.audio_passthru_slip := by
            simp [endAudioDropRun, h5]
          rw [he, if_neg (fun h => by omega), if_neg (fun h => h5 h.2.2.2.1)]

theorem chain_stamps (l : List hb_buffer_t) :
    List.Chain' (fun a b : hb_buffer_t => a.stop = b.start) l ↔
      List.Chain' (fun p q : Int × Int => p.2 = q.1) (l.map (fun b => (b.start, b.stop))) := by
  rw [List.chain'_map]

/-! ## The claims -/

/-- C1: for every sequence of inputs fed to syncVideoWork from the initial state
(whatever the slip counters and the subtitle queues do in between), each
emitted video frame, the one flushed at end of stream included, starts exactly
where the frame emitted before it stops. -/
theorem video_frames_contiguous (job : hb_job_t) (m : Int) (subs : List hb_subtitle_t)
    (feeds : List VideoFeed) :
    List.Chain' (fun a b : hb_buffer_t => a.stop = b.start)
      (videoFrames (runVideo job (initVideoState m subs) feeds).out) :=
  chain_of_contigFrom _ _
    (run_contig job feeds (initVideoState m subs) _ (heldOk_init m subs) rfl)

/-- C2, as stated, fails: after a DCA gap of 9000 ticks moved video_pts_slip,
the frame at 12000 is dropped and the frame at 6000 is accepted with duration
6000 - 9000 - 3000 < 0, so the emitted starts 0, 3000, -3000 are not increasing. -/
theorem video_starts_not_increasing_with_slip :
    (videoFrames (runVideo exJob (initVideoState 0 []) c2Feeds).out).map (fun b => (b.start, b.stop))
      = [(0, 3000), (3000, -3000), (-3000, 0)] ∧
    ¬ List.Pairwise (fun a b : hb_buffer_t => a.start < b.start)
      (videoFrames (runVideo exJob (initVideoState 0 []) c2Feeds).out) ∧
    (syncAudioWork exJob (exAudio hb_acodec.HB_ACODEC_DCA) initCommon (initAudioSync 0 none)
      (exAudioBuf 9000 11880)).common.video_pts_slip = 9000 := by
  decide

/-- C2, amended: as long as video_pts_slip stays 0 (no audio worker adds to the
slip counters), the starts of the emitted video frames are strictly increasing,
pts_skip stays 0, and a frame emitted on the look-ahead path has the positive
duration next.start - pts_skip - cur.start. -/
theorem video_starts_increasing_without_slip (job : hb_job_t) (m : Int)
    (subs : List hb_subtitle_t) (feeds : List VideoFeed) (h : ∀ f ∈ feeds, f.slip = 0) :
    List.Pairwise (fun a b : hb_buffer_t => a.start < b.start)
      (videoFrames (runVideo job (initVideoState m subs) feeds).out) ∧
    ∀ (nx : VideoFeed) (cur g : hb_buffer_t), nx.slip = 0 →
      (runVideo job (initVideoState m subs) feeds).status = hb_work_status.HB_WORK_OK →
      (runVideo job (initVideoState m subs) feeds).state.sync.cur = some cur →
      (syncVideoWork job (arrive (runVideo job (initVideoState m subs) feeds).state nx)
        nx.buf).status = hb_work_status.HB_WORK_OK →
      (syncVideoWork job (arrive (runVideo job (initVideoState m subs) feeds).state nx)
        nx.buf).buf_out = some g →
      (runVideo job (initVideoState m subs) feeds).state.sync.pts_skip = 0 ∧
      g.stop - g.start = nx.buf.start -
        (runVideo job (initVideoState m subs) feeds).state.sync.pts_skip -
        (heldFrame (runVideo job (initVideoState m subs) feeds).state cur).start ∧
      0 < g.stop - g.start := by
  refine ⟨pairwise_of_incFrom _ _
    (run_increasing job feeds _ _ (heldOk_init m subs) (noSlip_init m subs) rfl h), ?_⟩
  intro nx cur g hnx hok hcur hs hbo
  have hz : NoSlip (runVideo job (initVideoState m subs) feeds).state :=
    run_state_invariant job NoSlip (fun f => f.slip = 0)
      (fun st f hP hQ hst => noSlip_step job st f hP hQ hst) feeds _ (noSlip_init m subs) h hok
  obtain ⟨c, hc, hcap, hb, hd⟩ := emit_of_ok_out job _ _ _ hs hbo
  have hcc : c = cur := by
    rw [arrive_sync, hcur] at hc
    exact (Option.some.inj hc).symm
  subst hcc
  obtain ⟨p, hbo', _⟩ := syncVideoWork_emit_summary job _ _ _ hc hcap hb hd
  rw [hbo'] at hbo
  have hg := (Option.some.inj hbo).symm
  have hza : (arrive (runVideo job (initVideoState m subs) feeds).state nx).common.video_pts_slip
      = 0 := by
    simp [arrive, hnx, hz.1]
  rw [videoDelta_eq, hza] at hd
  have hps : (runVideo job (initVideoState m subs) feeds).state.sync.pts_skip = 0 := hz.2
  have hheld : heldFrame (arrive (runVideo job (initVideoState m subs) feeds).state nx) c =
      heldFrame (runVideo job (initVideoState m subs) feeds).state c := rfl
  rw [hheld] at hd
  refine ⟨hps, ?_, ?_⟩
  · rw [hg]
    simp only [arrive_sync, hheld]
    ring
  · rw [hg]
    simp only [arrive_sync, hheld, hps]
    omega

/-- C3 fails on the code: after the gap of 6400 ticks is filled with two silence
frames ending at 8640, the input buffer is handed back with its input stamps
(start 9280), not through OutputAudioFrame; and after a DCA slip the forwarded
buffer keeps its input stamps (stop 9180) while the next buffer is stamped from
next_start = 0. -/
theorem audio_gap_breaks_contiguity :
    (runAudio exJob (exAudio hb_acodec.HB_ACODEC_OTHER) initCommon (initAudioSync 0 none)
        c3Bufs).out.map (fun b => (b.start, b.stop))
      = [(0, 2880), (2880, 5760), (5760, 8640), (9280, 12160)] ∧
    ¬ List.Chain' (fun a b : hb_buffer_t => a.stop = b.start)
      (runAudio exJob (exAudio hb_acodec.HB_ACODEC_OTHER) initCommon (initAudioSync 0 none)
        c3Bufs).out ∧
    (runAudio exJob (exAudio hb_acodec.HB_ACODEC_DCA) initCommon (initAudioSync 0 none)
        c3DcaBufs).out.map (fun b => (b.start, b.stop))
      = [(6300, 9180), (0, 2880)] ∧
    ¬ List.Chain' (fun a b : hb_buffer_t => a.stop = b.start)
      (runAudio exJob (exAudio hb_acodec.HB_ACODEC_DCA) initCommon (initAudioSync 0 none)
        c3DcaBufs).out := by
  have h1 : (runAudio exJob (exAudio hb_acodec.HB_ACODEC_OTHER) initCommon (initAudioSync 0 none)
      c3Bufs).out.map (fun b => (b.start, b.stop))
      = [(0, 2880), (2880, 5760), (5760, 8640), (9280, 12160)] := by decide
  have h2 : (runAudio exJob (exAudio hb_acodec.HB_ACODEC_DCA) initCommon (initAudioSync 0 none)
      c3DcaBufs).out.map (fun b => (b.start, b.stop)) = [(6300, 9180), (0, 2880)] := by decide
  refine ⟨h1, ?_, h2, ?_⟩
  · rw [chain_stamps, h1]
    simp
  · rw [chain_stamps, h2]
    simp

/-- C4: every call of syncAudioWork changes audio_passthru_slip and
video_pts_slip by the same amount, which is start - next_pts (with
start = buf.start - audio_passthru_slip) in the DCA gap case and 0 in every
other case. -/
theorem audio_slips_move_together (job : hb_job_t) (audio : hb_audio_t)
    (common : hb_sync_common_t) (sync : hb_sync_audio_t) (buf : hb_buffer_t) :
    (syncAudioWork job audio common sync buf).common.audio_passthru_slip
        - common.audio_passthru_slip =
      (syncAudioWork job audio common sync buf).common.video_pts_slip - common.video_pts_slip ∧
    (syncAudioWork job audio common sync buf).common.audio_passthru_slip
        - common.audio_passthru_slip =
      (if dcaGap job audio common sync buf then
        buf.start - common.audio_passthru_slip - sync.next_pts
      else 0) := by
  rw [syncAudioWork_common]
  by_cases h : dcaGap job audio common sync buf
  · simp only [if_pos h]
    constructor <;> ring
  · simp only [if_neg h]
    constructor <;> ring

/-- C9: the video frames a run emits, identified by payload and demuxer
sequence number, form a subsequence of the input buffers: frames are dropped
but never reordered or duplicated. -/
theorem video_output_is_subsequence (job : hb_job_t) (m : Int) (subs : List hb_subtitle_t)
    (feeds : List VideoFeed) :
    List.Sublist
      ((videoFrames (runVideo job (initVideoState m subs) feeds).out).map frameId)
      ((feeds.map (fun f => f.buf)).map frameId) := by
  have h := run_sublist job feeds (initVideoState m subs) (heldOk_init m subs)
  simpa [initVideoState, initVideoSync] using h

/-- C5, as stated, fails: the frame at 60000 with chapter mark 2 is dropped, the
frame at 50000 with chapter mark 3 is dropped after it, and the next emitted
frame carries 3, not 2.  And when the end of stream follows the drop, the
frame flushed there carries no mark at all. -/
theorem dropped_chapter_can_be_replaced :
    (syncVideoWork exJob c8State (exFrame 60000 2 3)).buf_out = none ∧
    (syncVideoWork exJob c8State (exFrame 60000 2 3)).state.sync.cur = c8State.sync.cur ∧
    (videoFrames (runVideo exJob (syncVideoWork exJob c8State (exFrame 60000 2 3)).state
      [exFeed 0 (exFrame 50000 3 4), exFeed 0 (exFrame 180000 0 5)]).out).map
        (fun b => (b.sequence, b.new_chap)) = [(2, 3)] ∧
    (videoFrames (runVideo exJob (syncVideoWork exJob c8State (exFrame 60000 2 3)).state
      [exFeed 0 (hb_buffer_init 0)]).out).map (fun b => (b.sequence, b.new_chap)) = [(2, 0)] := by
  decide

/-- C5, amended: if syncVideoWork drops an input frame d whose new_chap is
c ≠ 0, and the frames dropped after it before the next emit carry no chapter
mark, then the frame handed back by the next emit on the look-ahead path
carries new_chap = c.  Here the run over d and ds puts nothing on the output,
which from a state that holds a frame means that each of them was dropped. -/
theorem dropped_chapter_survives (job : hb_job_t) (st : VideoState) (cur : hb_buffer_t)
    (d : VideoFeed) (ds : List VideoFeed) (nx : VideoFeed) (g : hb_buffer_t)
    (hc : st.sync.cur = some cur)
    (hdrop : (runVideo job st (d :: ds)).out = [])
    (hchap : d.buf.new_chap ≠ 0)
    (hclean : ∀ x ∈ ds, x.buf.new_chap = 0)
    (hs : (syncVideoWork job (arrive (runVideo job st (d :: ds)).state nx) nx.buf).status
      = hb_work_status.HB_WORK_OK)
    (hbo : (syncVideoWork job (arrive (runVideo job st (d :: ds)).state nx) nx.buf).buf_out
      = some g) :
    g.new_chap = d.buf.new_chap := by
  obtain ⟨held, h1, _, h3⟩ := run_drops_chap job (d :: ds) st cur hc hdrop
  obtain ⟨c, hcc, hcap, hb, hd⟩ := emit_of_ok_out job _ _ _ hs hbo
  obtain ⟨p, hbo', _⟩ := syncVideoWork_emit_summary job _ _ _ hcc hcap hb hd
  rw [hbo'] at hbo
  have hg := (Option.some.inj hbo).symm
  have hm : (runVideo job st (d :: ds)).state.sync.chap_mark = d.buf.new_chap := by
    rw [h3]
    simp only [List.map_cons, pendingChap, if_pos hchap]
    apply pendingChap_zeros
    intro c hc
    obtain ⟨x, hx, rfl⟩ := List.mem_map.mp hc
    exact hclean x hx
  rw [hg]
  simp only [arrive_sync, hm, if_pos hchap]

/-- The amended C5 in scenario B: the frame at 60000 with chapter mark 2 and
the unmarked frame at 50000 are dropped, the frame at 180000 is accepted, and
the frame emitted then carries chapter mark 2. -/
theorem dropped_chapter_survives_witness :
    (runVideo exJob c8State [exFeed 0 (exFrame 60000 2 3), exFeed 0 (exFrame 50000 0 4)]).out = [] ∧
    ({ exFrame 90000 0 2 with start := 90000, stop := 180000, new_chap := 2 } : hb_buffer_t).new_chap
      = (exFeed 0 (exFrame 60000 2 3)).buf.new_chap :=
  ⟨by decide,
   dropped_chapter_survives exJob c8State (exFrame 90000 0 2) (exFeed 0 (exFrame 60000 2 3))
    [exFeed 0 (exFrame 50000 0 4)] (exFeed 0 (exFrame 180000 0 5))
    { exFrame 90000 0 2 with start := 90000, stop := 180000, new_chap := 2 }
    (by decide) (by decide) (by decide) (by decide) (by decide) (by decide)⟩

/-- C6, as stated, fails: the first frame carries chapter mark 1 and is
emitted, but the frame dropped right after it carries chapter mark 2, which
replaces the mark of the emitted frame; chapter 1 is on no emitted frame. -/
theorem emitted_chapter_can_be_replaced :
    (videoFrames (runVideo exJob (initVideoState 0 [])
      [exFeed 0 (exFrame 0 1 1), exFeed 0 (exFrame 0 2 2), exFeed 0 (exFrame 3000 0 3),
       exFeed 0 (hb_buffer_init 0)]).out).map (fun b => (b.sequence, b.new_chap))
      = [(1, 2), (3, 0)] := by
  decide

/-- C6, amended: the frame handed back by an emit on the look-ahead path
carries the chapter mark that was pending when it became the held frame or
that of the last frame with a nonzero mark dropped since, and its own input
mark if there is none; so a held frame keeps its own chapter mark across the
drops that follow it when no mark is pending and none of the dropped frames
carries one. -/
theorem emitted_chapter_rule (job : hb_job_t) (st : VideoState) (cur : hb_buffer_t)
    (ds : List VideoFeed) (nx : VideoFeed) (g : hb_buffer_t)
    (hc : st.sync.cur = some cur)
    (hdrop : (runVideo job st ds).out = [])
    (hs : (syncVideoWork job (arrive (runVideo job st ds).state nx) nx.buf).status
      = hb_work_status.HB_WORK_OK)
    (hbo : (syncVideoWork job (arrive (runVideo job st ds).state nx) nx.buf).buf_out = some g) :
    g.new_chap =
      (if pendingChap st.sync.chap_mark (ds.map (fun d => d.buf.new_chap)) ≠ 0 then
        pendingChap st.sync.chap_mark (ds.map (fun d => d.buf.new_chap))
      else cur.new_chap) ∧
    (st.sync.chap_mark = 0 → (∀ x ∈ ds, x.buf.new_chap = 0) → g.new_chap = cur.new_chap) := by
  obtain ⟨held, h1, h2, h3⟩ := run_drops_chap job ds st cur hc hdrop
  obtain ⟨c, hcc, hcap, hb, hd⟩ := emit_of_ok_out job _ _ _ hs hbo
  have hch : c = held := by
    rw [arrive_sync, h1] at hcc
    exact (Option.some.inj hcc).symm
  subst hch
  obtain ⟨p, hbo', _⟩ := syncVideoWork_emit_summary job _ _ _ hcc hcap hb hd
  rw [hbo'] at hbo
  have hg := (Option.some.inj hbo).symm
  have hfirst : g.new_chap =
      (if pendingChap st.sync.chap_mark (ds.map (fun d => d.buf.new_chap)) ≠ 0 then
        pendingChap st.sync.chap_mark (ds.map (fun d => d.buf.new_chap))
      else cur.new_chap) := by
    rw [hg]
    simp only [arrive_sync, h3, h2]
  refine ⟨hfirst, ?_⟩
  intro hm hclean
  have hz : pendingChap st.sync.chap_mark (ds.map (fun d => d.buf.new_chap)) = 0 := by
    rw [pendingChap_zeros, hm]
    intro c hc
    obtain ⟨x, hx, rfl⟩ := List.mem_map.mp hc
    exact hclean x hx
  rw [hfirst, hz]
  simp

/-- The amended C6 at the inputs of the counterexample: the held first frame
has mark 1, the dropped frame has mark 2, and the emitted frame carries 2. -/
theorem emitted_chapter_rule_witness :
    (runVideo exJob (runVideo exJob (initVideoState 0 []) [exFeed 0 (exFrame 0 1 1)]).state
      [exFeed 0 (exFrame 0 2 2)]).out = [] ∧
    ({ exFrame 0 1 1 with stop := 3000, new_chap := 2 } : hb_buffer_t).new_chap = 2 :=
  ⟨by decide,
   (emitted_chapter_rule exJob
      (runVideo exJob (initVideoState 0 []) [exFeed 0 (exFrame 0 1 1)]).state (exFrame 0 1 1)
      [exFeed 0 (exFrame 0 2 2)] (exFeed 0 (exFrame 3000 0 3))
      { exFrame 0 1 1 with stop := 3000, new_chap := 2 }
      (by decide) (by decide) (by decide) (by decide)).1⟩

/-- C7: in a run from the initial state, the first video frame the worker
emits (the inputs before it put nothing on the output) has start = 0 whatever
the start of the first input frame, and when it is emitted on the look-ahead
path (the input of that call is not the end of stream) its duration is
next.start - pts_skip - 0: measured as if the frame had started at 0. -/
theorem first_frame_starts_at_zero (job : hb_job_t) (m : Int) (subs : List hb_subtitle_t)
    (pre : List VideoFeed) (nx : VideoFeed) (g : hb_buffer_t)
    (hquiet : (runVideo job (initVideoState m subs) pre).out = [])
    (hout : videoFrames
      ((syncVideoWork job (arrive (runVideo job (initVideoState m subs) pre).state nx)
          nx.buf).fifo_sync ++
        (syncVideoWork job (arrive (runVideo job (initVideoState m subs) pre).state nx)
          nx.buf).buf_out.toList) = [g]) :
    g.start = 0 ∧
    (nx.buf.size ≠ 0 →
      g.stop - g.start =
        nx.buf.start - (runVideo job (initVideoState m subs) pre).state.sync.pts_skip - 0) := by
  obtain ⟨_, hbf, hok⟩ := run_quiet_invariant job (fun st => BeforeFirst st ∧ HeldOk st)
    (fun st f hP hs hf hbo => beforeFirst_quiet job st f hP hs hf hbo) pre _
    ⟨beforeFirst_init m subs, heldOk_init m subs⟩ hquiet
  obtain ⟨hns, hfirst⟩ := hbf
  rcases step_cases job (arrive (runVideo job (initVideoState m subs) pre).state nx) nx.buf with
    ⟨hc, hb⟩ | ⟨hc, hb⟩ | ⟨cur, hc, hcap⟩ | ⟨cur, hc, hcap, hb⟩ | ⟨cur, hc, hcap, hb, hd⟩ |
    ⟨cur, hc, hcap, hb, hd⟩
  · rw [syncVideoWork_cold_eof job _ _ hc hb] at hout
    simp at hout
  · rw [syncVideoWork_cold job _ _ hc hb] at hout
    simp at hout
  · rw [syncVideoWork_cap job _ _ _ hc hcap] at hout
    simp at hout
  · rw [syncVideoWork_eof job _ _ _ hc hcap hb] at hout
    have hsz : cur.size ≠ 0 := hok cur hc
    simp [videoFrames, hsz, hb_buffer_init] at hout
    rw [← hout]
    exact ⟨hns, fun h => absurd hb h⟩
  · obtain ⟨hbo, _, hf, _⟩ := syncVideoWork_drop_summary job _ _ _ hc hcap hb hd
    rw [hbo, hf] at hout
    simp at hout
  · obtain ⟨p, hbo, _, hf, _⟩ := syncVideoWork_emit_summary job _ _ _ hc hcap hb hd
    rw [hbo, hf] at hout
    have hsz : cur.size ≠ 0 := hok cur hc
    simp [videoFrames, hsz] at hout
    have hheld : (heldFrame (arrive (runVideo job (initVideoState m subs) pre).state nx) cur).start
        = 0 := by
      rw [heldFrame_eq]
      rcases hfirst with h1 | ⟨c', h1, h2⟩
      · simp [h1]
      · rw [arrive_sync, h1] at hc
        cases hc
        simp only [arrive_sync]
        split_ifs
        · rfl
        · exact h2
    rw [← hout]
    refine ⟨hns, fun _ => ?_⟩
    simp only [arrive_sync, hheld, hns]
    ring

/-- Scenario A: the first input frame starts at 45000 and the next at 48003;
the first emitted frame starts at 0 and lasts 48003 ticks. -/
theorem first_frame_starts_at_zero_witness :
    (runVideo exJob (initVideoState 0 []) [exFeed 0 (exFrame 45000 0 1)]).out = [] ∧
    ({ exFrame 45000 0 1 with start := 0, stop := 48003 } : hb_buffer_t).start = 0 ∧
    ((exFeed 0 (exFrame 48003 0 2)).buf.size ≠ 0 →
      ({ exFrame 45000 0 1 with start := 0, stop := 48003 } : hb_buffer_t).stop -
        ({ exFrame 45000 0 1 with start := 0, stop := 48003 } : hb_buffer_t).start =
      (exFeed 0 (exFrame 48003 0 2)).buf.start -
        (runVideo exJob (initVideoState 0 []) [exFeed 0 (exFrame 45000 0 1)]).state.sync.pts_skip
        - 0) :=
  ⟨by decide,
   first_frame_starts_at_zero exJob 0 [] [exFeed 0 (exFrame 45000 0 1)]
     (exFeed 0 (exFrame 48003 0 2)) { exFrame 45000 0 1 with start := 0, stop := 48003 }
     (by decide) (by decide)⟩

/-- C8: with a held frame cur, a non-EOF input next and the frame cap not
exceeded, syncVideoWork drops next exactly when
next.start - video_pts_slip - cur.start ≤ 0 (cur.start after the first-frame
rewrite).  A drop hands back and pushes nothing, returns HB_WORK_OK, keeps cur
as the held frame, leaves next_start unchanged and adds 1 to drop_count;
otherwise the call hands back a frame and holds next. -/
theorem drop_iff_time_not_advancing (job : hb_job_t) (st : VideoState) (cur next : hb_buffer_t)
    (hc : st.sync.cur = some cur) (hcap : ¬ frameCap job st) (hn : next.size ≠ 0) :
    ((syncVideoWork job st next).buf_out = none ↔
      next.start - st.common.video_pts_slip - (heldFrame st cur).start ≤ 0) ∧
    (next.start - st.common.video_pts_slip - (heldFrame st cur).start ≤ 0 →
      (syncVideoWork job st next).buf_out = none ∧
      (syncVideoWork job st next).fifo_sync = [] ∧
      (syncVideoWork job st next).status = hb_work_status.HB_WORK_OK ∧
      (syncVideoWork job st next).state.sync.cur = some (heldFrame st cur) ∧
      (syncVideoWork job st next).state.sync.next_start = st.sync.next_start ∧
      (syncVideoWork job st next).state.sync.drop_count = st.sync.drop_count + 1) ∧
    (0 < next.start - st.common.video_pts_slip - (heldFrame st cur).start →
      (∃ g, (syncVideoWork job st next).buf_out = some g) ∧
      (syncVideoWork job st next).state.sync.cur = some { next with sub := none }) := by
  have hdropfacts : next.start - st.common.video_pts_slip - (heldFrame st cur).start ≤ 0 →
      (syncVideoWork job st next).buf_out = none ∧
      (syncVideoWork job st next).fifo_sync = [] ∧
      (syncVideoWork job st next).status = hb_work_status.HB_WORK_OK ∧
      (syncVideoWork job st next).state.sync.cur = some (heldFrame st cur) ∧
      (syncVideoWork job st next).state.sync.next_start = st.sync.next_start ∧
      (syncVideoWork job st next).state.sync.drop_count = st.sync.drop_count + 1 := by
    intro hd
    obtain ⟨hbo, hs, hf, hsync, _, _⟩ := syncVideoWork_drop_summary job st cur next hc hcap hn hd
    refine ⟨hbo, hf, hs, ?_, ?_, ?_⟩ <;> rw [hsync]
  have hemitfacts : 0 < next.start - st.common.video_pts_slip - (heldFrame st cur).start →
      (∃ g, (syncVideoWork job st next).buf_out = some g) ∧
      (syncVideoWork job st next).state.sync.cur = some { next with sub := none } := by
    intro hd
    obtain ⟨p, hbo, _, _, hsync, _, _⟩ := syncVideoWork_emit_summary job st cur next hc hcap hn hd
    exact ⟨⟨_, hbo⟩, by rw [hsync]⟩
  refine ⟨⟨?_, fun hd => (hdropfacts hd).1⟩, hdropfacts, hemitfacts⟩
  intro hbo
  by_contra hd
  obtain ⟨⟨g, hg⟩, _⟩ := hemitfacts (not_le.mp hd)
  rw [hbo] at hg
  cases hg

/-- Scenario B: after the frames at 0 and 90000, the frame at 60000 is dropped
and drop_count is 1. -/
theorem drop_iff_time_not_advancing_witness :
    c8State.sync.cur = some (exFrame 90000 0 2) ∧ ¬ frameCap exJob c8State ∧
    (exFrame 60000 0 3).size ≠ 0 ∧
    (exFrame 60000 0 3).start - c8State.common.video_pts_slip -
      (heldFrame c8State (exFrame 90000 0 2)).start ≤ 0 ∧
    (syncVideoWork exJob c8State (exFrame 60000 0 3)).buf_out = none ∧
    (syncVideoWork exJob c8State (exFrame 60000 0 3)).state.sync.drop_count = 0 + 1 ∧
    (runVideo exJob (initVideoState 0 []) c8Feeds).state.sync.drop_count = 1 :=
  have hcap : ¬ frameCap exJob c8State := by unfold frameCap; decide
  have h := drop_iff_time_not_advancing exJob c8State (exFrame 90000 0 2) (exFrame 60000 0 3)
    (by decide) hcap (by decide)
  ⟨by decide, hcap, by decide, by decide, (h.2.1 (by decide)).1,
    (h.2.1 (by decide)).2.2.2.2.2, by decide⟩

/-- C10: in a call of syncVideoWork with a held frame cur and a non-EOF input,
for a VOBSUB track t: every subtitle (buffer of nonzero size) the call
forwards to the sync FIFO of t has sequence ≤ cur.sequence; the subtitle
attached to the frame handed back, if the call attached one, is the copy of a
VOBSUB raw entry with sequence ≤ cur.sequence; and a non-EOF head of the raw
queue of t with sequence > cur.sequence is still the head after the call (at
most its stop is clipped to the start of the entry behind it) while nothing is
forwarded from t. -/
theorem vobsub_waits_for_sequence (job : hb_job_t) (st : VideoState) (cur next : hb_buffer_t)
    (i : Nat) (t t' : hb_subtitle_t)
    (hc : st.sync.cur = some cur) (hn : next.size ≠ 0)
    (ht : st.list_subtitle[i]? = some t) (hsrc : t.source = hb_subtitle_source.VOBSUB)
    (ht' : (syncVideoWork job st next).state.list_subtitle[i]? = some t') :
    (∃ fwd, t'.fifo_sync = t.fifo_sync ++ fwd ∧
      ∀ b ∈ fwd, b.size ≠ 0 → b.sequence ≤ cur.sequence) ∧
    (∀ g, (syncVideoWork job st next).buf_out = some g →
      (syncVideoWork job st next).status = hb_work_status.HB_WORK_OK →
      g.sub = cur.sub ∨
      ∃ u ∈ st.list_subtitle, u.source = hb_subtitle_source.VOBSUB ∧
        ∃ h ∈ u.fifo_raw, 0 < h.size ∧ h.sequence ≤ cur.sequence ∧
          g.sub = some (renderCopy h)) ∧
    (∀ h rest, t.fifo_raw = h :: rest → h.size ≠ 0 → cur.sequence < h.sequence →
      t'.fifo_sync = t.fifo_sync ∧ ∃ e, t'.fifo_raw = { h with stop := e } :: rest) := by
  have hsame : t' = t →
      (∃ fwd, t'.fifo_sync = t.fifo_sync ++ fwd ∧
        ∀ b ∈ fwd, b.size ≠ 0 → b.sequence ≤ cur.sequence) ∧
      (∀ h rest, t.fifo_raw = h :: rest → h.size ≠ 0 → cur.sequence < h.sequence →
        t'.fifo_sync = t.fifo_sync ∧ ∃ e, t'.fifo_raw = { h with stop := e } :: rest) := by
    intro he
    subst he
    exact ⟨⟨[], by simp, by simp⟩, fun h rest hr _ _ => ⟨rfl, h.stop, by rw [hr]⟩⟩
  rcases step_cases job st next with
    ⟨hc0, _⟩ | ⟨hc0, _⟩ | ⟨c, hcc, hcap⟩ | ⟨c, hcc, hcap, hb⟩ | ⟨c, hcc, hcap, hb, hd⟩ |
    ⟨c, hcc, hcap, hb, hd⟩
  · rw [hc] at hc0; cases hc0
  · rw [hc] at hc0; cases hc0
  · rw [syncVideoWork_cap job _ _ _ hcc hcap] at ht' ⊢
    have he : t' = t := by
      simp only [ht] at ht'
      exact (Option.some.inj ht').symm
    refine ⟨(hsame he).1, ?_, (hsame he).2⟩
    intro g _ hs
    cases hs
  · exact absurd hb hn
  · obtain ⟨hbo, _, _, _, _, hsub⟩ := syncVideoWork_drop_summary job _ _ _ hcc hcap hb hd
    have he : t' = t := by
      rw [hsub, ht] at ht'
      exact (Option.some.inj ht').symm
    refine ⟨(hsame he).1, ?_, (hsame he).2⟩
    intro g hg _
    rw [hbo] at hg
    cases hg
  · have hcur : c = cur := by
      rw [hc] at hcc; exact (Option.some.inj hcc).symm
    subst hcur
    have hseq : (heldFrame st c).sequence = c.sequence := by rw [heldFrame_eq]
    have hsubf : (heldFrame st c).sub = c.sub := by rw [heldFrame_eq]
    obtain ⟨_, _, _, _, _, _, hsub⟩ := syncVideoWork_emit_summary job _ _ _ hcc hcap hb hd
    obtain ⟨a, ha1, _, ha3⟩ := syncSubtitles_get st.list_subtitle (heldFrame st c) i t ht
    have he : t' = (syncSubtitle a t).2 := by
      rw [hsub, ha3] at ht'
      exact (Option.some.inj ht').symm
    have haseq : a.sequence = c.sequence := ha1.trans hseq
    refine ⟨?_, ?_, ?_⟩
    · obtain ⟨fwd, hf1, hf2⟩ := syncSubtitle_vobsub_sync a t hsrc
      exact ⟨fwd, by rw [he]; exact hf1, fun b hb1 hb2 => by rw [← haseq]; exact hf2 b hb1 hb2⟩
    · intro g hg _
      rw [syncVideoWork_emit job _ _ _ hcc hcap hb hd, emitVideo_buf_out] at hg
      have hgs : g.sub = (syncSubtitles (heldFrame st c) st.list_subtitle).1.sub := by
        rw [← Option.some.inj hg]
      rcases syncSubtitles_sub st.list_subtitle (heldFrame st c) with h1 | ⟨u, hu, hv, h, hh, p1, p2, p3⟩
      · exact Or.inl (by rw [hgs, h1, hsubf])
      · exact Or.inr ⟨u, hu, hv, h, hh, p1, by rw [← hseq]; exact p2, by rw [hgs, p3]⟩
    · intro h rest hraw h0 hlt
      rw [he, syncSubtitle_wait a h t rest hsrc hraw h0 (by rw [haseq]; exact hlt)]
      refine ⟨rfl, (clipToNext h rest).stop, ?_⟩
      simp only
      rw [← sameButStop_clip h rest]

/-- The video is at sequence number 3 and inside the display time of a
subtitle with sequence number 5: the subtitle stays at the head of the raw
queue and the emitted frame carries no subtitle. -/
theorem vobsub_waits_for_sequence_witness :
    c10State.sync.cur = some (exFrame 150 0 3) ∧ (exFrame 3153 0 4).size ≠ 0 ∧
    c10State.list_subtitle[0]? = some c10Track ∧
    (syncVideoWork exJob c10State (exFrame 3153 0 4)).state.list_subtitle[0]? = some c10Track ∧
    (3 : Int) < (exSub 100 200 5).sequence ∧
    (c10Track.fifo_sync = c10Track.fifo_sync ∧
      ∃ e, c10Track.fifo_raw = [{ exSub 100 200 5 with stop := e }]) ∧
    (syncVideoWork exJob c10State (exFrame 3153 0 4)).buf_out.map (fun g => g.sub) = some none :=
  ⟨by decide, by decide, by decide, by decide, by decide,
   (vobsub_waits_for_sequence exJob c10State (exFrame 150 0 3) (exFrame 3153 0 4) 0 c10Track
      c10Track (by decide) (by decide) (by decide) (by decide) (by decide)).2.2
      (exSub 100 200 5) [] (by decide) (by decide) (by decide),
   by decide⟩

/-- A track never replaces a subtitle that is already attached to the frame. -/
theorem syncSubtitle_sticky (cur : hb_buffer_t) (t : hb_subtitle_t) (h : cur.sub ≠ none) :
    (syncSubtitle cur t).1 = cur := by
  by_cases hsrc : t.source = hb_subtitle_source.VOBSUB
  · rw [syncSubtitle_vobsub cur t hsrc]
    unfold vobsubDeliver
    cases (vobsubScan cur t.fifo_raw).2 with
    | none => rfl
    | some s =>
      simp only [h, if_false]
      split_ifs <;> rfl
  · exact syncSubtitle_other cur t hsrc

theorem syncSubtitles_sticky (l : List hb_subtitle_t) (cur : hb_buffer_t) (h : cur.sub ≠ none) :
    (syncSubtitles cur l).1 = cur := by
  induction l with
  | nil => rfl
  | cons s ss ih =>
    simp only [syncSubtitles]
    rw [syncSubtitle_sticky cur s h]
    exact ih

/-- The loop over the tracks, split at any point of the list. -/
theorem syncSubtitles_append (l1 l2 : List hb_subtitle_t) :
    ∀ cur : hb_buffer_t,
      syncSubtitles cur (l1 ++ l2) =
        ((syncSubtitles (syncSubtitles cur l1).1 l2).1,
         (syncSubtitles cur l1).2 ++ (syncSubtitles (syncSubtitles cur l1).1 l2).2) := by
  induction l1 with
  | nil => intro cur; simp [syncSubtitles]
  | cons s ss ih =>
    intro cur
    have h := ih (syncSubtitle cur s).1
    show syncSubtitles cur (s :: (ss ++ l2)) = _
    simp only [syncSubtitles]
    rw [h]
    simp

theorem syncSubtitles_length (l : List hb_subtitle_t) :
    ∀ cur : hb_buffer_t, (syncSubtitles cur l).2.length = l.length := by
  induction l with
  | nil => intro cur; rfl
  | cons s ss ih =>
    intro cur
    simp only [syncSubtitles, List.length_cons]
    rw [ih]

/-- C11: cur.sub is assigned at most once per video frame.  In a call of
syncVideoWork with held frame cur: (1) once the tracks up to some point of the
subtitle list have attached a subtitle p to the frame, the frame handed back
still carries p, whatever the later tracks hold; (2) a call that hands back
nothing (a drop) runs no alignment: the held frame keeps its sub and the
subtitle queues are untouched; (3) the frame that becomes the held frame in an
emit starts with sub = NULL, so it meets the alignment only in the call that
emits it. -/
theorem sub_assigned_once (job : hb_job_t) (st : VideoState) (cur next : hb_buffer_t)
    (hc : st.sync.cur = some cur) :
    (∀ g l1 l2 p,
      (syncVideoWork job st next).status = hb_work_status.HB_WORK_OK →
      (syncVideoWork job st next).buf_out = some g →
      st.list_subtitle = l1 ++ l2 →
      (syncSubtitles (heldFrame st cur) l1).1.sub = some p →
      g.sub = some p) ∧
    ((syncVideoWork job st next).buf_out = none →
      (syncVideoWork job st next).state.list_subtitle = st.list_subtitle ∧
      ∃ c, (syncVideoWork job st next).state.sync.cur = some c ∧ c.sub = cur.sub) ∧
    (∀ g,
      (syncVideoWork job st next).status = hb_work_status.HB_WORK_OK →
      (syncVideoWork job st next).buf_out = some g →
      ∃ c, (syncVideoWork job st next).state.sync.cur = some c ∧ c.sub = none) := by
  refine ⟨?_, ?_, ?_⟩
  · intro g l1 l2 p hs hbo hl hp
    obtain ⟨c, hcc, hcap, hb, hd⟩ := emit_of_ok_out job st next g hs hbo
    have hcur : c = cur := by
      rw [hc] at hcc; exact (Option.some.inj hcc).symm
    subst hcur
    rw [syncVideoWork_emit job _ _ _ hcc hcap hb hd, emitVideo_buf_out] at hbo
    have hgs : g.sub = (syncSubtitles (heldFrame st c) st.list_subtitle).1.sub := by
      rw [← Option.some.inj hbo]
    rw [hgs, hl, syncSubtitles_append]
    simp only
    rw [syncSubtitles_sticky l2 _ (by rw [hp]; simp), hp]
  · intro hbo
    rcases step_cases job st next with
      ⟨hc0, _⟩ | ⟨hc0, _⟩ | ⟨c, hcc, hcap⟩ | ⟨c, hcc, hcap, hb⟩ | ⟨c, hcc, hcap, hb, hd⟩ |
      ⟨c, hcc, hcap, hb, hd⟩
    · rw [hc] at hc0; cases hc0
    · rw [hc] at hc0; cases hc0
    · rw [syncVideoWork_cap job _ _ _ hcc hcap] at hbo; cases hbo
    · rw [syncVideoWork_eof job _ _ _ hcc hcap hb] at hbo; cases hbo
    · obtain ⟨_, _, _, hsync, _, hsub⟩ := syncVideoWork_drop_summary job _ _ _ hcc hcap hb hd
      have hcur : c = cur := by
        rw [hc] at hcc; exact (Option.some.inj hcc).symm
      subst hcur
      refine ⟨hsub, heldFrame st c, by rw [hsync], by rw [heldFrame_eq]⟩
    · obtain ⟨p, h1, _⟩ := syncVideoWork_emit_summary job _ _ _ hcc hcap hb hd
      rw [h1] at hbo; cases hbo
  · intro g hs hbo
    obtain ⟨c, hcc, hcap, hb, hd⟩ := emit_of_ok_out job st next g hs hbo
    obtain ⟨p, _, _, _, hsync, _, _⟩ := syncVideoWork_emit_summary job _ _ _ hcc hcap hb hd
    exact ⟨{ next with sub := none }, by rw [hsync], rfl⟩

/-- Two rendered tracks both have a subtitle due on the held frame: the frame
handed back carries the subtitle of the first track (column 10), the second
track does not replace it. -/
theorem sub_assigned_once_witness :
    c11State.sync.cur = some (exFrame 150 0 3) ∧
    (syncVideoWork exJob c11State (exFrame 3153 0 4)).buf_out = some c11Frame ∧
    c11Frame.sub = some (renderCopy (exSubAt 100 200 1 10)) :=
  ⟨by decide, by decide,
   (sub_assigned_once exJob c11State (exFrame 150 0 3) (exFrame 3153 0 4) (by decide)).1
     c11Frame (c11Tracks.take 1) (c11Tracks.drop 1) (renderCopy (exSubAt 100 200 1 10))
     (by decide) (by decide) (by decide) (by decide)⟩

theorem syncAudioWork_terminal (job : hb_job_t) (audio : hb_audio_t) (common : hb_sync_common_t)
    (sync : hb_sync_audio_t) (buf : hb_buffer_t) (h : audioTerminal job common buf) :
    syncAudioWork job audio common sync buf =
      { common := common, sync := sync, status := hb_work_status.HB_WORK_DONE,
        pushed := [], buf_out := some (hb_buffer_init 0) } := by
  unfold syncAudioWork
  by_cases h1 : buf.size ≤ 0
  · rw [if_pos h1]
  · rw [if_neg h1]
    rcases h with h | h
    · exact absurd h h1
    · rw [if_pos h]

theorem endAudioDropRun_idle (sync : hb_sync_audio_t) (start : Int) (h : sync.first_drop = 0) :
    endAudioDropRun sync start = sync := by
  simp [endAudioDropRun, h]

/-- A non-terminal buffer that does not go backwards, with no drop run in
progress, goes to the gap test with the state as it is. -/
theorem syncAudioWork_forward (job : hb_job_t) (audio : hb_audio_t) (common : hb_sync_common_t)
    (sync : hb_sync_audio_t) (buf : hb_buffer_t) (ht : ¬ audioTerminal job common buf)
    (hfd : sync.first_drop = 0)
    (hge : 0 ≤ buf.start - common.audio_passthru_slip - sync.next_pts) :
    syncAudioWork job audio common sync buf =
      audioForward audio common sync buf (buf.start - common.audio_passthru_slip) := by
  unfold audioTerminal at ht
  unfold syncAudioWork
  simp only
  rw [if_neg (fun h => ht (Or.inl h)), if_neg (fun h => ht (Or.inr h)),
    if_neg (not_lt.mpr hge), endAudioDropRun_idle sync _ hfd]

theorem syncAudioWork_status_ok (job : hb_job_t) (audio : hb_audio_t)
    (common : hb_sync_common_t) (sync : hb_sync_audio_t) (buf : hb_buffer_t)
    (ht : ¬ audioTerminal job common buf) :
    (syncAudioWork job audio common sync buf).status = hb_work_status.HB_WORK_OK := by
  unfold audioTerminal at ht
  unfold syncAudioWork
  simp only
  rw [if_neg (fun h => ht (Or.inl h)), if_neg (fun h => ht (Or.inr h))]
  unfold audioForward
  split_ifs <;> rfl

/-- C12: DCA output, no drop run in progress, a non-terminal input and
6300 ≤ start - next_pts ≤ 5400000 (start = buf.start - audio_passthru_slip):
syncAudioWork adds start - next_pts to both slip counters, pushes no silence,
hands back the input buffer as it is and leaves the audio state (next_start,
next_pts, drop bookkeeping) unchanged. -/
theorem dca_gap_slips (job : hb_job_t) (audio : hb_audio_t) (common : hb_sync_common_t)
    (sync : hb_sync_audio_t) (buf : hb_buffer_t) (h : dcaGap job audio common sync buf) :
    syncAudioWork job audio common sync buf =
      { common := { common with
          audio_passthru_slip := common.audio_passthru_slip +
            (buf.start - common.audio_passthru_slip - sync.next_pts),
          video_pts_slip := common.video_pts_slip +
            (buf.start - common.audio_passthru_slip - sync.next_pts) },
        sync := sync, status := hb_work_status.HB_WORK_OK, pushed := [],
        buf_out := some buf } := by
  obtain ⟨h1, h2, h3, h4, h5, h6⟩ := h
  have ht : ¬ audioTerminal job common buf := by
    unfold audioTerminal
    rintro (h | h)
    · omega
    · exact h2 h
  rw [syncAudioWork_forward job audio common sync buf ht h4 (by omega)]
  unfold audioForward
  rw [if_pos (show buf.start - common.audio_passthru_slip - sync.next_pts ≥ 90 * 70 from h5),
    if_neg (not_lt.mpr h6), if_pos h3]

/-- Scenario D: audio stopped at 90000 and resumes at 96400 on a DCA track;
both slip counters go from 0 to 6400 and the buffer comes back with the stamps
it had. -/
theorem dca_gap_slips_witness :
    dcaGap exJob (exAudio hb_acodec.HB_ACODEC_DCA) initCommon exAudioSync
      (exAudioBuf 96400 99280) ∧
    syncAudioWork exJob (exAudio hb_acodec.HB_ACODEC_DCA) initCommon exAudioSync
        (exAudioBuf 96400 99280) =
      { common := { count_frames := 0, audio_passthru_slip := 6400, video_pts_slip := 6400 },
        sync := exAudioSync, status := hb_work_status.HB_WORK_OK, pushed := [],
        buf_out := some (exAudioBuf 96400 99280) } :=
  ⟨by decide,
   dca_gap_slips exJob (exAudio hb_acodec.HB_ACODEC_DCA) initCommon exAudioSync
     (exAudioBuf 96400 99280) (by decide)⟩

/-- C16: when the sample rates are equal or the output codec is AC-3 or DCA,
OutputAudioFrame hands back the same buffer (payload, size and every other
field unchanged) with start = old next_start, stop = start + (buf.stop -
buf.start) and frametype AUDIO, and advances next_start and next_pts by
buf.stop - buf.start; nothing else of the audio state changes. -/
theorem output_passthru (audio : hb_audio_t) (buf : hb_buffer_t) (sync : hb_sync_audio_t)
    (h : audio.in_samplerate = audio.out_samplerate ∨
      audio.out_codec = hb_acodec.HB_ACODEC_AC3 ∨
      audio.out_codec = hb_acodec.HB_ACODEC_DCA) :
    (OutputAudioFrame audio buf sync).1 =
      { buf with frametype := HB_FRAME_AUDIO, start := sync.next_start,
                 stop := sync.next_start + (buf.stop - buf.start) } ∧
    (OutputAudioFrame audio buf sync).2 =
      { sync with next_start := sync.next_start + (buf.stop - buf.start),
                  next_pts := sync.next_pts + (buf.stop - buf.start) } := by
  unfold OutputAudioFrame
  simp only
  rw [if_pos h]
  exact ⟨rfl, rfl⟩

/-- An AC-3 frame of 2880 ticks that arrives stamped 90010..92890 leaves
stamped 90000..92880, and both clocks advance by 2880. -/
theorem output_passthru_witness :
    ((exAudio hb_acodec.HB_ACODEC_AC3).in_samplerate =
        (exAudio hb_acodec.HB_ACODEC_AC3).out_samplerate ∨
      (exAudio hb_acodec.HB_ACODEC_AC3).out_codec = hb_acodec.HB_ACODEC_AC3 ∨
      (exAudio hb_acodec.HB_ACODEC_AC3).out_codec = hb_acodec.HB_ACODEC_DCA) ∧
    (OutputAudioFrame (exAudio hb_acodec.HB_ACODEC_AC3) (exAudioBuf 90010 92890) exAudioSync).1 =
      { exAudioBuf 90010 92890 with frametype := HB_FRAME_AUDIO, start := 90000, stop := 92880 } ∧
    (OutputAudioFrame (exAudio hb_acodec.HB_ACODEC_AC3) (exAudioBuf 90010 92890) exAudioSync).2 =
      { exAudioSync with next_start := 92880, next_pts := 92880 } :=
  ⟨by decide,
   output_passthru (exAudio hb_acodec.HB_ACODEC_AC3) (exAudioBuf 90010 92890) exAudioSync
     (by decide)⟩

/-- C17: syncAudioWork returns HB_WORK_DONE exactly when the input buffer has
size ≤ 0 or frame_to_stop ≠ 0 and count_frames ≥ frame_to_stop.  Then it hands
back a fresh buffer of size 0, pushes nothing, and leaves the audio state
(next_start, next_pts, first_drop, drop_count) and the shared state (both slip
counters) as they were.  For every other input it returns HB_WORK_OK. -/
theorem audio_done_iff_terminal (job : hb_job_t) (audio : hb_audio_t)
    (common : hb_sync_common_t) (sync : hb_sync_audio_t) (buf : hb_buffer_t) :
    ((syncAudioWork job audio common sync buf).status = hb_work_status.HB_WORK_DONE ↔
      (buf.size ≤ 0 ∨ (job.frame_to_stop ≠ 0 ∧ common.count_frames ≥ job.frame_to_stop))) ∧
    (((buf.size ≤ 0 ∨ (job.frame_to_stop ≠ 0 ∧ common.count_frames ≥ job.frame_to_stop)) ∧
        (syncAudioWork job audio common sync buf).buf_out = some (hb_buffer_init 0) ∧
        (hb_buffer_init 0).size = 0 ∧
        (syncAudioWork job audio common sync buf).pushed = [] ∧
        (syncAudioWork job audio common sync buf).sync = sync ∧
        (syncAudioWork job audio common sync buf).common = common) ∨
      (¬ (buf.size ≤ 0 ∨ (job.frame_to_stop ≠ 0 ∧ common.count_frames ≥ job.frame_to_stop)) ∧
        (syncAudioWork job audio common sync buf).status = hb_work_status.HB_WORK_OK)) := by
  by_cases ht : audioTerminal job common buf
  · have h := syncAudioWork_terminal job audio common sync buf ht
    unfold audioTerminal at ht
    rw [h]
    exact ⟨⟨fun _ => ht, fun _ => rfl⟩, Or.inl ⟨ht, rfl, rfl, rfl, rfl, rfl⟩⟩
  · have h := syncAudioWork_status_ok job audio common sync buf ht
    unfold audioTerminal at ht
    refine ⟨⟨fun hd => ?_, fun hc => absurd hc ht⟩, Or.inr ⟨ht, h⟩⟩
    rw [h] at hd
    cases hd

/-- On a non-negative int, >> 1 halves (rounding down). -/
theorem shiftRight_one_eq (F : Int) (h : 0 ≤ F) : F >>> (1 : Int) = F / 2 := by
  obtain ⟨m, rfl⟩ := Int.eq_ofNat_of_zero_le h
  rw [show (1 : ℤ) = ((1 : ℕ) : ℤ) from rfl, Int.shiftRight_coe_nat, Nat.shiftRight_eq_div_pow]
  norm_num

theorem int32_of_small (v : Int) (h1 : -2147483648 ≤ v) (h2 : v < 2147483648) :
    int32_of v = v := by
  unfold int32_of
  omega

theorem silenceLoop_length (audio : hb_audio_t) (F : Int) (n : Nat) :
    ∀ sync : hb_sync_audio_t, (silenceLoop audio F n sync).2.length = n := by
  induction n with
  | zero => intro sync; rfl
  | succ k ih =>
    intro sync
    simp only [silenceLoop, List.length_cons]
    rw [ih]

theorem insertSilence_length (audio : hb_audio_t) (sync : hb_sync_audio_t) (d : Int) :
    (InsertSilence audio sync d).2.length = (silenceFrameCount audio d).toNat := by
  unfold InsertSilence
  exact silenceLoop_length _ _ _ _

/-- The frame count of InsertSilence when nothing is out of range. -/
theorem silenceFrameCount_eq (audio : hb_audio_t) (d : Int)
    (hr : 0 < audio.in_samplerate) (hd : 0 ≤ d)
    (hfit : (d + 90000 * 1536 / audio.in_samplerate / 2) / (90000 * 1536 / audio.in_samplerate)
      < 2147483648) :
    silenceFrameCount audio d =
      (d + 90000 * 1536 / audio.in_samplerate / 2) / (90000 * 1536 / audio.in_samplerate) := by
  have hF : Int.tdiv (90000 * AC3_SAMPLES_PER_FRAME) audio.in_samplerate
      = 90000 * 1536 / audio.in_samplerate := by
    rw [Int.tdiv_eq_ediv (by unfold AC3_SAMPLES_PER_FRAME; norm_num) (le_of_lt hr)]
    rfl
  have hF0 : 0 ≤ 90000 * 1536 / audio.in_samplerate :=
    Int.ediv_nonneg (by norm_num) (le_of_lt hr)
  have hh : (90000 * 1536 / audio.in_samplerate) >>> 1 = 90000 * 1536 / audio.in_samplerate / 2 :=
    shiftRight_one_eq _ hF0
  have hh0 : 0 ≤ 90000 * 1536 / audio.in_samplerate / 2 := Int.ediv_nonneg hF0 (by norm_num)
  unfold silenceFrameCount
  simp only
  rw [hF, hh, Int.tdiv_eq_ediv (by omega) hF0]
  apply int32_of_small
  · have : 0 ≤ (d + 90000 * 1536 / audio.in_samplerate / 2) /
        (90000 * 1536 / audio.in_samplerate) := Int.ediv_nonneg (by omega) hF0
    omega
  · exact hfit

/-- OutputAudioFrame when no sample-rate conversion takes place. -/
theorem OutputAudioFrame_same_rate (audio : hb_audio_t) (buf : hb_buffer_t)
    (sync : hb_sync_audio_t)
    (h : audio.in_samplerate = audio.out_samplerate ∨
      audio.out_codec = hb_acodec.HB_ACODEC_AC3 ∨
      audio.out_codec = hb_acodec.HB_ACODEC_DCA) :
    (OutputAudioFrame audio buf sync).1 =
      { buf with frametype := HB_FRAME_AUDIO, start := sync.next_start,
                 stop := sync.next_start + (buf.stop - buf.start) } ∧
    (OutputAudioFrame audio buf sync).2 =
      { sync with next_start := sync.next_start + (buf.stop - buf.start),
                  next_pts := sync.next_pts + (buf.stop - buf.start) } := by
  unfold OutputAudioFrame
  simp only
  rw [if_pos h]
  exact ⟨rfl, rfl⟩

/-- The silence loop on an AC-3 track whose silent frame is missing
(ac3_size = 0, ac3_buf = NULL): every round pushes a buffer of size 0 and
moves both clocks by frame_dur. -/
theorem silenceLoop_unset (audio : hb_audio_t) (F : Int)
    (hcodec : audio.out_codec = hb_acodec.HB_ACODEC_AC3) (n : Nat) :
    ∀ sync : hb_sync_audio_t, sync.ac3_size = 0 → sync.ac3_buf = none →
      (∀ b ∈ (silenceLoop audio F n sync).2, b.size = 0) ∧
      (silenceLoop audio F n sync).1.next_start = sync.next_start + n * F ∧
      (silenceLoop audio F n sync).1.next_pts = sync.next_pts + n * F := by
  induction n with
  | zero => intro sync _ _; simp [silenceLoop]
  | succ k ih =>
    intro sync h1 h2
    have hp := OutputAudioFrame_same_rate audio (silenceFrame audio sync F) sync
      (Or.inr (Or.inl hcodec))
    have hstamps : (silenceFrame audio sync F).stop - (silenceFrame audio sync F).start = F := by
      simp [silenceFrame, hcodec]
    have hsize : (silenceFrame audio sync F).size = 0 := by
      simp [silenceFrame, hcodec, h1, hb_buffer_init]
    obtain ⟨i1, i2, i3⟩ := ih (OutputAudioFrame audio (silenceFrame audio sync F) sync).2
      (by rw [hp.2]; exact h1) (by rw [hp.2]; exact h2)
    simp only [silenceLoop]
    refine ⟨?_, ?_, ?_⟩
    · intro b hb
      rcases List.mem_cons.mp hb with rfl | hb
      · rw [hp.1]; exact hsize
      · exact i1 b hb
    · rw [i2, hp.2, hstamps]
      push_cast
      ring
    · rw [i3, hp.2, hstamps]
      push_cast
      ring

/-- C18: for a non-terminal input with no drop run in progress, a gap
start - next_pts of more than 5400000 ticks makes syncAudioWork discard the
buffer whatever the codec: no output, no silence, HB_WORK_OK, audio state and
both slip counters unchanged.  A gap of exactly 5400000 is not discarded: the
input buffer is handed back, after a slip of 5400000 on both counters for DCA
and after InsertSilence(5400000) otherwise. -/
theorem audio_minute_gap_discarded (job : hb_job_t) (audio : hb_audio_t)
    (common : hb_sync_common_t) (sync : hb_sync_audio_t) (buf : hb_buffer_t)
    (ht : ¬ audioTerminal job common buf) (hfd : sync.first_drop = 0) :
    (90000 * 60 < buf.start - common.audio_passthru_slip - sync.next_pts →
      syncAudioWork job audio common sync buf =
        { common := common, sync := sync, status := hb_work_status.HB_WORK_OK,
          pushed := [], buf_out := none }) ∧
    (buf.start - common.audio_passthru_slip - sync.next_pts = 90000 * 60 →
      (syncAudioWork job audio common sync buf).buf_out = some buf ∧
      (syncAudioWork job audio common sync buf).status = hb_work_status.HB_WORK_OK ∧
      (audio.out_codec = hb_acodec.HB_ACODEC_DCA →
        (syncAudioWork job audio common sync buf).pushed = [] ∧
        (syncAudioWork job audio common sync buf).common =
          { common with
            audio_passthru_slip := common.audio_passthru_slip + 90000 * 60,
            video_pts_slip := common.video_pts_slip + 90000 * 60 }) ∧
      (audio.out_codec ≠ hb_acodec.HB_ACODEC_DCA →
        (syncAudioWork job audio common sync buf).pushed =
          (InsertSilence audio sync (90000 * 60)).2 ∧
        (syncAudioWork job audio common sync buf).sync =
          (InsertSilence audio sync (90000 * 60)).1 ∧
        (syncAudioWork job audio common sync buf).common = common)) := by
  constructor
  · intro hgap
    rw [syncAudioWork_forward job audio common sync buf ht hfd (by omega)]
    unfold audioForward
    rw [if_pos (show buf.start - common.audio_passthru_slip - sync.next_pts ≥ 90 * 70 by omega),
      if_pos (show buf.start - common.audio_passthru_slip - sync.next_pts > 90000 * 60 from hgap)]
  · intro hgap
    rw [syncAudioWork_forward job audio common sync buf ht hfd (by omega)]
    unfold audioForward
    rw [if_pos (show buf.start - common.audio_passthru_slip - sync.next_pts ≥ 90 * 70 by omega),
      if_neg (show ¬ buf.start - common.audio_passthru_slip - sync.next_pts > 90000 * 60 by omega)]
    by_cases hc : audio.out_codec = hb_acodec.HB_ACODEC_DCA
    · rw [if_pos hc, hgap]
      exact ⟨rfl, rfl, fun _ => ⟨rfl, rfl⟩, fun h => absurd hc h⟩
    · rw [if_neg hc, hgap]
      exact ⟨rfl, rfl, fun h => absurd h hc, fun _ => ⟨rfl, rfl, rfl⟩⟩

/-- A buffer that arrives one tick more than a minute late is discarded, on a
DCA track as well. -/
theorem audio_minute_gap_discarded_witness :
    ¬ audioTerminal exJob initCommon (exAudioBuf 5490001 5492881) ∧
    exAudioSync.first_drop = 0 ∧
    syncAudioWork exJob (exAudio hb_acodec.HB_ACODEC_DCA) initCommon exAudioSync
        (exAudioBuf 5490001 5492881) =
      { common := initCommon, sync := exAudioSync, status := hb_work_status.HB_WORK_OK,
        pushed := [], buf_out := none } :=
  have ht : ¬ audioTerminal exJob initCommon (exAudioBuf 5490001 5492881) := by
    unfold audioTerminal; decide
  ⟨ht, by decide,
   (audio_minute_gap_discarded exJob (exAudio hb_acodec.HB_ACODEC_DCA) initCommon exAudioSync
      (exAudioBuf 5490001 5492881) ht (by decide)).1 (by decide)⟩

/-- C19, as stated, fails: the frame at 3000 is held when the slip counters are
advanced by 9000; the frame at 8000 lies in the window (3000, 12000] and is
dropped, which takes 5000 off video_pts_slip; the frame at 9000 lies in the
window too and is accepted (9000 - 4000 - 3000 > 0). -/
theorem slip_window_not_all_dropped :
    c19State.sync.cur = some (exFrame 3000 0 2) ∧
    (runVideo exJob c19State [exFeed 9000 (exFrame 8000 0 3)]).out = [] ∧
    (runVideo exJob c19State [exFeed 9000 (exFrame 8000 0 3)]).state.sync.cur
      = some (exFrame 3000 0 2) ∧
    (runVideo exJob c19State [exFeed 9000 (exFrame 8000 0 3)]).state.common.video_pts_slip
      = 4000 ∧
    ((3000 : Int) < (exFrame 9000 0 4).start ∧ (exFrame 9000 0 4).start ≤ 3000 + 9000) ∧
    (syncVideoWork exJob (runVideo exJob c19State [exFeed 9000 (exFrame 8000 0 3)]).state
      (exFrame 9000 0 4)).buf_out
      = some { exFrame 3000 0 2 with start := 3000, stop := 4000 } := by
  decide

/-- C19, amended: if the slip counters are advanced by delta (f.slip) while
frame cur is held (video_pts_slip was not negative before), the next input
frame whose start lies in (cur.start, cur.start + delta] is dropped by the
backwards-time rule, and the drop moves next.start - cur.start from
video_pts_slip to pts_skip: the frames after it are measured against the slip
that is left. -/
theorem slip_window_first_dropped (job : hb_job_t) (st : VideoState) (cur : hb_buffer_t)
    (f : VideoFeed)
    (hc : st.sync.cur = some cur) (hcap : ¬ frameCap job (arrive st f))
    (hn : f.buf.size ≠ 0) (h0 : 0 ≤ st.common.video_pts_slip)
    (hlo : (heldFrame st cur).start < f.buf.start)
    (hhi : f.buf.start ≤ (heldFrame st cur).start + f.slip) :
    (syncVideoWork job (arrive st f) f.buf).buf_out = none ∧
    (syncVideoWork job (arrive st f) f.buf).fifo_sync = [] ∧
    (syncVideoWork job (arrive st f) f.buf).state.sync.cur = some (heldFrame st cur) ∧
    (syncVideoWork job (arrive st f) f.buf).state.common.video_pts_slip =
      st.common.video_pts_slip + f.slip - (f.buf.start - (heldFrame st cur).start) ∧
    (syncVideoWork job (arrive st f) f.buf).state.sync.pts_skip =
      st.sync.pts_skip + (f.buf.start - (heldFrame st cur).start) := by
  have hheld : heldFrame (arrive st f) cur = heldFrame st cur := rfl
  have hslip : (arrive st f).common.video_pts_slip = st.common.video_pts_slip + f.slip := rfl
  have hd : videoDelta (arrive st f) cur f.buf ≤ 0 := by
    rw [videoDelta_eq, hheld, hslip]
    omega
  obtain ⟨hbo, _, hf, hsync, hcom, _⟩ :=
    syncVideoWork_drop_summary job (arrive st f) cur f.buf hc hcap hn hd
  have hgt : f.buf.start - (heldFrame st cur).start > 0 := by omega
  rw [hheld] at hsync hcom
  refine ⟨hbo, hf, ?_, ?_, ?_⟩
  · rw [hsync]
  · rw [hcom]
    simp only [if_pos hgt, hslip]
  · rw [hsync]
    simp only [if_pos hgt, arrive_sync]

/-- The amended C19 at the counterexample: after the slip of 9000 the frame at
8000 is dropped and 4000 ticks of slip are left. -/
theorem slip_window_first_dropped_witness :
    c19State.sync.cur = some (exFrame 3000 0 2) ∧
    (heldFrame c19State (exFrame 3000 0 2)).start < (exFeed 9000 (exFrame 8000 0 3)).buf.start ∧
    (syncVideoWork exJob (arrive c19State (exFeed 9000 (exFrame 8000 0 3)))
      (exFeed 9000 (exFrame 8000 0 3)).buf).buf_out = none ∧
    (syncVideoWork exJob (arrive c19State (exFeed 9000 (exFrame 8000 0 3)))
      (exFeed 9000 (exFrame 8000 0 3)).buf).state.common.video_pts_slip = 4000 :=
  have hcap : ¬ frameCap exJob (arrive c19State (exFeed 9000 (exFrame 8000 0 3))) := by
    unfold frameCap; decide
  have h := slip_window_first_dropped exJob c19State (exFrame 3000 0 2)
    (exFeed 9000 (exFrame 8000 0 3)) (by decide) hcap (by decide) (by decide) (by decide)
    (by decide)
  ⟨by decide, by decide, h.1, by decide⟩

theorem clipToNext_fields (h : hb_buffer_t) (rest : List hb_buffer_t) :
    (clipToNext h rest).start = h.start ∧ (clipToNext h rest).size = h.size ∧
    (clipToNext h rest).sequence = h.sequence := by
  have := sameButStop_clip h rest
  unfold SameButStop at this
  rw [this]
  exact ⟨rfl, rfl, rfl⟩

theorem clipToNext_restop (h : hb_buffer_t) (rest : List hb_buffer_t) (e : Int) :
    ({ clipToNext h rest with stop := e } : hb_buffer_t) = { h with stop := e } := by
  have := sameButStop_clip h rest
  unfold SameButStop at this
  rw [this]

/-- The VOBSUB loop on a head that is due and shorter than two seconds: the
head stays, with its stop moved to start + 180000 and clipped again. -/
theorem vobsubScan_extend (cur h : hb_buffer_t) (rest : List hb_buffer_t)
    (h0 : h.size ≠ 0) (hseq : h.sequence ≤ cur.sequence)
    (hin1 : h.start < cur.start) (hin2 : cur.start < (clipToNext h rest).stop)
    (hshort : (clipToNext h rest).stop - h.start < 2 * 90000) :
    vobsubScan cur (h :: rest) =
      (clipToNext { h with stop := h.start + 2 * 90000 } rest :: rest,
       some (clipToNext { h with stop := h.start + 2 * 90000 } rest)) := by
  obtain ⟨e1, _, e3⟩ := clipToNext_fields h rest
  unfold vobsubScan
  rw [if_neg h0]
  simp only
  rw [if_neg (by rw [e3]; exact not_lt.mpr hseq), if_pos (show (clipToNext h rest).stop > cur.start from hin2),
    if_pos (show (clipToNext h rest).stop > (clipToNext h rest).start by rw [e1]; omega),
    if_pos (show cur.start > (clipToNext h rest).start ∧ cur.start < (clipToNext h rest).stop from
      ⟨by rw [e1]; exact hin1, hin2⟩),
    if_pos (show (clipToNext h rest).stop - (clipToNext h rest).start < 2 * 90000 by
      rw [e1]; exact hshort),
    clipToNext_restop, e1]

/-- The alignment of a rendered VOBSUB track whose head is due and shorter
than two seconds, against a frame that carries no subtitle yet. -/
theorem syncSubtitle_extend (c h : hb_buffer_t) (t : hb_subtitle_t) (rest : List hb_buffer_t)
    (hsrc : t.source = hb_subtitle_source.VOBSUB) (hdest : t.dest = hb_subtitle_dest.RENDERSUB)
    (hraw : t.fifo_raw = h :: rest) (hsz : 0 < h.size) (hseq : h.sequence ≤ c.sequence)
    (hin1 : h.start < c.start) (hin2 : c.start < (clipToNext h rest).stop)
    (hshort : (clipToNext h rest).stop - h.start < 2 * 90000) (hsub : c.sub = none) :
    syncSubtitle c t =
      ({ c with sub := some (renderCopy h) },
       { t with fifo_raw := clipToNext { h with stop := h.start + 2 * 90000 } rest :: rest }) := by
  rw [syncSubtitle_vobsub c t hsrc, hraw,
    vobsubScan_extend c h rest (by omega) hseq hin1 hin2 hshort]
  have hs : (clipToNext { h with stop := h.start + 2 * 90000 } rest).size > 0 := by
    rw [(clipToNext_fields _ rest).2.1]; exact hsz
  have hr : renderCopy (clipToNext { h with stop := h.start + 2 * 90000 } rest) = renderCopy h :=
    (sameButStop_sequence (sameButStop_trans (sameButStop_clip _ rest)
      (sameButStop_set h _))).2.2
  unfold vobsubDeliver
  simp only
  rw [if_pos hs, if_pos hdest, if_pos hsub, hr]

/-- C14, as stated, fails: in scenario E (subtitle 100000..150000, frame at
120000) the stop of the subtitle in the raw queue becomes 280000, but the
buffer attached to the emitted frame is a fresh buffer that only receives x,
y, width, height and the payload: its stop is not 280000. -/
theorem attached_sub_has_no_stamps :
    (syncVideoWork exJob c14State (exFrame 123003 0 2)).buf_out.map
        (fun g => g.sub.map (fun p => (p.size, p.start, p.stop))) = some (some (4, 0, 0)) ∧
    (syncVideoWork exJob c14State (exFrame 123003 0 2)).buf_out.map
        (fun g => g.sub.map (fun p => p.stop)) ≠ some (some 280000) ∧
    (syncVideoWork exJob c14State (exFrame 123003 0 2)).state.list_subtitle.map
        (fun t => t.fifo_raw.map (fun b => (b.start, b.stop))) = [[(100000, 280000)]] := by
  decide

/-- C14, amended: when a rendered VOBSUB subtitle h with stop - start < 180000
(stop after the overlap clipping) is displayed on the held frame cur
(h.sequence ≤ cur.sequence, start < cur.start < stop, no subtitle attached to
cur by an earlier track), the subtitle stays at the head of the raw queue with
stop = start + 180000, clipped to s2.start when the following subtitle begins
earlier, and the buffer attached to the emitted frame is the copy of its size,
payload, x, y, width and height: it does not depend on the stamps of h. -/
theorem short_subtitle_extended (job : hb_job_t) (st : VideoState) (cur next h : hb_buffer_t)
    (pre post : List hb_subtitle_t) (t : hb_subtitle_t) (rest : List hb_buffer_t)
    (hc : st.sync.cur = some cur) (hcap : ¬ frameCap job st) (hn : next.size ≠ 0)
    (hd : 0 < videoDelta st cur next)
    (hl : st.list_subtitle = pre ++ t :: post)
    (hpre : (syncSubtitles (heldFrame st cur) pre).1.sub = none)
    (hsrc : t.source = hb_subtitle_source.VOBSUB) (hdest : t.dest = hb_subtitle_dest.RENDERSUB)
    (hraw : t.fifo_raw = h :: rest) (hsz : 0 < h.size) (hseq : h.sequence ≤ cur.sequence)
    (hin1 : h.start < (heldFrame st cur).start)
    (hin2 : (heldFrame st cur).start < (clipToNext h rest).stop)
    (hshort : (clipToNext h rest).stop - h.start < 2 * 90000) :
    (∃ g, (syncVideoWork job st next).buf_out = some g ∧ g.sub = some (renderCopy h)) ∧
    (∀ a b : Int, renderCopy { h with start := a, stop := b } = renderCopy h) ∧
    (syncVideoWork job st next).state.list_subtitle[pre.length]? =
      some { t with
        fifo_raw := clipToNext { h with stop := h.start + 2 * 90000 } rest :: rest } := by
  have hrun := syncVideoWork_emit job st cur next hc hcap hn hd
  obtain ⟨_, _, _, _, _, _, hsubs⟩ := syncVideoWork_emit_summary job st cur next hc hcap hn hd
  obtain ⟨p, hp⟩ := syncSubtitles_fst pre (heldFrame st cur)
  have hp0 : p = none := by
    rw [hp] at hpre; exact hpre
  subst hp0
  have hstep := syncSubtitle_extend (syncSubtitles (heldFrame st cur) pre).1 h t rest hsrc hdest
    hraw hsz (by rw [hp, heldFrame_eq]; exact hseq) (by rw [hp]; exact hin1)
    (by rw [hp]; exact hin2) hshort hpre
  have hall : syncSubtitles (heldFrame st cur) (pre ++ t :: post) =
      ({ (syncSubtitles (heldFrame st cur) pre).1 with sub := some (renderCopy h) },
       (syncSubtitles (heldFrame st cur) pre).2 ++
         { t with fifo_raw := clipToNext { h with stop := h.start + 2 * 90000 } rest :: rest } ::
         (syncSubtitles { (syncSubtitles (heldFrame st cur) pre).1 with
            sub := some (renderCopy h) } post).2) := by
    rw [syncSubtitles_append]
    simp only [syncSubtitles]
    rw [hstep]
    simp only
    rw [syncSubtitles_sticky post _ (by simp)]
  refine ⟨?_, fun _ _ => rfl, ?_⟩
  · rw [hrun, emitVideo_buf_out, hl, hall]
    exact ⟨_, rfl, rfl⟩
  · rw [hsubs, hl, hall]
    simp only
    rw [List.getElem?_append_right (by rw [syncSubtitles_length])]
    simp [syncSubtitles_length]

/-- Scenario E: the subtitle 100000..150000 is due on the frame at 120000; it
stays in the raw queue with stop 280000 and its copy is attached to the frame. -/
theorem short_subtitle_extended_witness :
    c14State.sync.cur = some (exFrame 120000 0 1) ∧
    c14State.list_subtitle = [] ++ c14Track :: [] ∧
    (exSub 100000 150000 1).start < (heldFrame c14State (exFrame 120000 0 1)).start ∧
    (heldFrame c14State (exFrame 120000 0 1)).start < (clipToNext (exSub 100000 150000 1) []).stop ∧
    (syncVideoWork exJob c14State (exFrame 123003 0 2)).state.list_subtitle[0]? =
      some { c14Track with fifo_raw := [exSub 100000 280000 1] } :=
  have hcap : ¬ frameCap exJob c14State := by unfold frameCap; decide
  have h := short_subtitle_extended exJob c14State (exFrame 120000 0 1) (exFrame 123003 0 2)
    (exSub 100000 150000 1) [] [] c14Track [] (by decide) hcap (by decide) (by decide)
    (by decide) (by decide) (by decide) (by decide) (by decide) (by decide) (by decide)
    (by decide) (by decide) (by decide)
  ⟨by decide, by decide, by decide, by decide, h.2.2⟩

/-- OutputAudioFrame on the resampling path: stamps and clocks. -/
theorem OutputAudioFrame_resample (audio : hb_audio_t) (buf : hb_buffer_t)
    (sync : hb_sync_audio_t)
    (hres : ¬ (audio.in_samplerate = audio.out_samplerate ∨
      audio.out_codec = hb_acodec.HB_ACODEC_AC3 ∨
      audio.out_codec = hb_acodec.HB_ACODEC_DCA)) :
    (OutputAudioFrame audio buf sync).1.start = sync.next_start ∧
    (OutputAudioFrame audio buf sync).1.stop =
      sync.next_start + Int.tdiv (framesGen audio sync buf * 90000) audio.out_samplerate ∧
    (OutputAudioFrame audio buf sync).2.next_start =
      sync.next_start + Int.tdiv (framesGen audio sync buf * 90000) audio.out_samplerate ∧
    (OutputAudioFrame audio buf sync).2.next_pts = sync.next_pts + (buf.stop - buf.start) := by
  unfold OutputAudioFrame framesGen
  simp only
  rw [if_neg hres]
  exact ⟨rfl, rfl, rfl, rfl⟩

/-- Rounding down g*90000/rate for each g loses less than one tick per term. -/
theorem floor_sum_bounds (rate : Int) (hrate : 0 < rate) (gs : List Int) :
    (gs.map (fun g => g * 90000 / rate)).sum * rate ≤ gs.sum * 90000 ∧
    gs.sum * 90000 + gs.length ≤ ((gs.map (fun g => g * 90000 / rate)).sum + gs.length) * rate := by
  induction gs with
  | nil => simp
  | cons g gs ih =>
    obtain ⟨i1, i2⟩ := ih
    have h1 := Int.ediv_add_emod (g * 90000) rate
    have h2 := Int.emod_nonneg (g * 90000) (show rate ≠ 0 by omega)
    have h3 := Int.emod_lt_of_pos (g * 90000) hrate
    simp only [List.map_cons, List.sum_cons, List.length_cons]
    push_cast
    constructor
    · nlinarith
    · nlinarith

theorem framesGenList_length (audio : hb_audio_t) (bufs : List hb_buffer_t) :
    ∀ sync : hb_sync_audio_t, (framesGenList audio sync bufs).length = bufs.length := by
  induction bufs with
  | nil => intro sync; rfl
  | cons b bs ih =>
    intro sync
    simp only [framesGenList, List.length_cons]
    rw [ih]

/-- Successive calls of OutputAudioFrame on the resampling path: the duration
of each buffer handed back and the advance of next_start. -/
theorem outputAudioFrames_resample (audio : hb_audio_t)
    (hres : ¬ (audio.in_samplerate = audio.out_samplerate ∨
      audio.out_codec = hb_acodec.HB_ACODEC_AC3 ∨
      audio.out_codec = hb_acodec.HB_ACODEC_DCA))
    (hout : 0 < audio.out_samplerate) (bufs : List hb_buffer_t) :
    ∀ sync : hb_sync_audio_t, (∀ g ∈ framesGenList audio sync bufs, 0 ≤ g) →
      (outputAudioFrames audio sync bufs).2.map (fun b => b.stop - b.start) =
        (framesGenList audio sync bufs).map (fun g => g * 90000 / audio.out_samplerate) ∧
      (outputAudioFrames audio sync bufs).1.next_start =
        sync.next_start +
          ((framesGenList audio sync bufs).map (fun g => g * 90000 / audio.out_samplerate)).sum := by
  induction bufs with
  | nil => intro sync _; simp [outputAudioFrames, framesGenList]
  | cons b bs ih =>
    intro sync hg
    obtain ⟨h1, h2, h3, _⟩ := OutputAudioFrame_resample audio b sync hres
    have hg0 : 0 ≤ framesGen audio sync b := hg _ (by simp [framesGenList])
    have hdiv : Int.tdiv (framesGen audio sync b * 90000) audio.out_samplerate =
        framesGen audio sync b * 90000 / audio.out_samplerate :=
      Int.tdiv_eq_ediv (by omega) (le_of_lt hout)
    obtain ⟨i1, i2⟩ := ih (OutputAudioFrame audio b sync).2
      (fun g hgm => hg g (by simp only [framesGenList]; exact List.mem_cons_of_mem _ hgm))
    simp only [outputAudioFrames, framesGenList, List.map_cons, List.sum_cons]
    refine ⟨?_, ?_⟩
    · rw [i1, h1, h2, hdiv]
      congr 1
      ring
    · rw [i2, h3, hdiv]
      ring

/-- C15: in the resampling path of OutputAudioFrame (rates differ, codec is
neither AC-3 nor DCA; the converter reports frame counts g_i ≥ 0, the output
rate is positive) each buffer handed back has duration
floor(g_i*90000/out_rate); after the n buffers next_start has advanced by the
sum S of these durations, with G*90000/out_rate - n < S ≤ G*90000/out_rate for
G = sum g_i and n ≥ 1 (stated after multiplication by out_rate).  Hence at
44.1 kHz with n ≤ 313 and 440000 ≤ G ≤ 441000, starting from next_start = 0,
next_start ends within 2880 ticks of 900000. -/
theorem resample_no_drift (audio : hb_audio_t) (sync : hb_sync_audio_t)
    (bufs : List hb_buffer_t)
    (hres : ¬ (audio.in_samplerate = audio.out_samplerate ∨
      audio.out_codec = hb_acodec.HB_ACODEC_AC3 ∨
      audio.out_codec = hb_acodec.HB_ACODEC_DCA))
    (hout : 0 < audio.out_samplerate)
    (hgen : ∀ g ∈ framesGenList audio sync bufs, 0 ≤ g) :
    (outputAudioFrames audio sync bufs).2.map (fun b => b.stop - b.start) =
      (framesGenList audio sync bufs).map (fun g => g * 90000 / audio.out_samplerate) ∧
    (outputAudioFrames audio sync bufs).1.next_start - sync.next_start =
      ((framesGenList audio sync bufs).map (fun g => g * 90000 / audio.out_samplerate)).sum ∧
    ((outputAudioFrames audio sync bufs).1.next_start - sync.next_start) * audio.out_samplerate
      ≤ (framesGenList audio sync bufs).sum * 90000 ∧
    (bufs ≠ [] →
      (framesGenList audio sync bufs).sum * 90000 - bufs.length * audio.out_samplerate <
        ((outputAudioFrames audio sync bufs).1.next_start - sync.next_start)
          * audio.out_samplerate) ∧
    (audio.out_samplerate = 44100 → bufs.length ≤ 313 → sync.next_start = 0 →
      440000 ≤ (framesGenList audio sync bufs).sum →
      (framesGenList audio sync bufs).sum ≤ 441000 →
      900000 - 2880 < (outputAudioFrames audio sync bufs).1.next_start ∧
      (outputAudioFrames audio sync bufs).1.next_start ≤ 900000) := by
  obtain ⟨h1, h2⟩ := outputAudioFrames_resample audio hres hout bufs sync hgen
  obtain ⟨b1, b2⟩ := floor_sum_bounds audio.out_samplerate hout (framesGenList audio sync bufs)
  rw [framesGenList_length] at b2
  have hadv : (outputAudioFrames audio sync bufs).1.next_start - sync.next_start =
      ((framesGenList audio sync bufs).map (fun g => g * 90000 / audio.out_samplerate)).sum := by
    rw [h2]; ring
  refine ⟨h1, hadv, ?_, ?_, ?_⟩
  · rw [hadv]; exact b1
  · intro hne
    rw [hadv]
    have hlen : 0 < (bufs.length : Int) := by
      have := List.length_pos.mpr hne
      exact_mod_cast this
    nlinarith
  · intro h44 hn h0 hlo hhi
    rw [h0, zero_add] at h2
    rw [h2]
    generalize ((framesGenList audio sync bufs).map
      (fun g => g * 90000 / audio.out_samplerate)).sum = S at b1 b2
    rw [h44] at b1 b2
    have hn' : (bufs.length : Int) ≤ 313 := by exact_mod_cast hn
    constructor <;> omega

set_option maxRecDepth 100000 in
/-- Scenario F with 312 buffers of 1536 samples and 1411 frames generated for
each: G = 440232, every duration is 2879 and next_start ends at 898248, within
2880 ticks of 900000. -/
theorem resample_no_drift_witness :
    (∀ g ∈ framesGenList exResample (initAudioSync 0 none) c15Bufs, 0 ≤ g) ∧
    c15Bufs.length ≤ 313 ∧
    (framesGenList exResample (initAudioSync 0 none) c15Bufs).sum = 440232 ∧
    (outputAudioFrames exResample (initAudioSync 0 none) c15Bufs).1.next_start = 898248 ∧
    900000 - 2880 < (outputAudioFrames exResample (initAudioSync 0 none) c15Bufs).1.next_start ∧
    (outputAudioFrames exResample (initAudioSync 0 none) c15Bufs).1.next_start ≤ 900000 :=
  ⟨by decide, by decide, by decide, by decide,
   (resample_no_drift exResample (initAudioSync 0 none) c15Bufs
      (by decide) (by decide) (by decide)).2.2.2.2
      (by decide) (by decide) (by decide) (by decide) (by decide)⟩

/-- No step of the video worker writes audio_passthru_slip. -/
theorem syncVideoWork_passthru_slip (job : hb_job_t) (st : VideoState) (b : hb_buffer_t) :
    (syncVideoWork job st b).state.common.audio_passthru_slip =
      st.common.audio_passthru_slip := by
  rcases step_cases job st b with
    ⟨hc, hb⟩ | ⟨hc, hb⟩ | ⟨cur, hc, hcap⟩ | ⟨cur, hc, hcap, hb⟩ | ⟨cur, hc, hcap, hb, hd⟩ |
    ⟨cur, hc, hcap, hb, hd⟩
  · rw [syncVideoWork_cold_eof job _ _ hc hb]
  · rw [syncVideoWork_cold job _ _ hc hb]
  · rw [syncVideoWork_cap job _ _ _ hc hcap]
  · rw [syncVideoWork_eof job _ _ _ hc hcap hb]
  · obtain ⟨_, _, _, _, hcom, _⟩ := syncVideoWork_drop_summary job _ _ _ hc hcap hb hd
    rw [hcom]
  · obtain ⟨p, _, _, _, _, hcom, _⟩ := syncVideoWork_emit_summary job _ _ _ hc hcap hb hd
    rw [hcom]; rfl

/-- C21: on an emit step (a frame cur is held, the frame cap is not reached,
the input next is not the end of stream and
next.start - video_pts_slip - cur.start > 0, cur.start read after the
first-frame rewrite) the worker returns one frame whose start is the old
next_start and whose duration stop - start is next.start - pts_skip -
cur.start; afterwards next_start is the stop of that frame, pts_skip is 0,
next_pts is next.start, the held frame is next with its sub pointer cleared,
and chap_mark is 0. Once the first frame is over (pts_offset set) the start
read is the held frame's own start field. -/
theorem emit_step_effects (job : hb_job_t) (st : VideoState) (cur next : hb_buffer_t)
    (hc : st.sync.cur = some cur) (hcap : ¬ frameCap job st) (hn : next.size ≠ 0)
    (hd : 0 < next.start - st.common.video_pts_slip - (heldFrame st cur).start) :
    (st.sync.pts_offset ≠ INT64_MIN → (heldFrame st cur).start = cur.start) ∧
    ∃ f, (syncVideoWork job st next).buf_out = some f ∧
      f.start = st.sync.next_start ∧
      f.stop - f.start = next.start - st.sync.pts_skip - (heldFrame st cur).start ∧
      (syncVideoWork job st next).state.sync.next_start = f.stop ∧
      (syncVideoWork job st next).state.sync.pts_skip = 0 ∧
      (syncVideoWork job st next).state.sync.next_pts = next.start ∧
      (syncVideoWork job st next).state.sync.cur = some { next with sub := none } ∧
      (syncVideoWork job st next).state.sync.chap_mark = 0 := by
  refine ⟨fun h => by rw [heldFrame_eq]; simp [h], ?_⟩
  obtain ⟨p, hout, _, _, hsync, _, _⟩ := syncVideoWork_emit_summary job st cur next hc hcap hn hd
  refine ⟨_, hout, rfl, ?_, ?_, ?_, ?_, ?_, ?_⟩
  · show st.sync.next_start + _ - st.sync.next_start = _
    omega
  all_goals rw [hsync]

theorem emit_step_effects_witness :
    (∃ f, (syncVideoWork exJob c21State (exFrame 30030 0 8)).buf_out = some f ∧
      f.start = 12012 ∧ f.stop - f.start = 30030 - 3003 - 21021) ∧
    (syncVideoWork exJob c21State (exFrame 30030 0 8)).state.sync.next_start = 18018 :=
  have h := emit_step_effects exJob c21State (exFrame 21021 0 7) (exFrame 30030 0 8) rfl
    (fun hcap => hcap.1 rfl) (by decide) (by decide)
  ⟨by
    obtain ⟨f, h1, h2, h3, _⟩ := h.2
    exact ⟨f, h1, h2, h3⟩, by decide⟩

/-- C22: on a drop step (a frame cur is held, the frame cap is not reached,
the input next is not the end of stream and
next.start - video_pts_slip - cur.start <= 0) the sum pts_skip +
video_pts_slip is unchanged; when next.start - cur.start > 0, pts_skip grows
and video_pts_slip shrinks by exactly that amount, otherwise both are
unchanged. And no call of syncVideoWork, whatever the state and input, changes
audio_passthru_slip. -/
theorem drop_step_moves_slip_to_skip (job : hb_job_t) (st : VideoState) (cur next : hb_buffer_t)
    (hc : st.sync.cur = some cur) (hcap : ¬ frameCap job st) (hn : next.size ≠ 0)
    (hd : next.start - st.common.video_pts_slip - (heldFrame st cur).start ≤ 0) :
    (syncVideoWork job st next).state.sync.pts_skip +
        (syncVideoWork job st next).state.common.video_pts_slip =
      st.sync.pts_skip + st.common.video_pts_slip ∧
    (next.start - (heldFrame st cur).start > 0 →
      (syncVideoWork job st next).state.sync.pts_skip =
        st.sync.pts_skip + (next.start - (heldFrame st cur).start) ∧
      (syncVideoWork job st next).state.common.video_pts_slip =
        st.common.video_pts_slip - (next.start - (heldFrame st cur).start)) ∧
    (¬ next.start - (heldFrame st cur).start > 0 →
      (syncVideoWork job st next).state.sync.pts_skip = st.sync.pts_skip ∧
      (syncVideoWork job st next).state.common.video_pts_slip = st.common.video_pts_slip) ∧
    (∀ (st2 : VideoState) (b : hb_buffer_t),
      (syncVideoWork job st2 b).state.common.audio_passthru_slip =
        st2.common.audio_passthru_slip) := by
  obtain ⟨_, _, _, hsync, hcom, _⟩ := syncVideoWork_drop_summary job st cur next hc hcap hn hd
  rw [hsync, hcom]
  refine ⟨?_, ?_, ?_, fun st2 b => syncVideoWork_passthru_slip job st2 b⟩
  · by_cases h : next.start - (heldFrame st cur).start > 0
    · show (if _ then _ else _) + (if _ then _ else _) = _
      rw [if_pos h, if_pos h]; omega
    · show (if _ then _ else _) + (if _ then _ else _) = _
      rw [if_neg h, if_neg h]
  · intro h
    show (if _ then _ else _) = _ ∧ (if _ then _ else _) = _
    rw [if_pos h, if_pos h]; exact ⟨rfl, rfl⟩
  · intro h
    show (if _ then _ else _) = _ ∧ (if _ then _ else _) = _
    rw [if_neg h, if_neg h]; exact ⟨rfl, rfl⟩

theorem drop_step_moves_slip_to_skip_witness :
    (syncVideoWork exJob c21State (exFrame 24024 0 8)).state.sync.pts_skip = 3003 + 3003 ∧
    (syncVideoWork exJob c21State (exFrame 24024 0 8)).state.common.video_pts_slip =
      5000 - 3003 :=
  ((drop_step_moves_slip_to_skip exJob c21State (exFrame 21021 0 7) (exFrame 24024 0 8) rfl
    (fun hcap => hcap.1 rfl) (by decide) (by decide)).2.1 (by decide))

/-- With the input clock on the start of the buffer the gap is zero and the
buffer goes through OutputAudioFrame. -/
theorem audioForward_on_clock (audio : hb_audio_t) (common : hb_sync_common_t)
    (sync : hb_sync_audio_t) (buf : hb_buffer_t) (start : Int) (h : sync.next_pts = start) :
    audioForward audio common sync buf start =
      { common := common, sync := (OutputAudioFrame audio buf sync).2,
        status := hb_work_status.HB_WORK_OK, pushed := [],
        buf_out := some (OutputAudioFrame audio buf sync).1 } := by
  unfold audioForward
  rw [if_neg (by rw [h]; omega)]

/-- C23: a non-terminal audio input with start < next_pts
(start = buf.start - audio_passthru_slip) is dropped, that is the call
returns no buffer, if and only if first_drop ≠ 0 or next_start - start > 1350.
A drop returns OK, pushes nothing, adds one to drop_count, leaves next_start,
next_pts and the slips unchanged and records next_pts in first_drop if that was
unset. Otherwise next_pts is set to start and the buffer goes through
OutputAudioFrame: no silence is pushed and the slips are unchanged. -/
theorem audio_regression_rule (job : hb_job_t) (audio : hb_audio_t) (common : hb_sync_common_t)
    (sync : hb_sync_audio_t) (buf : hb_buffer_t) (ht : ¬ audioTerminal job common buf)
    (hlt : buf.start - common.audio_passthru_slip < sync.next_pts) :
    ((syncAudioWork job audio common sync buf).buf_out = none ↔
      (sync.first_drop ≠ 0 ∨
        sync.next_start - (buf.start - common.audio_passthru_slip) > 1350)) ∧
    ((sync.first_drop ≠ 0 ∨
        sync.next_start - (buf.start - common.audio_passthru_slip) > 1350) →
      syncAudioWork job audio common sync buf =
        { common := common,
          sync := { sync with
            first_drop := if sync.first_drop = 0 then sync.next_pts else sync.first_drop,
            drop_count := sync.drop_count + 1 },
          status := hb_work_status.HB_WORK_OK, pushed := [], buf_out := none }) ∧
    (¬ (sync.first_drop ≠ 0 ∨
        sync.next_start - (buf.start - common.audio_passthru_slip) > 1350) →
      syncAudioWork job audio common sync buf =
        { common := common,
          sync := (OutputAudioFrame audio buf
            { sync with next_pts := buf.start - common.audio_passthru_slip }).2,
          status := hb_work_status.HB_WORK_OK, pushed := [],
          buf_out := some (OutputAudioFrame audio buf
            { sync with next_pts := buf.start - common.audio_passthru_slip }).1 }) := by
  have hdrop : (sync.first_drop ≠ 0 ∨
        sync.next_start - (buf.start - common.audio_passthru_slip) > 1350) →
      syncAudioWork job audio common sync buf =
        { common := common,
          sync := { sync with
            first_drop := if sync.first_drop = 0 then sync.next_pts else sync.first_drop,
            drop_count := sync.drop_count + 1 },
          status := hb_work_status.HB_WORK_OK, pushed := [], buf_out := none } := by
    intro hc
    unfold audioTerminal at ht
    unfold syncAudioWork
    simp only
    rw [if_neg (fun h => ht (Or.inl h)), if_neg (fun h => ht (Or.inr h)),
      if_pos (by omega), if_pos (by simpa using hc)]
    by_cases h0 : sync.first_drop = 0
    · rw [if_pos h0, if_pos h0]
    · rw [if_neg h0, if_neg h0]
  have hkeep : ¬ (sync.first_drop ≠ 0 ∨
        sync.next_start - (buf.start - common.audio_passthru_slip) > 1350) →
      syncAudioWork job audio common sync buf =
        { common := common,
          sync := (OutputAudioFrame audio buf
            { sync with next_pts := buf.start - common.audio_passthru_slip }).2,
          status := hb_work_status.HB_WORK_OK, pushed := [],
          buf_out := some (OutputAudioFrame audio buf
            { sync with next_pts := buf.start - common.audio_passthru_slip }).1 } := by
    intro hc
    have h0 : sync.first_drop = 0 := by
      by_contra h; exact hc (Or.inl h)
    unfold audioTerminal at ht
    unfold syncAudioWork
    simp only
    rw [if_neg (fun h => ht (Or.inl h)), if_neg (fun h => ht (Or.inr h)),
      if_pos (by omega), if_neg (by simpa using hc),
      endAudioDropRun_idle _ _ (by exact h0)]
    exact audioForward_on_clock _ _ _ _ _ rfl
  refine ⟨⟨fun hn => ?_, fun hc => by rw [hdrop hc]⟩, hdrop, hkeep⟩
  by_contra hc
  rw [hkeep hc] at hn
  cases hn

theorem audio_regression_rule_witness :
    ((syncAudioWork exJob (exAudio hb_acodec.HB_ACODEC_OTHER) initCommon exAudioSync
        (exAudioBuf 80000 82880)).buf_out = none ↔
      (exAudioSync.first_drop ≠ 0 ∨
        exAudioSync.next_start - ((exAudioBuf 80000 82880).start -
          initCommon.audio_passthru_slip) > 1350)) ∧
    (syncAudioWork exJob (exAudio hb_acodec.HB_ACODEC_OTHER) initCommon exAudioSync
        (exAudioBuf 80000 82880)).sync.drop_count = 1 ∧
    (syncAudioWork exJob (exAudio hb_acodec.HB_ACODEC_OTHER) initCommon exAudioSync
        (exAudioBuf 89000 91880)).sync.next_pts = 91880 :=
  ⟨(audio_regression_rule exJob (exAudio hb_acodec.HB_ACODEC_OTHER) initCommon exAudioSync
      (exAudioBuf 80000 82880) (by unfold audioTerminal; decide) (by decide)).1, by decide, by decide⟩

/-- C30: in a run of drops (first_drop ≠ 0) a non-terminal buffer with
start ≥ next_pts (start = buf.start - audio_passthru_slip) ends the run:
first_drop and drop_count are cleared, next_pts is set to start and the buffer
goes through OutputAudioFrame from that state. Nothing is pushed as silence,
the slips are unchanged and the buffer is returned, whatever the size of
start - next_pts. -/
theorem drop_run_end_ignores_gap (job : hb_job_t) (audio : hb_audio_t)
    (common : hb_sync_common_t) (sync : hb_sync_audio_t) (buf : hb_buffer_t)
    (ht : ¬ audioTerminal job common buf) (hfd : sync.first_drop ≠ 0)
    (hge : sync.next_pts ≤ buf.start - common.audio_passthru_slip) :
    syncAudioWork job audio common sync buf =
      { common := common,
        sync := (OutputAudioFrame audio buf
          { sync with first_drop := 0, drop_count := 0,
                      next_pts := buf.start - common.audio_passthru_slip }).2,
        status := hb_work_status.HB_WORK_OK, pushed := [],
        buf_out := some (OutputAudioFrame audio buf
          { sync with first_drop := 0, drop_count := 0,
                      next_pts := buf.start - common.audio_passthru_slip }).1 } := by
  unfold audioTerminal at ht
  unfold syncAudioWork
  simp only
  rw [if_neg (fun h => ht (Or.inl h)), if_neg (fun h => ht (Or.inr h)),
    if_neg (by omega)]
  unfold endAudioDropRun
  rw [if_pos hfd]
  exact audioForward_on_clock _ _ _ _ _ rfl

theorem drop_run_end_ignores_gap_witness :
    (90000 : Int) * 60 < (exAudioBuf 9000000 9002880).start - initCommon.audio_passthru_slip -
      c30Sync.next_pts ∧
    syncAudioWork exJob (exAudio hb_acodec.HB_ACODEC_OTHER) initCommon c30Sync
        (exAudioBuf 9000000 9002880) =
      { common := initCommon,
        sync := (OutputAudioFrame (exAudio hb_acodec.HB_ACODEC_OTHER) (exAudioBuf 9000000 9002880)
          { c30Sync with first_drop := 0, drop_count := 0,
                         next_pts := (exAudioBuf 9000000 9002880).start -
                           initCommon.audio_passthru_slip }).2,
        status := hb_work_status.HB_WORK_OK, pushed := [],
        buf_out := some (OutputAudioFrame (exAudio hb_acodec.HB_ACODEC_OTHER)
          (exAudioBuf 9000000 9002880)
          { c30Sync with first_drop := 0, drop_count := 0,
                         next_pts := (exAudioBuf 9000000 9002880).start -
                           initCommon.audio_passthru_slip }).1 } :=
  ⟨by decide, drop_run_end_ignores_gap exJob (exAudio hb_acodec.HB_ACODEC_OTHER) initCommon
    c30Sync (exAudioBuf 9000000 9002880) (by unfold audioTerminal; decide) (by decide)
    (by decide)⟩

/-- The stop that the two-second extension leaves on a head that starts at
start, given the queue behind it. -/
theorem clipToNext_extended_stop (h : hb_buffer_t) (rest : List hb_buffer_t) :
    (clipToNext { h with stop := h.start + 2 * 90000 } rest).stop =
      match rest with
      | [] => h.start + 2 * 90000
      | s2 :: _ => if s2.start ≥ h.start + 2 * 90000 then h.start + 2 * 90000 else s2.start := by
  cases rest with
  | nil => rfl
  | cons s2 r =>
    unfold clipToNext
    simp only
    by_cases hc : s2.start ≥ h.start + 2 * 90000
    · rw [if_pos hc, if_neg (by simp only [gt_iff_lt, not_lt]; omega)]
    · rw [if_neg hc, if_pos (by simp only [gt_iff_lt]; omega)]

/-- Clipping does not lengthen, and a clipped head does not overlap the entry
behind it, so clipping it again changes nothing. -/
theorem clipToNext_stop_le (h : hb_buffer_t) (rest : List hb_buffer_t) :
    (clipToNext h rest).stop ≤ h.stop ∧
    (∀ s2 r, rest = s2 :: r → (clipToNext h rest).stop ≤ s2.start) ∧
    clipToNext (clipToNext h rest) rest = clipToNext h rest := by
  cases rest with
  | nil =>
    refine ⟨le_refl _, ?_, rfl⟩
    intro s2 r hr
    cases hr
  | cons s2 r =>
    unfold clipToNext
    simp only
    by_cases hc : h.stop > s2.start
    · rw [if_pos hc]
      refine ⟨le_of_lt hc, fun a b hr => ?_, ?_⟩
      · cases hr; exact le_refl _
      · rw [if_neg (by simp)]
    · rw [if_neg hc]
      refine ⟨le_refl _, fun a b hr => ?_, ?_⟩
      · cases hr; exact not_lt.mp hc
      · rw [if_neg hc]

/-- The closed-caption and SRT loop in closed form: the entries that are due
form the longest prefix that passes textDue; an end-of-stream buffer right
behind them goes out too, and the loop stops there. -/
theorem drainText_eq (cur : hb_buffer_t) (raw : List hb_buffer_t) :
    ∀ out, drainText cur raw out =
      match raw.dropWhile (textDue cur) with
      | [] => ([], out ++ raw.takeWhile (textDue cur))
      | e :: rest =>
        if e.size ≤ 0 then (rest, out ++ raw.takeWhile (textDue cur) ++ [e])
        else (e :: rest, out ++ raw.takeWhile (textDue cur)) := by
  induction raw with
  | nil => intro out; simp [drainText]
  | cons b raw ih =>
    intro out
    unfold drainText
    by_cases h0 : b.size ≤ 0
    · have hd : textDue cur b = false := by
        simp only [textDue, decide_eq_false_iff_not]; omega
      rw [if_pos h0]
      simp [List.dropWhile, List.takeWhile, hd, h0]
    · rw [if_neg h0]
      by_cases h1 : b.start < cur.start
      · have hd : textDue cur b = true := by
          simp only [textDue, decide_eq_true_eq]; omega
        rw [if_pos h1, ih]
        simp [List.dropWhile, List.takeWhile, hd]
      · have hd : textDue cur b = false := by
          simp only [textDue, decide_eq_false_iff_not]; omega
        rw [if_neg h1]
        simp [List.dropWhile, List.takeWhile, hd, h0]

/-- C24, amended: in the VOBSUB loop, a head h that is not the end of stream,
has a sequence number the video has reached, is due under the normal rule
(h.start < cur.start < stop, stop being h.stop after overlap clipping) and
lasts less than 180000 ticks is left as the subtitle to display with its stop
set to h.start + 180000 if no entry s2 follows or s2.start ≥ h.start + 180000,
and to s2.start otherwise. The new stop is not smaller than the stop after
overlap clipping (which can be smaller than the stop the head came in with),
it is still after cur.start, and the loop run again on the resulting queue
with the same cur returns the same queue and the same subtitle. -/
theorem vobsub_extension_rule (cur h : hb_buffer_t) (rest : List hb_buffer_t)
    (h0 : h.size ≠ 0) (hseq : h.sequence ≤ cur.sequence)
    (hin1 : h.start < cur.start) (hin2 : cur.start < (clipToNext h rest).stop)
    (hshort : (clipToNext h rest).stop - h.start < 180000) :
    ∃ h1, vobsubScan cur (h :: rest) = (h1 :: rest, some h1) ∧
      h1 = { h with stop := h1.stop } ∧
      ((∀ s2, rest.head? = some s2 → h.start + 180000 ≤ s2.start) →
        h1.stop = h.start + 180000) ∧
      (∀ s2, rest.head? = some s2 → s2.start < h.start + 180000 → h1.stop = s2.start) ∧
      (clipToNext h rest).stop ≤ h1.stop ∧
      cur.start < h1.stop ∧
      vobsubScan cur (h1 :: rest) = (h1 :: rest, some h1) := by
  have hext := vobsubScan_extend cur h rest h0 hseq hin1 hin2 (by omega)
  have hstop := clipToNext_extended_stop h rest
  have hsame : SameButStop (clipToNext { h with stop := h.start + 2 * 90000 } rest) h :=
    sameButStop_trans (sameButStop_clip _ rest) (sameButStop_set h _)
  obtain ⟨f1, f2, f3⟩ := clipToNext_fields { h with stop := h.start + 2 * 90000 } rest
  have hidem := (clipToNext_stop_le { h with stop := h.start + 2 * 90000 } rest).2.2
  have hge : (clipToNext h rest).stop ≤
      (clipToNext { h with stop := h.start + 2 * 90000 } rest).stop := by
    rw [hstop]
    cases rest with
    | nil => simp only; omega
    | cons s2 r =>
      simp only
      have hle := (clipToNext_stop_le h (s2 :: r)).2.1 s2 r rfl
      split_ifs <;> omega
  generalize hh1 : clipToNext { h with stop := h.start + 2 * 90000 } rest = h1 at *
  have f1s : h1.start = h.start := f1
  have f2s : h1.size = h.size := f2
  have f3s : h1.sequence = h.sequence := f3
  have hfar : (∀ s2, rest.head? = some s2 → h.start + 180000 ≤ s2.start) →
      h1.stop = h.start + 180000 := by
    intro hall
    rw [hstop]
    cases rest with
    | nil => rfl
    | cons s2 r =>
      have := hall s2 rfl
      simp only
      rw [if_pos (by omega)]
      norm_num
  have hnear : ∀ s2, rest.head? = some s2 → s2.start < h.start + 180000 →
      h1.stop = s2.start := by
    intro s2 hs2 hlt
    rw [hstop]
    cases rest with
    | nil => cases hs2
    | cons s3 r =>
      simp only [List.head?_cons, Option.some.injEq] at hs2
      subst hs2
      simp only
      rw [if_neg (by omega)]
  refine ⟨h1, hext, hsame, hfar, hnear, hge, by omega, ?_⟩
  unfold vobsubScan
  rw [if_neg (by rw [f2s]; exact h0)]
  simp only
  rw [hidem, if_neg (by rw [f3s]; exact not_lt.mpr hseq),
    if_pos (show h1.stop > cur.start by omega),
    if_pos (show h1.stop > h1.start by omega),
    if_pos (show cur.start > h1.start ∧ cur.start < h1.stop from ⟨by omega, by omega⟩)]
  by_cases hs : h1.stop - h1.start < 2 * 90000
  · rw [if_pos hs]
    have he : ({ h1 with stop := h1.start + 2 * 90000 } : hb_buffer_t) =
        { h with stop := h.start + 2 * 90000 } := by
      unfold SameButStop at hsame
      rw [hsame]
    rw [he, hh1]
  · rw [if_neg hs]

theorem vobsub_extension_rule_witness :
    ∃ h1, vobsubScan (exFrame 120000 0 1) [exSub 100000 150000 1, exSub 200000 300000 2] =
        (h1 :: [exSub 200000 300000 2], some h1) ∧
      h1.stop = 200000 ∧
      vobsubScan (exFrame 120000 0 1) (h1 :: [exSub 200000 300000 2]) =
        (h1 :: [exSub 200000 300000 2], some h1) := by
  obtain ⟨h1, a, _, _, b, _, _, c⟩ := vobsub_extension_rule (exFrame 120000 0 1)
    (exSub 100000 150000 1) [exSub 200000 300000 2] (by decide) (by decide) (by decide)
    (by decide) (by decide)
  exact ⟨h1, a, b _ rfl (by decide), c⟩

/-- C25: in the VOBSUB loop, a head h that is not the end of stream, has a
sequence number the video has reached, and whose stop (after overlap
clipping) is after cur.start but not after its own start (wraparound) is left
as the subtitle to display: the test that guards the defer branch,
h.start > cur.start and not cur.start < stop, fails for every such input. -/
theorem vobsub_wraparound_always_shown (cur h : hb_buffer_t) (rest : List hb_buffer_t)
    (h0 : h.size ≠ 0) (hseq : h.sequence ≤ cur.sequence)
    (hfut : (clipToNext h rest).stop > cur.start)
    (hwrap : (clipToNext h rest).stop ≤ h.start) :
    vobsubScan cur (h :: rest) = (clipToNext h rest :: rest, some (clipToNext h rest)) ∧
    ¬ ((clipToNext h rest).start > cur.start ∧ ¬ cur.start < (clipToNext h rest).stop) := by
  obtain ⟨e1, _, e3⟩ := clipToNext_fields h rest
  refine ⟨?_, fun hd => hd.2 hfut⟩
  unfold vobsubScan
  rw [if_neg h0]
  simp only
  rw [if_neg (by rw [e3]; exact not_lt.mpr hseq), if_pos hfut,
    if_neg (by rw [e1]; exact not_lt.mpr hwrap)]
  by_cases hs : (clipToNext h rest).start > cur.start
  · rw [if_pos hs, if_pos hfut]
  · rw [if_neg hs]

theorem vobsub_wraparound_always_shown_witness :
    vobsubScan (exFrame 200 0 1) [exSub 500 300 1] = ([exSub 500 300 1], some (exSub 500 300 1)) :=
  (vobsub_wraparound_always_shown (exFrame 200 0 1) (exSub 500 300 1) [] (by decide) (by decide)
    (by decide) (by decide)).1

theorem videoFrames_length_le (l : List hb_buffer_t) : (videoFrames l).length ≤ l.length :=
  List.length_filter_le _ _

/-- With a frame cap set, a run that starts with count_frames at c ≤ N + 1
emits at most N + 1 - c frames. -/
theorem run_frame_bound (job : hb_job_t) (hN : job.frame_to_stop ≠ 0) (feeds : List VideoFeed) :
    ∀ (st : VideoState) (c : Int), st.common.count_frames = c → c ≤ job.frame_to_stop + 1 →
      ((videoFrames (runVideo job st feeds).out).length : Int) ≤ job.frame_to_stop + 1 - c := by
  induction feeds with
  | nil => intro st c _ hc; simp [runVideo, videoFrames]; omega
  | cons f fs ih =>
    intro st c hcnt hle
    have hca : (arrive st f).common.count_frames = c := by simp [arrive, hcnt]
    rcases step_cases job (arrive st f) f.buf with
      ⟨hc, hb⟩ | ⟨hc, hb⟩ | ⟨cur, hc, hcap⟩ | ⟨cur, hc, hcap, hb⟩ | ⟨cur, hc, hcap, hb, hd⟩ |
      ⟨cur, hc, hcap, hb, hd⟩
    · simp [runVideo, syncVideoWork_cold_eof job _ _ hc hb, videoFrames, hb_buffer_init]
      omega
    · simp only [runVideo, syncVideoWork_cold job _ _ hc hb]
      simp only [Option.toList, List.append_nil, List.nil_append]
      exact ih _ _ hca hle
    · simp [runVideo, syncVideoWork_cap job _ _ _ hc hcap, videoFrames, hb_buffer_init]
      omega
    · have hlt : c ≤ job.frame_to_stop := by
        unfold frameCap at hcap
        rw [hca] at hcap
        by_contra h
        exact hcap ⟨hN, by omega⟩
      rw [runVideo_cons_done job st f fs (by rw [syncVideoWork_eof job _ _ _ hc hcap hb])]
      simp only [syncVideoWork_eof job _ _ _ hc hcap hb, Option.toList]
      have := videoFrames_length_le
        ([{ cur with start := (arrive st f).sync.next_start,
                     stop := job.eof_stop (arrive st f).sync.next_start }] ++ [hb_buffer_init 0])
      simp only [List.length_append, List.length_singleton] at this
      have h2 : (videoFrames
        ([{ cur with start := (arrive st f).sync.next_start,
                     stop := job.eof_stop (arrive st f).sync.next_start }] ++
          [hb_buffer_init 0])).length ≤ 1 := by
        simp only [videoFrames, List.filter_append, List.length_append]
        have a := List.length_filter_le (fun b : hb_buffer_t => decide (b.size ≠ 0))
          [{ cur with start := (arrive st f).sync.next_start,
                      stop := job.eof_stop (arrive st f).sync.next_start }]
        have b : (List.filter (fun b : hb_buffer_t => decide (b.size ≠ 0))
            [hb_buffer_init 0]).length = 0 := by
          simp [hb_buffer_init]
        simp only [List.length_singleton] at a
        omega
      omega
    · obtain ⟨hbo, hs, hf, _, hcom, _⟩ := syncVideoWork_drop_summary job _ _ _ hc hcap hb hd
      rw [runVideo_cons_ok job st f fs hs]
      simp only [hbo, hf, Option.toList, List.append_nil, List.nil_append]
      refine ih _ _ ?_ hle
      rw [hcom]; exact hca
    · obtain ⟨p, hbo, hs, hf, _, hcom, _⟩ := syncVideoWork_emit_summary job _ _ _ hc hcap hb hd
      have hlt : c ≤ job.frame_to_stop := by
        unfold frameCap at hcap
        rw [hca] at hcap
        by_contra h
        exact hcap ⟨hN, by omega⟩
      rw [runVideo_cons_ok job st f fs hs]
      simp only [hbo, hf, Option.toList, List.nil_append, List.singleton_append]
      have h1 := ih (syncVideoWork job (arrive st f) f.buf).state (c + 1)
        (by rw [hcom]; simp [UpdateState, hca]) (by omega)
      have h2 : ∀ (g : hb_buffer_t) (l : List hb_buffer_t),
          (videoFrames (g :: l)).length ≤ (videoFrames l).length + 1 := by
        intro g l
        simp only [videoFrames, List.filter_cons]
        split_ifs <;> simp
      have h3 := h2 { cur with
          sub := p,
          start := (arrive st f).sync.next_start,
          stop := (arrive st f).sync.next_start +
            (f.buf.start - (arrive st f).sync.pts_skip - (heldFrame (arrive st f) cur).start),
          new_chap := if (arrive st f).sync.chap_mark ≠ 0 then (arrive st f).sync.chap_mark
            else cur.new_chap }
        (runVideo job (syncVideoWork job (arrive st f) f.buf).state fs).out
      omega

/-- C27: with frame_to_stop = N > 0, a run of the video worker from its
initial state on any inputs puts at most N + 1 video frames on its output; an
emit step adds exactly one to count_frames, a drop step leaves it unchanged,
and a step that finds a frame held and count_frames > N discards the held and
the input frame, hands back the end-of-stream buffer and returns
HB_WORK_DONE. -/
theorem frame_cap_bounds_output (job : hb_job_t) (hN : 0 < job.frame_to_stop)
    (m : Int) (subs : List hb_subtitle_t) (feeds : List VideoFeed) :
    ((videoFrames (runVideo job (initVideoState m subs) feeds).out).length : Int) ≤
      job.frame_to_stop + 1 ∧
    (∀ (st : VideoState) (cur next : hb_buffer_t), st.sync.cur = some cur →
      ¬ st.common.count_frames > job.frame_to_stop → next.size ≠ 0 →
      (0 < next.start - st.common.video_pts_slip - (heldFrame st cur).start →
        (syncVideoWork job st next).state.common.count_frames = st.common.count_frames + 1) ∧
      (next.start - st.common.video_pts_slip - (heldFrame st cur).start ≤ 0 →
        (syncVideoWork job st next).state.common.count_frames = st.common.count_frames)) ∧
    (∀ (st : VideoState) (cur next : hb_buffer_t), st.sync.cur = some cur →
      st.common.count_frames > job.frame_to_stop →
      syncVideoWork job st next =
        { state := { st with sync := { st.sync with cur := none } },
          status := hb_work_status.HB_WORK_DONE, fifo_sync := [],
          buf_out := some (hb_buffer_init 0) }) := by
  have hN0 : job.frame_to_stop ≠ 0 := by omega
  refine ⟨?_, ?_, ?_⟩
  · have := run_frame_bound job hN0 feeds (initVideoState m subs) 0 rfl (by omega)
    omega
  · intro st cur next hc hcnt hn
    have hcap : ¬ frameCap job st := fun h => hcnt h.2
    refine ⟨fun hd => ?_, fun hd => ?_⟩
    · obtain ⟨p, _, _, _, _, hcom, _⟩ := syncVideoWork_emit_summary job st cur next hc hcap hn hd
      rw [hcom]; rfl
    · obtain ⟨_, _, _, _, hcom, _⟩ := syncVideoWork_drop_summary job st cur next hc hcap hn hd
      rw [hcom]
  · intro st cur next hc hcnt
    exact syncVideoWork_cap job st cur next hc ⟨hN0, hcnt⟩

/-- With frame_to_stop = 1 and six good frames the worker emits two frames and
stops. -/
theorem frame_cap_bounds_output_witness :
    ((videoFrames (runVideo c27Job (initVideoState 0 []) c27Feeds).out).length : Int) ≤ 1 + 1 ∧
    (videoFrames (runVideo c27Job (initVideoState 0 []) c27Feeds).out).length = 2 ∧
    (runVideo c27Job (initVideoState 0 []) c27Feeds).status = hb_work_status.HB_WORK_DONE :=
  ⟨(frame_cap_bounds_output c27Job (by decide) 0 [] c27Feeds).1, by decide, by decide⟩

theorem onInputClock_init (m : Int) (subs : List hb_subtitle_t) :
    OnInputClock (initVideoState m subs) := by
  refine ⟨fun c hc => ?_, fun _ => ⟨rfl, rfl⟩⟩
  simp [initVideoState, initVideoSync] at hc

/-- Without slip the output clock stays on the start of the held frame. -/
theorem onInputClock_step (job : hb_job_t) (st : VideoState) (f : VideoFeed) (hz : NoSlip st)
    (hclk : OnInputClock st)
    (hs : (syncVideoWork job (arrive st f) f.buf).status = hb_work_status.HB_WORK_OK) :
    OnInputClock (syncVideoWork job (arrive st f) f.buf).state := by
  have hheld : ∀ c, heldFrame (arrive st f) c = heldFrame st c := fun c => rfl
  rcases step_cases job (arrive st f) f.buf with
    ⟨hc, hb⟩ | ⟨hc, hb⟩ | ⟨cur, hc, hcap⟩ | ⟨cur, hc, hcap, hb⟩ | ⟨cur, hc, hcap, hb, hd⟩ |
    ⟨cur, hc, hcap, hb, hd⟩
  · rw [syncVideoWork_cold_eof job _ _ hc hb] at hs; cases hs
  · rw [syncVideoWork_cold job _ _ hc hb]
    have h0 := hclk.2 (by simpa using hc)
    refine ⟨fun c hcc => ?_, fun hn => ?_⟩
    · rw [heldFrame_eq]
      simp [h0.1, h0.2]
    · simp at hn
  · rw [syncVideoWork_cap job _ _ _ hc hcap] at hs; cases hs
  · rw [syncVideoWork_eof job _ _ _ hc hcap hb] at hs; cases hs
  · obtain ⟨_, _, _, hsync, _, _⟩ := syncVideoWork_drop_summary job _ _ _ hc hcap hb hd
    have h1 := hclk.1 cur (by simpa using hc)
    refine ⟨fun c hcc => ?_, fun hn => ?_⟩
    · rw [hsync] at hcc
      simp only [Option.some.injEq] at hcc
      rw [heldFrame_eq, hsync, ← hcc, hheld]
      simp only [arrive_sync]
      by_cases hp : st.sync.pts_offset = INT64_MIN
      · simp [hp, INT64_MIN] at h1 ⊢
        rw [heldFrame_eq] at h1 ⊢
        simpa [hp, INT64_MIN] using h1
      · simp [hp]
        exact h1
    · rw [hsync] at hn
      simp at hn
  · obtain ⟨p, _, _, _, hsync, _, _⟩ := syncVideoWork_emit_summary job _ _ _ hc hcap hb hd
    have h1 := hclk.1 cur (by simpa using hc)
    refine ⟨fun c hcc => ?_, fun hn => ?_⟩
    · rw [hsync] at hcc
      simp only [Option.some.injEq] at hcc
      rw [heldFrame_eq, hsync, ← hcc, hheld]
      simp only [arrive_sync]
      have hsk : st.sync.pts_skip = 0 := hz.2
      by_cases hp : st.sync.pts_offset = INT64_MIN
      · simp [hp, INT64_MIN, hsk]
        omega
      · simp [hp, hsk]
        omega
    · rw [hsync] at hn
      simp at hn

/-- C28: in a run from the initial state in which no audio worker adds slip,
pts_skip and video_pts_slip are 0 in every state the run reaches. If the next
call (again without slip) returns a frame g, then the input starts after the
held frame (start read after the first-frame rewrite), g starts where the held
frame started on input (0 for the first frame), g stops where the input
starts, so its duration is the positive distance of the two input starts, and
afterwards next_start is the start of the new held frame, which is the
input. -/
theorem zero_slip_timeline (job : hb_job_t) (m : Int) (subs : List hb_subtitle_t)
    (feeds : List VideoFeed) (nx : VideoFeed) (hz : ∀ f ∈ feeds, f.slip = 0)
    (hnx : nx.slip = 0)
    (hok : (runVideo job (initVideoState m subs) feeds).status = hb_work_status.HB_WORK_OK) :
    (runVideo job (initVideoState m subs) feeds).state.sync.pts_skip = 0 ∧
    (runVideo job (initVideoState m subs) feeds).state.common.video_pts_slip = 0 ∧
    ∀ cur g, (runVideo job (initVideoState m subs) feeds).state.sync.cur = some cur →
      (syncVideoWork job (arrive (runVideo job (initVideoState m subs) feeds).state nx)
        nx.buf).status = hb_work_status.HB_WORK_OK →
      (syncVideoWork job (arrive (runVideo job (initVideoState m subs) feeds).state nx)
        nx.buf).buf_out = some g →
      (heldFrame (runVideo job (initVideoState m subs) feeds).state cur).start < nx.buf.start ∧
      g.start = (heldFrame (runVideo job (initVideoState m subs) feeds).state cur).start ∧
      g.stop = nx.buf.start ∧
      g.stop - g.start = nx.buf.start -
        (heldFrame (runVideo job (initVideoState m subs) feeds).state cur).start ∧
      0 < g.stop - g.start ∧
      (syncVideoWork job (arrive (runVideo job (initVideoState m subs) feeds).state nx)
        nx.buf).state.sync.cur = some { nx.buf with sub := none } ∧
      (syncVideoWork job (arrive (runVideo job (initVideoState m subs) feeds).state nx)
        nx.buf).state.sync.next_start = nx.buf.start ∧
      (syncVideoWork job (arrive (runVideo job (initVideoState m subs) feeds).state nx)
        nx.buf).state.sync.pts_skip = 0 := by
  have hinv := run_state_invariant job (fun st => NoSlip st ∧ OnInputClock st)
    (fun f => f.slip = 0)
    (fun st f hp hq hs => ⟨noSlip_step job st f hp.1 hq hs, onInputClock_step job st f hp.1 hp.2 hs⟩)
    feeds (initVideoState m subs) ⟨noSlip_init m subs, onInputClock_init m subs⟩ hz hok
  generalize (runVideo job (initVideoState m subs) feeds).state = st at hinv ⊢
  obtain ⟨⟨hslip, hskip⟩, hclk⟩ := hinv
  refine ⟨hskip, hslip, ?_⟩
  intro cur g hc hs ho
  obtain ⟨cur2, hc2, hcap, hb, hd⟩ := emit_of_ok_out job _ _ _ hs ho
  have hce : cur2 = cur := by
    have : some cur2 = some cur := by rw [← hc2, ← hc]; rfl
    exact Option.some.inj this
  subst hce
  obtain ⟨p, hbo, _, _, hsync, _, _⟩ := syncVideoWork_emit_summary job _ _ _ hc2 hcap hb hd
  have hheld : heldFrame (arrive st nx) cur2 = heldFrame st cur2 := rfl
  have hclk1 := hclk.1 cur2 hc
  have hd2 : 0 < nx.buf.start - (heldFrame st cur2).start := by
    rw [videoDelta_eq, hheld] at hd
    have : (arrive st nx).common.video_pts_slip = 0 := by simp [arrive, hnx, hslip]
    rw [this] at hd
    omega
  rw [hbo] at ho
  have hg := (Option.some.inj ho).symm
  have hns : (arrive st nx).sync.next_start = st.sync.next_start := rfl
  have hps : (arrive st nx).sync.pts_skip = 0 := hskip
  rw [hheld, hns, hps] at hg hsync
  have g1 : g.start = st.sync.next_start := by rw [hg]
  have g2 : g.stop = st.sync.next_start + (nx.buf.start - 0 - (heldFrame st cur2).start) := by
    rw [hg]
  refine ⟨by omega, by omega, by omega, by omega, by omega, ?_, ?_, ?_⟩
  · rw [hsync]
  · rw [hsync]
    show st.sync.next_start + (nx.buf.start - 0 - (heldFrame st cur2).start) = _
    omega
  · rw [hsync]

/-- Frames at 1000, 4000, 2000, 5000 and then 8000: the frame at 2000 is
dropped, and the output is the input timeline of the frames kept, with the
first frame moved to 0. -/
theorem zero_slip_timeline_witness :
    (runVideo exJob (initVideoState 0 []) c28Feeds).state.sync.pts_skip = 0 ∧
    (syncVideoWork exJob (arrive (runVideo exJob (initVideoState 0 []) c28Feeds).state
        (exFeed 0 (exFrame 8000 0 5))) (exFeed 0 (exFrame 8000 0 5)).buf).state.sync.next_start =
      (exFeed 0 (exFrame 8000 0 5)).buf.start ∧
    (videoFrames (runVideo exJob (initVideoState 0 [])
        (c28Feeds ++ [exFeed 0 (exFrame 8000 0 5)])).out).map (fun b => (b.start, b.stop)) =
      [(0, 4000), (4000, 5000), (5000, 8000)] :=
  have h := zero_slip_timeline exJob 0 [] c28Feeds (exFeed 0 (exFrame 8000 0 5))
    (by decide) rfl (by decide)
  ⟨h.1,
   (h.2.2 (exFrame 5000 0 4) { exFrame 5000 0 4 with start := 5000, stop := 8000 }
      (by decide) (by decide) (by decide)).2.2.2.2.2.2.1,
   by decide⟩

/-- A video call keeps video_pts_slip between 0 and its old value. -/
theorem syncVideoWork_slip_range (job : hb_job_t) (st : VideoState) (b : hb_buffer_t)
    (h0 : 0 ≤ st.common.video_pts_slip) :
    0 ≤ (syncVideoWork job st b).state.common.video_pts_slip ∧
    (syncVideoWork job st b).state.common.video_pts_slip ≤ st.common.video_pts_slip := by
  rcases step_cases job st b with
    ⟨hc, hb⟩ | ⟨hc, hb⟩ | ⟨cur, hc, hcap⟩ | ⟨cur, hc, hcap, hb⟩ | ⟨cur, hc, hcap, hb, hd⟩ |
    ⟨cur, hc, hcap, hb, hd⟩
  · rw [syncVideoWork_cold_eof job _ _ hc hb]; exact ⟨h0, le_refl _⟩
  · rw [syncVideoWork_cold job _ _ hc hb]; exact ⟨h0, le_refl _⟩
  · rw [syncVideoWork_cap job _ _ _ hc hcap]; exact ⟨h0, le_refl _⟩
  · rw [syncVideoWork_eof job _ _ _ hc hcap hb]; exact ⟨h0, le_refl _⟩
  · obtain ⟨_, _, _, _, hcom, _⟩ := syncVideoWork_drop_summary job _ _ _ hc hcap hb hd
    rw [hcom]
    rw [videoDelta_eq] at hd
    by_cases h : b.start - (heldFrame st cur).start > 0
    · simp only [if_pos h]
      constructor <;> omega
    · simp only [if_neg h]
      exact ⟨h0, le_refl _⟩
  · obtain ⟨p, _, _, _, _, hcom, _⟩ := syncVideoWork_emit_summary job _ _ _ hc hcap hb hd
    rw [hcom]; exact ⟨h0, le_refl _⟩

/-- An audio call keeps the order of the slips and does not take
audio_passthru_slip back. -/
theorem syncAudioWork_slip_order (job : hb_job_t) (audio : hb_audio_t)
    (common : hb_sync_common_t) (sync : hb_sync_audio_t) (buf : hb_buffer_t)
    (h : SlipOrder common) :
    SlipOrder (syncAudioWork job audio common sync buf).common ∧
    common.audio_passthru_slip ≤
      (syncAudioWork job audio common sync buf).common.audio_passthru_slip := by
  rw [syncAudioWork_common]
  unfold SlipOrder at *
  by_cases hg : dcaGap job audio common sync buf
  · rw [if_pos hg]
    have h6 := hg.2.2.2.2.1
    simp only
    refine ⟨⟨?_, ?_⟩, ?_⟩ <;> omega
  · rw [if_neg hg]
    exact ⟨h, le_refl _⟩

/-- One call of either worker keeps the order of the slips and does not take
audio_passthru_slip back. -/
theorem stageStep_slip_order (job : hb_job_t) (tracks : List hb_audio_t) (s : SyncStage)
    (e : SyncEvent) (h : SlipOrder s.video.common) :
    SlipOrder (stageStep job tracks s e).video.common ∧
    s.video.common.audio_passthru_slip ≤
      (stageStep job tracks s e).video.common.audio_passthru_slip := by
  cases e with
  | video raw buf =>
    have h1 := syncVideoWork_slip_range job
      { s.video with list_subtitle := arriveSubs s.video.list_subtitle raw } buf h.1
    have h2 := syncVideoWork_passthru_slip job
      { s.video with list_subtitle := arriveSubs s.video.list_subtitle raw } buf
    unfold SlipOrder at *
    simp only [stageStep]
    simp only at h1 h2
    rw [h2]
    refine ⟨⟨h1.1, ?_⟩, le_refl _⟩
    omega
  | audio i buf =>
    simp only [stageStep]
    cases ha : tracks[i]? with
    | none => exact ⟨h, le_refl _⟩
    | some a =>
      cases hsy : s.audio[i]? with
      | none => exact ⟨h, le_refl _⟩
      | some sy => exact syncAudioWork_slip_order job a s.video.common sy buf h

theorem stageRun_slip_order (job : hb_job_t) (tracks : List hb_audio_t)
    (events : List SyncEvent) :
    ∀ s, SlipOrder s.video.common →
      SlipOrder (stageRun job tracks s events).video.common ∧
      s.video.common.audio_passthru_slip ≤
        (stageRun job tracks s events).video.common.audio_passthru_slip := by
  induction events with
  | nil => intro s h; exact ⟨h, le_refl _⟩
  | cons e es ih =>
    intro s h
    have h1 := stageStep_slip_order job tracks s e h
    have h2 := ih (stageStep job tracks s e) h1.1
    exact ⟨h2.1, le_trans h1.2 h2.2⟩

theorem stageRun_append (job : hb_job_t) (tracks : List hb_audio_t) (s : SyncStage)
    (e1 e2 : List SyncEvent) :
    stageRun job tracks s (e1 ++ e2) = stageRun job tracks (stageRun job tracks s e1) e2 := by
  simp [stageRun, List.foldl_append]

/-- C29: start from the state after hb_sync_init (both slips 0) with any
number of audio tracks in any state and let the work functions syncVideoWork
and syncAudioWork be called in any order on any inputs. In every state reached
0 ≤ video_pts_slip ≤ audio_passthru_slip, and audio_passthru_slip never
decreases: after any further calls it is at least what it was. -/
theorem slips_stay_ordered (job : hb_job_t) (tracks : List hb_audio_t) (m : Int)
    (subs : List hb_subtitle_t) (audio : List hb_sync_audio_t)
    (events more : List SyncEvent) :
    0 ≤ (stageRun job tracks (initStage m subs audio) events).video.common.video_pts_slip ∧
    (stageRun job tracks (initStage m subs audio) events).video.common.video_pts_slip ≤
      (stageRun job tracks (initStage m subs audio) events).video.common.audio_passthru_slip ∧
    (stageRun job tracks (initStage m subs audio) events).video.common.audio_passthru_slip ≤
      (stageRun job tracks (initStage m subs audio)
        (events ++ more)).video.common.audio_passthru_slip := by
  have hinit : SlipOrder (initStage m subs audio).video.common := by
    simp [SlipOrder, initStage, initVideoState, initCommon]
  have h1 := stageRun_slip_order job tracks events (initStage m subs audio) hinit
  have h2 := stageRun_slip_order job tracks more _ h1.1
  rw [stageRun_append]
  exact ⟨h1.1.1, h1.1.2, h2.2⟩

/-- The stage on c29Events with one DCA track: the gap puts 9000 ticks on both
slips and the dropped video frame takes 3000 off video_pts_slip. -/
theorem stageRun_example :
    (stageRun exJob [exAudio hb_acodec.HB_ACODEC_DCA]
      (initStage 0 [] [initAudioSync 0 none]) c29Events).video.common =
      { count_frames := 2, audio_passthru_slip := 9000, video_pts_slip := 6000 } := by
  decide

/-- The amended C2 on c2SteadyFeeds (no slip): the run emits three frames with
starts 0, 3000 and 6000, and the frame returned when the input at 12000
arrives next has the duration 12000 - 0 - 9000 > 0. -/
theorem video_starts_increasing_without_slip_witness :
    (∀ f ∈ c2SteadyFeeds, f.slip = 0) ∧
    (videoFrames (runVideo exJob (initVideoState 0 []) c2SteadyFeeds).out).map
      (fun b => (b.start, b.stop)) = [(0, 3000), (3000, 6000), (6000, 9000)] ∧
    List.Pairwise (fun a b : hb_buffer_t => a.start < b.start)
      (videoFrames (runVideo exJob (initVideoState 0 []) c2SteadyFeeds).out) ∧
    (syncVideoWork exJob (arrive (runVideo exJob (initVideoState 0 []) c2SteadyFeeds).state
        (exFeed 0 (exFrame 12000 0 6))) (exFeed 0 (exFrame 12000 0 6)).buf).buf_out =
      some { exFrame 9000 0 5 with start := 9000, stop := 12000 } ∧
    ((runVideo exJob (initVideoState 0 []) c2SteadyFeeds).state.sync.pts_skip = 0 ∧
      ({ exFrame 9000 0 5 with start := 9000, stop := 12000 } : hb_buffer_t).stop -
          ({ exFrame 9000 0 5 with start := 9000, stop := 12000 } : hb_buffer_t).start =
        (exFeed 0 (exFrame 12000 0 6)).buf.start -
          (runVideo exJob (initVideoState 0 []) c2SteadyFeeds).state.sync.pts_skip -
          (heldFrame (runVideo exJob (initVideoState 0 []) c2SteadyFeeds).state
            (exFrame 9000 0 5)).start ∧
      0 < ({ exFrame 9000 0 5 with start := 9000, stop := 12000 } : hb_buffer_t).stop -
          ({ exFrame 9000 0 5 with start := 9000, stop := 12000 } : hb_buffer_t).start) :=
  have h := video_starts_increasing_without_slip exJob 0 [] c2SteadyFeeds (by decide)
  ⟨by decide, by decide, h.1, by decide,
   h.2 (exFeed 0 (exFrame 12000 0 6)) (exFrame 9000 0 5)
     { exFrame 9000 0 5 with start := 9000, stop := 12000 } rfl (by decide) (by decide)
     (by decide) (by decide)⟩

/-- C24 as stated fails when the head overlaps the entry behind it: head
100 to 300, next entry at 200, held frame at 150. The head is clipped to 200,
is due and short, is extended and clipped again, and leaves the loop with stop
200, which is smaller than the stop 300 it came in with. -/
theorem vobsub_extension_can_shorten :
    vobsubScan (exFrame 150 0 1) [exSub 100 300 1, exSub 200 400 2] =
      ([exSub 100 200 1, exSub 200 400 2], some (exSub 100 200 1)) ∧
    (exSub 100 300 1).start < (exFrame 150 0 1).start ∧
    (exFrame 150 0 1).start < (clipToNext (exSub 100 300 1) [exSub 200 400 2]).stop ∧
    (clipToNext (exSub 100 300 1) [exSub 200 400 2]).stop - (exSub 100 300 1).start < 180000 ∧
    (exSub 100 200 1).stop < (exSub 100 300 1).stop := by
  decide

/-- The gap test pushes buffers of its own only through InsertSilence, and
then with a gap of at least 70 ms and at most a minute. -/
theorem audioForward_pushed (audio : hb_audio_t) (common : hb_sync_common_t)
    (sync : hb_sync_audio_t) (buf : hb_buffer_t) (start : Int)
    (h : (audioForward audio common sync buf start).pushed ≠ []) :
    90 * 70 ≤ start - sync.next_pts ∧ start - sync.next_pts ≤ 90000 * 60 ∧
    (audioForward audio common sync buf start).pushed =
      (InsertSilence audio sync (start - sync.next_pts)).2 := by
  unfold audioForward at h ⊢
  by_cases h6 : start - sync.next_pts ≥ 90 * 70
  · rw [if_pos h6] at h ⊢
    by_cases h7 : start - sync.next_pts > 90000 * 60
    · rw [if_pos h7] at h; exact absurd rfl h
    · rw [if_neg h7] at h ⊢
      by_cases h8 : audio.out_codec = hb_acodec.HB_ACODEC_DCA
      · rw [if_pos h8] at h; exact absurd rfl h
      · rw [if_neg h8]
        exact ⟨h6, not_lt.mp h7, rfl⟩
  · rw [if_neg h6] at h; exact absurd rfl h

/-- Every call of InsertSilence by syncAudioWork has a duration between 6300
and 5400000 ticks, the gap between the slip-corrected start of the buffer and
next_pts, and is made in the state the call started from. -/
theorem syncAudioWork_pushed (job : hb_job_t) (audio : hb_audio_t) (common : hb_sync_common_t)
    (sync : hb_sync_audio_t) (buf : hb_buffer_t)
    (h : (syncAudioWork job audio common sync buf).pushed ≠ []) :
    90 * 70 ≤ buf.start - common.audio_passthru_slip - sync.next_pts ∧
    buf.start - common.audio_passthru_slip - sync.next_pts ≤ 90000 * 60 ∧
    (syncAudioWork job audio common sync buf).pushed =
      (InsertSilence audio sync (buf.start - common.audio_passthru_slip - sync.next_pts)).2 := by
  unfold syncAudioWork at h ⊢
  simp only at h ⊢
  by_cases h1 : buf.size ≤ 0
  · rw [if_pos h1] at h; exact absurd rfl h
  rw [if_neg h1] at h ⊢
  by_cases h2 : job.frame_to_stop ≠ 0 ∧ common.count_frames ≥ job.frame_to_stop
  · rw [if_pos h2] at h; exact absurd rfl h
  rw [if_neg h2] at h ⊢
  by_cases h3 : buf.start - common.audio_passthru_slip - sync.next_pts < 0
  · rw [if_pos h3] at h ⊢
    by_cases h4 : sync.first_drop ≠ 0 ∨
        sync.next_start - (buf.start - common.audio_passthru_slip) > 90 * 15
    · rw [if_pos h4] at h; exact absurd rfl h
    · rw [if_neg h4] at h
      have h0 : sync.first_drop = 0 := by
        by_contra hne; exact h4 (Or.inl hne)
      rw [endAudioDropRun_idle _ _ (by exact h0)] at h
      have := (audioForward_pushed _ _ _ _ _ h).1
      simp only at this
      omega
  · rw [if_neg h3] at h ⊢
    by_cases h0 : sync.first_drop = 0
    · rw [endAudioDropRun_idle _ _ h0] at h ⊢
      exact audioForward_pushed _ _ _ _ _ h
    · have hrun : endAudioDropRun sync (buf.start - common.audio_passthru_slip) =
          { sync with first_drop := 0, drop_count := 0,
                      next_pts := buf.start - common.audio_passthru_slip } := by
        unfold endAudioDropRun
        rw [if_pos h0]
      rw [hrun] at h
      have := (audioForward_pushed _ _ _ _ _ h).1
      simp only at this
      omega

/-- C13: for every duration d that syncAudioWork can hand to InsertSilence
(0 ≤ d ≤ 5400000; the only call is behind the tests of lines 793 and 795) and
every input sample rate with F = floor(90000*1536 / in_rate) ≥ 1
(0 < in_rate ≤ 138240000), InsertSilence(d) pushes exactly
n = floor((d + floor(F/2)) / F) frames, and n*F is the multiple of F nearest
to d: -floor(F/2) ≤ d - n*F < F - floor(F/2). Whenever a call of syncAudioWork
pushes silence, it is InsertSilence(d) with 6300 ≤ d ≤ 5400000. -/
theorem silence_frame_count (audio : hb_audio_t) (sync : hb_sync_audio_t) (d : Int)
    (hr : 0 < audio.in_samplerate) (hr2 : audio.in_samplerate ≤ 138240000) (hd : 0 ≤ d)
    (hd5 : d ≤ 5400000) :
    ((InsertSilence audio sync d).2.length : Int) =
      (d + 90000 * 1536 / audio.in_samplerate / 2) / (90000 * 1536 / audio.in_samplerate) ∧
    -(90000 * 1536 / audio.in_samplerate / 2) ≤
      d - (d + 90000 * 1536 / audio.in_samplerate / 2) / (90000 * 1536 / audio.in_samplerate)
        * (90000 * 1536 / audio.in_samplerate) ∧
    d - (d + 90000 * 1536 / audio.in_samplerate / 2) / (90000 * 1536 / audio.in_samplerate)
        * (90000 * 1536 / audio.in_samplerate) <
      90000 * 1536 / audio.in_samplerate - 90000 * 1536 / audio.in_samplerate / 2 ∧
    (∀ (job : hb_job_t) (common : hb_sync_common_t) (sy : hb_sync_audio_t) (buf : hb_buffer_t),
      (syncAudioWork job audio common sy buf).pushed ≠ [] →
      6300 ≤ buf.start - common.audio_passthru_slip - sy.next_pts ∧
      buf.start - common.audio_passthru_slip - sy.next_pts ≤ 5400000 ∧
      (syncAudioWork job audio common sy buf).pushed =
        (InsertSilence audio sy (buf.start - common.audio_passthru_slip - sy.next_pts)).2) := by
  have hF1 : 1 ≤ 90000 * 1536 / audio.in_samplerate := by
    have : audio.in_samplerate * 1 ≤ 90000 * 1536 := by omega
    exact (Int.le_ediv_iff_mul_le hr).mpr (by omega)
  have hFle : 90000 * 1536 / audio.in_samplerate ≤ 138240000 := by
    have := Int.ediv_le_self (b := audio.in_samplerate) (a := 90000 * 1536) (by norm_num)
    omega
  have hcall : ∀ (job : hb_job_t) (common : hb_sync_common_t) (sy : hb_sync_audio_t)
      (buf : hb_buffer_t), (syncAudioWork job audio common sy buf).pushed ≠ [] →
      6300 ≤ buf.start - common.audio_passthru_slip - sy.next_pts ∧
      buf.start - common.audio_passthru_slip - sy.next_pts ≤ 5400000 ∧
      (syncAudioWork job audio common sy buf).pushed =
        (InsertSilence audio sy (buf.start - common.audio_passthru_slip - sy.next_pts)).2 := by
    intro job common sy buf hp
    obtain ⟨a, b, c⟩ := syncAudioWork_pushed job audio common sy buf hp
    exact ⟨by omega, by omega, c⟩
  have hfit : (d + 90000 * 1536 / audio.in_samplerate / 2) /
      (90000 * 1536 / audio.in_samplerate) < 2147483648 := by
    have : (d + 90000 * 1536 / audio.in_samplerate / 2) / (90000 * 1536 / audio.in_samplerate)
        ≤ d + 90000 * 1536 / audio.in_samplerate / 2 := Int.ediv_le_self _ (by omega)
    omega
  generalize hFdef : 90000 * 1536 / audio.in_samplerate = F at *
  have hn0 : 0 ≤ (d + F / 2) / F := Int.ediv_nonneg (by omega) (by omega)
  refine ⟨?_, ?_, ?_, hcall⟩
  · rw [insertSilence_length, Int.toNat_of_nonneg]
    · rw [silenceFrameCount_eq audio d hr hd (by rw [hFdef]; exact hfit), hFdef]
    · rw [silenceFrameCount_eq audio d hr hd (by rw [hFdef]; exact hfit), hFdef]
      exact hn0
  · have h1 := Int.ediv_add_emod (d + F / 2) F
    have h2 := Int.emod_nonneg (d + F / 2) (show F ≠ 0 by omega)
    have h3 : (d + F / 2) / F * F = F * ((d + F / 2) / F) := Int.mul_comm _ _
    omega
  · have h1 := Int.ediv_add_emod (d + F / 2) F
    have h2 := Int.emod_lt_of_pos (d + F / 2) (show 0 < F by omega)
    have h3 : (d + F / 2) / F * F = F * ((d + F / 2) / F) := Int.mul_comm _ _
    omega

/-- Scenario C: at 48 kHz a gap of 6400 ticks gives F = 2880 and two frames,
and the call of syncAudioWork that meets this gap pushes them. -/
theorem silence_frame_count_witness :
    ((InsertSilence (exAudio hb_acodec.HB_ACODEC_OTHER) exAudioSync 6400).2.length : Int) =
      (6400 + 90000 * 1536 / (exAudio hb_acodec.HB_ACODEC_OTHER).in_samplerate / 2) /
        (90000 * 1536 / (exAudio hb_acodec.HB_ACODEC_OTHER).in_samplerate) ∧
    (90000 * 1536 / (exAudio hb_acodec.HB_ACODEC_OTHER).in_samplerate : Int) = 2880 ∧
    (InsertSilence (exAudio hb_acodec.HB_ACODEC_OTHER) exAudioSync 6400).2.length = 2 ∧
    (syncAudioWork exJob (exAudio hb_acodec.HB_ACODEC_OTHER) initCommon exAudioSync
        (exAudioBuf 96400 99280)).pushed.map (fun b => (b.start, b.stop)) =
      [(90000, 92880), (92880, 95760)] :=
  ⟨(silence_frame_count (exAudio hb_acodec.HB_ACODEC_OTHER) exAudioSync 6400
      (by decide) (by decide) (by decide) (by decide)).1,
   by decide, by decide, by decide⟩

/-- In a queue whose entries before the last are not end-of-stream buffers,
nothing follows an end-of-stream buffer. -/
theorem eof_is_last (pre : List hb_buffer_t) (e : hb_buffer_t) (rest : List hb_buffer_t)
    (hlast : ∀ b ∈ (pre ++ e :: rest).dropLast, 0 < b.size) (he : e.size ≤ 0) : rest = [] := by
  cases rest with
  | nil => rfl
  | cons r rs =>
    exfalso
    have hmem : e ∈ (pre ++ e :: r :: rs).dropLast := by
      rw [List.dropLast_append_of_ne_nil _ (by simp)]
      simp [List.dropLast]
    have := hlast e hmem
    omega

/-- C26: for a CC608, CC708 or SRT track whose raw queue has the end-of-stream
buffer, if any, as its last entry, one pass of the alignment loop against the
held frame cur leaves cur and the sync queue of the track alone and moves to
the out queue, in queue order, the longest prefix of the raw queue whose
entries are not end-of-stream buffers and start before cur.start (the entry
behind the prefix fails that test), and also the end-of-stream buffer if it
is the entry right behind the prefix.  Everything else stays in the raw queue
in its order: out queue followed by raw queue is the same list before and
after.  A head that remains is not an end-of-stream buffer and starts at
cur.start or later. -/
theorem text_drain_rule (cur : hb_buffer_t) (s : hb_subtitle_t)
    (hsrc : s.source = hb_subtitle_source.CC608SUB ∨ s.source = hb_subtitle_source.CC708SUB ∨
      s.source = hb_subtitle_source.SRTSUB)
    (hlast : ∀ b ∈ s.fifo_raw.dropLast, 0 < b.size) :
    (syncSubtitle cur s).1 = cur ∧
    (syncSubtitle cur s).2.fifo_sync = s.fifo_sync ∧
    (∀ b ∈ s.fifo_raw.takeWhile (textDue cur), 0 < b.size ∧ b.start < cur.start) ∧
    (∀ e, (s.fifo_raw.dropWhile (textDue cur)).head? = some e →
      ¬ (0 < e.size ∧ e.start < cur.start)) ∧
    (∀ e rest, s.fifo_raw.dropWhile (textDue cur) = e :: rest → e.size ≤ 0 →
      (syncSubtitle cur s).2.fifo_out =
        s.fifo_out ++ s.fifo_raw.takeWhile (textDue cur) ++ [e] ∧
      (syncSubtitle cur s).2.fifo_raw = [] ∧ rest = []) ∧
    ((∀ e, (s.fifo_raw.dropWhile (textDue cur)).head? = some e → 0 < e.size) →
      (syncSubtitle cur s).2.fifo_out = s.fifo_out ++ s.fifo_raw.takeWhile (textDue cur) ∧
      (syncSubtitle cur s).2.fifo_raw = s.fifo_raw.dropWhile (textDue cur)) ∧
    (syncSubtitle cur s).2.fifo_out ++ (syncSubtitle cur s).2.fifo_raw =
      s.fifo_out ++ s.fifo_raw ∧
    (∀ b, (syncSubtitle cur s).2.fifo_raw.head? = some b → 0 < b.size ∧ cur.start ≤ b.start) := by
  have hs : syncSubtitle cur s =
      (cur, { s with fifo_raw := (drainText cur s.fifo_raw s.fifo_out).1,
                     fifo_out := (drainText cur s.fifo_raw s.fifo_out).2 }) := by
    unfold syncSubtitle
    rw [if_pos hsrc]
  have hsplit := List.takeWhile_append_dropWhile (textDue cur) s.fifo_raw
  have hnot : ∀ e, (s.fifo_raw.dropWhile (textDue cur)).head? = some e →
      ¬ (0 < e.size ∧ e.start < cur.start) := by
    intro e he
    cases hd : s.fifo_raw.dropWhile (textDue cur) with
    | nil => rw [hd] at he; cases he
    | cons x rest =>
      rw [hd] at he
      simp only [List.head?_cons, Option.some.injEq] at he
      subst he
      have hnd : ¬ textDue cur x = true := by
        have := List.head_dropWhile_not (textDue cur) s.fifo_raw (by rw [hd]; simp)
        simpa [hd] using this
      simpa only [textDue, decide_eq_true_eq] using hnd
  rw [hs, drainText_eq]
  refine ⟨rfl, rfl, ?_, hnot, ?_, ?_, ?_, ?_⟩
  · intro b hb
    have := List.mem_takeWhile_imp hb
    simpa [textDue] using this
  · intro e rest hd he
    have hrest : rest = [] := by
      rw [← hsplit, hd] at hlast
      exact eof_is_last _ e rest hlast he
    simp only [hd, if_pos he]
    exact ⟨trivial, hrest, hrest⟩
  · intro hne
    cases hd : s.fifo_raw.dropWhile (textDue cur) with
    | nil => simp
    | cons e rest =>
      have hpos : 0 < e.size := hne e (by rw [hd]; rfl)
      simp only [if_neg (not_le.mpr hpos)]
      exact ⟨trivial, trivial⟩
  · cases hd : s.fifo_raw.dropWhile (textDue cur) with
    | nil =>
      rw [hd] at hsplit
      simp only [List.append_nil] at hsplit ⊢
      rw [hsplit]
    | cons e rest =>
      rw [hd] at hsplit
      have hraw : s.fifo_out ++ s.fifo_raw =
          s.fifo_out ++ (s.fifo_raw.takeWhile (textDue cur) ++ e :: rest) := by
        rw [hsplit]
      by_cases he : e.size ≤ 0
      · simp only [if_pos he]
        rw [hraw]
        simp
      · simp only [if_neg he]
        rw [hraw]
        simp
  · intro b hb
    cases hd : s.fifo_raw.dropWhile (textDue cur) with
    | nil => rw [hd] at hb; simp at hb
    | cons e rest =>
      rw [hd] at hb
      by_cases he : e.size ≤ 0
      · have hrest : rest = [] := by
          rw [← hsplit, hd] at hlast
          exact eof_is_last _ e rest hlast he
        simp only [if_pos he, hrest] at hb
        simp at hb
      · simp only [if_neg he, List.head?_cons, Option.some.injEq] at hb
        subst hb
        have := hnot e (by rw [hd]; rfl)
        constructor
        · omega
        · by_contra hlt
          exact this ⟨by omega, by omega⟩

/-- The track c26Track against a held frame that starts at 100: the subtitles
at 10 and 50 go out, the one at 150 stays at the head.  Against a held frame
that starts at 200 all three go out, and the end-of-stream buffer with them. -/
theorem text_drain_rule_witness :
    ((syncSubtitle (exFrame 100 0 1) c26Track).2.fifo_out ++
        (syncSubtitle (exFrame 100 0 1) c26Track).2.fifo_raw =
      c26Track.fifo_out ++ c26Track.fifo_raw ∧
     ∀ b, (syncSubtitle (exFrame 100 0 1) c26Track).2.fifo_raw.head? = some b →
       0 < b.size ∧ (exFrame 100 0 1).start ≤ b.start) ∧
    (syncSubtitle (exFrame 100 0 1) c26Track).2.fifo_out = [exSub 10 20 1, exSub 50 60 2] ∧
    (syncSubtitle (exFrame 100 0 1) c26Track).2.fifo_raw =
      [exSub 150 160 3, hb_buffer_init 0] ∧
    (syncSubtitle (exFrame 200 0 1) c26Track).2.fifo_out =
      [exSub 10 20 1, exSub 50 60 2, exSub 150 160 3, hb_buffer_init 0] ∧
    (syncSubtitle (exFrame 200 0 1) c26Track).2.fifo_raw = [] :=
  ⟨(text_drain_rule (exFrame 100 0 1) c26Track (Or.inr (Or.inr rfl)) (by decide)).2.2.2.2.2.2,
   by decide, by decide, by decide, by decide⟩

end Sync
